import Mathlib

/-!
# Pipeline controller of ks-devops: reconciliation of one work-queue key

Shallow embedding of `controllers/jenkins/pipeline/pipeline_controller.go`
(`Controller.syncHandler`, `Controller.updatePipeline`,
`Controller.processNextWorkItem` and the update handler of `NewController`).
The token operator of `pkg/models/auth/token.go` and the Sonar getter of
`pkg/models/devops/project_pipeline_sonar_handler.go` follow in their own
namespaces.

* The Jenkins adapter (`devopsClient.Interface`) and the Kubernetes client for
  Pipelines are interfaces in the source; here they are records of transition
  functions over an arbitrary state, so that a theorem quantifies over every
  behaviour an implementation can show.
* Every call that leaves the process is appended to `World.calls`.
* A Go `map[string]string` is an association list under an `Option`
  (`none` is the nil map); a Go `[]string` is a list under an `Option`
  (`none` is the nil slice), because `reflect.DeepEqual` tells nil from empty.
* A run ends by returning an `error` (possibly nil) or by a runtime panic.
-/

set_option linter.unusedSectionVars false

namespace PipelineController

/-! ## Go values -/

/-- A non-nil Go `map[string]string`: an association list; a key is bound to
the value of its first entry. -/
abbrev StringMap := List (String × String)

/-- The two-value read `v, ok := m[k]`; `none` when the key is absent or the
map is nil. -/
def mapGet? (m : Option StringMap) (k : String) : Option String :=
  match m with
  | none => none
  | some l => l.lookup k

/-- The one-value read `m[k]`: the zero value `""` when the key is absent or
the map is nil. -/
def mapIndex (m : Option StringMap) (k : String) : String :=
  (mapGet? m k).getD ""

/-- The assignment `m[k] = v` on a non-nil map: the entries of `k` are
replaced by the new one. -/
def mapSet (l : StringMap) (k v : String) : StringMap :=
  (k, v) :: l.filter (fun entry => entry.1 != k)

/-- The keys bound in a non-nil map (with repetitions). -/
def mapKeys (l : StringMap) : List String :=
  l.map Prod.fst

/-- What `reflect.DeepEqual` computes on two `map[string]string`: both nil, or
both non-nil with the same keys bound to the same values. -/
def mapDeepEqual : Option StringMap → Option StringMap → Bool
  | none, none => true
  | some a, some b =>
    (mapKeys a ++ mapKeys b).all (fun k => decide (a.lookup k = b.lookup k))
  | _, _ => false

/-- A Go `error` value that is not nil. The constructors are the dynamic types
the controller distinguishes: `restful.ServiceError`,
`*devopsClient.ErrorResponse`, the API machinery's `*errors.StatusError`
(identified by its reason) and any other error (`errors.New`, `fmt.Errorf`). -/
inductive GoError where
  | ServiceError (Code : Nat) (Message : String)
  | ErrorResponse (StatusCode : Nat) (Message : String)
  | StatusError (Reason : String) (Message : String)
  | errorString (s : String)
deriving DecidableEq, Repr

/-- The API machinery's `errors.IsNotFound`. -/
def IsNotFound : GoError → Bool
  | .StatusError reason _ => reason == "NotFound"
  | _ => false

/-- The API machinery's `errors.IsConflict`. -/
def IsConflict : GoError → Bool
  | .StatusError reason _ => reason == "Conflict"
  | _ => false

/-- The constant `http.StatusNotFound`. -/
def StatusNotFound : Nat := 404

/-- How a Go function of result type `error` ends: it returns (nil or an
error) or it panics. -/
inductive Outcome where
  | returned (err : Option GoError)
  | panicked
deriving DecidableEq, Repr

/-! ## Constants of the API package -/

/-- Modelled from the spec: `devopsv1alpha3.PipelineFinalizerName`, the
finalizer token of the Pipeline controller; the declaration is not among the
sources. -/
def PipelineFinalizerName : String := "pipeline.finalizers.kubesphere.io"

/-- Modelled from the spec: `devopsv1alpha3.PipelineSyncStatusAnnoKey`, the key
of the sync-status annotation; the declaration is not among the sources. -/
def PipelineSyncStatusAnnoKey : String := "pipeline.devops.kubesphere.io/syncstatus"

/-- Modelled from the spec: `devopsv1alpha3.PipelineSpecHash`, the key of the
spec-hash annotation; the declaration is not among the sources. -/
def PipelineSpecHash : String := "pipeline.devops.kubesphere.io/spechash"

/-- Modelled from the spec: `constants.StatusSuccessful`, the value the
sync-status annotation reads after a successful sync; the declaration is not
among the sources. -/
def StatusSuccessful : String := "successful"

/-! ## The managed resource -/

/-- The fields of `metav1.ObjectMeta` the controller reads or writes.
`DeletionTimestamp` is a `*metav1.Time`: `none` is the nil pointer and
`some 0` the zero instant. -/
structure ObjectMeta where
  Name : String
  Namespace : String
  ResourceVersion : String
  DeletionTimestamp : Option Nat
  Labels : Option StringMap
  Annotations : Option StringMap
  Finalizers : Option (List String)
deriving DecidableEq, Repr

/-- The method `(*metav1.Time).IsZero`: true for the nil pointer and for the
zero instant. -/
def TimeIsZero : Option Nat → Bool
  | none => true
  | some t => t == 0

/-- The resource `devopsv1alpha3.Pipeline`; `Meta` is its embedded
`metav1.ObjectMeta`. Its spec and status types are parameters: the controller
only copies them, compares them and hashes the spec. -/
structure Pipeline (Spec Status : Type) where
  Meta : ObjectMeta
  Spec : Spec
  Status : Status
deriving DecidableEq, Repr

/-- What `reflect.DeepEqual` computes on two `ObjectMeta` values. -/
def ObjectMeta.DeepEqual (a b : ObjectMeta) : Bool :=
  a.Name == b.Name && a.Namespace == b.Namespace &&
  a.ResourceVersion == b.ResourceVersion &&
  decide (a.DeletionTimestamp = b.DeletionTimestamp) &&
  mapDeepEqual a.Labels b.Labels &&
  mapDeepEqual a.Annotations b.Annotations &&
  decide (a.Finalizers = b.Finalizers)

/-- What `reflect.DeepEqual` computes on two Pipelines. -/
def Pipeline.DeepEqual {Spec Status : Type} [DecidableEq Spec] [DecidableEq Status]
    (a b : Pipeline Spec Status) : Bool :=
  a.Meta.DeepEqual b.Meta && decide (a.Spec = b.Spec) && decide (a.Status = b.Status)

/-! ## Helpers of package `sliceutil` and of client-go -/

/-- Modelled from the spec: `sliceutil.HasString`, whether the finalizer token
is present in the slice; the function is not among the sources. -/
def HasString (slice : Option (List String)) (str : String) : Bool :=
  match slice with
  | none => false
  | some l => l.contains str

/-- Modelled from the spec: `sliceutil.RemoveString`, which strips from the
slice every item the predicate selects; the function is not among the
sources. A nil slice stays nil. -/
def RemoveString (slice : Option (List String)) (remove : String → Bool) :
    Option (List String) :=
  match slice with
  | none => none
  | some l => some (l.filter (fun item => !remove item))

/-- The builtin `append(slice, item)`; the result is never nil. -/
def appendString (slice : Option (List String)) (item : String) : Option (List String) :=
  match slice with
  | none => some [item]
  | some l => some (l ++ [item])

/-- The pieces of `strings.Split(s, "/")` on the characters of `s`. -/
def splitSlash : List Char → List (List Char)
  | [] => [[]]
  | c :: cs =>
    if c = '/' then [] :: splitSlash cs
    else
      match splitSlash cs with
      | [] => [[c]]
      | part :: parts => (c :: part) :: parts

/-- The function `cache.SplitMetaNamespaceKey` of client-go: a key is `name` or
`namespace/name`; anything else is an error. -/
def SplitMetaNamespaceKey (key : String) : Except GoError (String × String) :=
  match splitSlash key.data with
  | [name] => .ok ("", String.mk name)
  | [ns, name] => .ok (String.mk ns, String.mk name)
  | _ => .error (.errorString ("unexpected key format: " ++ key))

/-! ## The controller and its environment -/

section Controller

variable {Spec Status J K : Type}

/-- A call that leaves the process: the four adapter operations of
`devopsClient.Interface` the controller uses, and the Get and Update of the
Kubernetes client for Pipelines. -/
inductive Call (Spec Status : Type) where
  | GetProjectPipelineConfig (projectId pipelineId : String)
  | CreateProjectPipeline (projectId : String) (pipeline : Pipeline Spec Status)
  | UpdateProjectPipeline (projectId : String) (pipeline : Pipeline Spec Status)
  | DeleteProjectPipeline (projectId pipelineId : String)
  | PipelinesGet (ns name : String)
  | PipelinesUpdate (ns : String) (pipeline : Pipeline Spec Status)
deriving DecidableEq, Repr

/-- Whether the call goes to the Jenkins adapter. -/
def Call.isAdapter : Call Spec Status → Bool
  | .GetProjectPipelineConfig _ _ => true
  | .CreateProjectPipeline _ _ => true
  | .UpdateProjectPipeline _ _ => true
  | .DeleteProjectPipeline _ _ => true
  | _ => false

/-- Whether the call goes to the Kubernetes client (Get or Update of a
Pipeline). -/
def Call.isKube : Call Spec Status → Bool
  | .PipelinesGet _ _ => true
  | .PipelinesUpdate _ _ => true
  | _ => false

/-- Whether the call is a persistence write (an Update of a Pipeline). -/
def Call.isWrite : Call Spec Status → Bool
  | .PipelinesUpdate _ _ => true
  | _ => false

/-- The part of `devopsClient.Interface` the controller calls. An
implementation is any state `J` with these transitions; each call returns the
Go result pair (value or error) and the next state. -/
structure DevOpsInterface (Spec Status J : Type) where
  GetProjectPipelineConfig : J → String → String → Except GoError (Pipeline Spec Status) × J
  CreateProjectPipeline : J → String → Pipeline Spec Status → Except GoError String × J
  UpdateProjectPipeline : J → String → Pipeline Spec Status → Except GoError String × J
  DeleteProjectPipeline : J → String → String → Except GoError String × J

/-- The part of the generated clientset the controller calls:
`DevopsV1alpha3().Pipelines(ns).Get(name)` and `.Update(pipeline)`. -/
structure PipelineInterface (Spec Status K : Type) where
  Get : K → String → String → Except GoError (Pipeline Spec Status) × K
  Update : K → String → Pipeline Spec Status → Except GoError (Pipeline Spec Status) × K

/-- The fields of `Controller` that `syncHandler` uses. The lister reads the
informer cache, which the controller never writes: it is a function of
namespace and name. `ComputeHash` stands for `utils.ComputeHash`, a function of
this repository that is not among the sources. -/
structure Controller (Spec Status J K : Type) where
  devOpsProjectLister : String → String → Except GoError (Pipeline Spec Status)
  devopsClient : DevOpsInterface Spec Status J
  kubesphereClient : PipelineInterface Spec Status K
  ComputeHash : Spec → String

/-- The state outside the controller: the adapter's state, the API server's
state, and the calls made so far, oldest first. -/
structure World (Spec Status J K : Type) where
  jenkins : J
  kube : K
  calls : List (Call Spec Status)

/-- The field `Steps` of `retry.DefaultRetry` of client-go. -/
def DefaultRetrySteps : Nat := 5

/-- The function `retry.RetryOnConflict` of client-go, for a backoff of
`steps` steps: `fn` is run until it returns nil, returns an error that is not
a conflict, or has been run `steps` times, in which case the last conflict
error is returned. The sleep between attempts is not modelled. -/
def RetryOnConflict {W : Type} (fn : W → Outcome × W) :
    Nat → Option GoError → W → Outcome × W
  | 0, lastErr, w => (.returned lastErr, w)
  | steps + 1, _, w =>
    match fn w with
    | (.returned none, w1) => (.returned none, w1)
    | (.returned (some err), w1) =>
      if IsConflict err then RetryOnConflict fn steps (some err) w1
      else (.returned (some err), w1)
    | (.panicked, w1) => (.panicked, w1)

/-- The state after the first `n` runs of `fn`, each run starting where the
run before ended: the state in which attempt `n + 1` of a retry loop starts. -/
def afterAttempts {W : Type} (fn : W → Outcome × W) : Nat → W → W
  | 0, w => w
  | n + 1, w => afterAttempts fn n (fn w).2

/-- The comparison of lines 334 to 336: the re-fetched Pipeline already has
the desired sync-status annotation, spec-hash annotation and finalizers. -/
def ownedFieldsAgree (newPipeline pipeline : Pipeline Spec Status) : Bool :=
  decide (mapIndex newPipeline.Meta.Annotations PipelineSyncStatusAnnoKey
      = mapIndex pipeline.Meta.Annotations PipelineSyncStatusAnnoKey) &&
  decide (mapIndex newPipeline.Meta.Annotations PipelineSpecHash
      = mapIndex pipeline.Meta.Annotations PipelineSpecHash) &&
  decide (newPipeline.Meta.Finalizers = pipeline.Meta.Finalizers)

/-- The assignments of lines 339 to 344 on the re-fetched Pipeline: when the
desired annotation map is not nil the two owned annotations are assigned, and
the finalizers are replaced. The result is `none` when an annotation is
assigned into a nil map, which panics. -/
def mergeOwnedFields (newPipeline pipeline : Pipeline Spec Status) :
    Option (Pipeline Spec Status) :=
  match pipeline.Meta.Annotations with
  | none =>
    some { newPipeline with
      Meta := { newPipeline.Meta with Finalizers := pipeline.Meta.Finalizers } }
  | some _ =>
    match newPipeline.Meta.Annotations with
    | none => none
    | some m =>
      some { newPipeline with
        Meta := { newPipeline.Meta with
          Annotations := some (mapSet
            (mapSet m PipelineSyncStatusAnnoKey
              (mapIndex pipeline.Meta.Annotations PipelineSyncStatusAnnoKey))
            PipelineSpecHash (mapIndex pipeline.Meta.Annotations PipelineSpecHash)),
          Finalizers := pipeline.Meta.Finalizers } }

/-- The closure `updatePipeline` hands to `RetryOnConflict` (lines 328 to
347): re-fetch the Pipeline, return nil when the owned fields already agree,
otherwise overwrite the two annotations and the finalizers on the re-fetched
object and write it. -/
def updatePipelineAttempt
    (c : Controller Spec Status J K) (name nsName : String)
    (pipeline : Pipeline Spec Status) (w : World Spec Status J K) :
    Outcome × World Spec Status J K :=
  let got := c.kubesphereClient.Get w.kube nsName name
  let w1 : World Spec Status J K :=
    { w with kube := got.2, calls := w.calls ++ [Call.PipelinesGet nsName name] }
  match got.1 with
  | .error err => (.returned (some err), w1)
  | .ok newPipeline =>
    if ownedFieldsAgree newPipeline pipeline then (.returned none, w1)
    else
      match mergeOwnedFields newPipeline pipeline with
      | none => (.panicked, w1)
      | some written =>
        let put := c.kubesphereClient.Update w1.kube nsName written
        let w2 : World Spec Status J K :=
          { w1 with kube := put.2, calls := w1.calls ++ [Call.PipelinesUpdate nsName written] }
        match put.1 with
        | .error err => (.returned (some err), w2)
        | .ok _ => (.returned none, w2)

/-- The method `Controller.updatePipeline` (lines 327 to 348). -/
def updatePipeline
    (c : Controller Spec Status J K) (name nsName : String)
    (pipeline : Pipeline Spec Status) (w : World Spec Status J K) :
    Outcome × World Spec Status J K :=
  RetryOnConflict (updatePipelineAttempt c name nsName pipeline) DefaultRetrySteps none w

/-- The final persistence step of `syncHandler` (lines 315 to 323): the copy is
written back only when it is not deep-equal to the Pipeline read from the
cache. -/
def persistIfChanged [DecidableEq Spec] [DecidableEq Status]
    (c : Controller Spec Status J K) (name nsName : String)
    (pipeline copyPipeline : Pipeline Spec Status) (w : World Spec Status J K) :
    Outcome × World Spec Status J K :=
  if Pipeline.DeepEqual pipeline copyPipeline then (.returned none, w)
  else updatePipeline c name nsName copyPipeline w

/-- The branch of `syncHandler` for a Pipeline whose deletion timestamp is zero
(lines 239 to 283), followed by the persistence step. -/
def syncActive [DecidableEq Spec] [DecidableEq Status]
    (c : Controller Spec Status J K) (name nsName : String)
    (pipeline : Pipeline Spec Status) (w : World Spec Status J K) :
    Outcome × World Spec Status J K :=
  -- make sure Annotations is not nil
  let annotations0 : StringMap := pipeline.Meta.Annotations.getD []
  -- if the sync is successful and the spec hash is the recorded one, return
  let specHash := c.ComputeHash pipeline.Spec
  let oldHash := mapIndex (some annotations0) PipelineSpecHash
  let successful : Bool :=
    match mapGet? (some annotations0) PipelineSyncStatusAnnoKey with
    | some state => state == StatusSuccessful
    | none => false
  if successful && specHash == oldHash then (.returned none, w)
  else
    let annotations1 : StringMap :=
      if successful then mapSet annotations0 PipelineSpecHash specHash else annotations0
    let finalizers1 : Option (List String) :=
      if !HasString pipeline.Meta.Finalizers PipelineFinalizerName then
        appendString pipeline.Meta.Finalizers PipelineFinalizerName
      else pipeline.Meta.Finalizers
    let copy1 : Pipeline Spec Status :=
      { pipeline with
        Meta := { pipeline.Meta with
          Annotations := some annotations1, Finalizers := finalizers1 } }
    let finish (w2 : World Spec Status J K) : Outcome × World Spec Status J K :=
      let copy2 : Pipeline Spec Status :=
        { copy1 with
          Meta := { copy1.Meta with
            Annotations := some (mapSet annotations1 PipelineSyncStatusAnnoKey StatusSuccessful) } }
      persistIfChanged c name nsName pipeline copy2 w2
    -- check the pipeline config exists, otherwise create it
    let got := c.devopsClient.GetProjectPipelineConfig w.jenkins nsName pipeline.Meta.Name
    let w1 : World Spec Status J K :=
      { w with jenkins := got.2,
               calls := w.calls ++ [Call.GetProjectPipelineConfig nsName pipeline.Meta.Name] }
    match got.1 with
    | .ok jenkinsPipeline =>
      if jenkinsPipeline.Spec ≠ copy1.Spec then
        let upd := c.devopsClient.UpdateProjectPipeline w1.jenkins nsName copy1
        let w2 : World Spec Status J K :=
          { w1 with jenkins := upd.2,
                    calls := w1.calls ++ [Call.UpdateProjectPipeline nsName copy1] }
        match upd.1 with
        | .error err => (.returned (some err), w2)
        | .ok _ => finish w2
      else finish w1
    | .error _ =>
      let crt := c.devopsClient.CreateProjectPipeline w1.jenkins nsName copy1
      let w2 : World Spec Status J K :=
        { w1 with jenkins := crt.2,
                  calls := w1.calls ++ [Call.CreateProjectPipeline nsName copy1] }
      match crt.1 with
      | .error err => (.returned (some err), w2)
      | .ok _ => finish w2

/-- The test of lines 245 to 248 on the Pipeline read from the cache: its
sync-status annotation is present and reads successful, and the hash of its
spec is the recorded spec hash. When it holds the run returns at line 251. -/
def shortCircuited (c : Controller Spec Status J K) (pipeline : Pipeline Spec Status) : Bool :=
  (match mapGet? pipeline.Meta.Annotations PipelineSyncStatusAnnoKey with
    | some state => state == StatusSuccessful
    | none => false) &&
  c.ComputeHash pipeline.Spec == mapIndex pipeline.Meta.Annotations PipelineSpecHash

/-- The local copy as it stands when the adapter is called (after line 259):
the annotation map is not nil, the spec hash is recorded when the sync-status
read successful, and the finalizer is present. -/
def adapterCopy (c : Controller Spec Status J K) (pipeline : Pipeline Spec Status) :
    Pipeline Spec Status :=
  { pipeline with
    Meta := { pipeline.Meta with
      Annotations := some
        (if (match mapGet? (some (pipeline.Meta.Annotations.getD []))
                    PipelineSyncStatusAnnoKey with
              | some state => state == StatusSuccessful
              | none => false)
         then mapSet (pipeline.Meta.Annotations.getD []) PipelineSpecHash
                (c.ComputeHash pipeline.Spec)
         else pipeline.Meta.Annotations.getD []),
      Finalizers :=
        if !HasString pipeline.Meta.Finalizers PipelineFinalizerName then
          appendString pipeline.Meta.Finalizers PipelineFinalizerName
        else pipeline.Meta.Finalizers } }

/-- The local copy after line 283: the adapter copy with the sync-status
annotation set to successful. -/
def finalCopy (c : Controller Spec Status J K) (pipeline : Pipeline Spec Status) :
    Pipeline Spec Status :=
  { adapterCopy c pipeline with
    Meta := { (adapterCopy c pipeline).Meta with
      Annotations := some (mapSet ((adapterCopy c pipeline).Meta.Annotations.getD [])
        PipelineSyncStatusAnnoKey StatusSuccessful) } }

/-- The local copy of a terminating Pipeline after line 306: the finalizer
token is stripped. -/
def strippedCopy (pipeline : Pipeline Spec Status) : Pipeline Spec Status :=
  { pipeline with
    Meta := { pipeline.Meta with
      Finalizers := RemoveString pipeline.Meta.Finalizers
        (fun item => item == PipelineFinalizerName) } }

/-- The calls a run made: what it appended to the log of calls it started
from. -/
def callsMade (before after : World Spec Status J K) : List (Call Spec Status) :=
  after.calls.drop before.calls.length

/-- The world after the call of `GetProjectPipelineConfig` at line 263. -/
def afterGetConfig (c : Controller Spec Status J K) (nsName : String)
    (pipeline : Pipeline Spec Status) (w : World Spec Status J K) : World Spec Status J K :=
  { w with
    jenkins := (c.devopsClient.GetProjectPipelineConfig w.jenkins nsName pipeline.Meta.Name).2,
    calls := w.calls ++ [Call.GetProjectPipelineConfig nsName pipeline.Meta.Name] }

/-- The world after the calls of `GetProjectPipelineConfig` and
`UpdateProjectPipeline` (lines 263 and 266). -/
def afterUpdateJob (c : Controller Spec Status J K) (nsName : String)
    (pipeline : Pipeline Spec Status) (w : World Spec Status J K) : World Spec Status J K :=
  { afterGetConfig c nsName pipeline w with
    jenkins := (c.devopsClient.UpdateProjectPipeline
      (afterGetConfig c nsName pipeline w).jenkins nsName (adapterCopy c pipeline)).2,
    calls := (afterGetConfig c nsName pipeline w).calls ++
      [Call.UpdateProjectPipeline nsName (adapterCopy c pipeline)] }

/-- The world after the calls of `GetProjectPipelineConfig` and
`CreateProjectPipeline` (lines 263 and 275). -/
def afterCreateJob (c : Controller Spec Status J K) (nsName : String)
    (pipeline : Pipeline Spec Status) (w : World Spec Status J K) : World Spec Status J K :=
  { afterGetConfig c nsName pipeline w with
    jenkins := (c.devopsClient.CreateProjectPipeline
      (afterGetConfig c nsName pipeline w).jenkins nsName (adapterCopy c pipeline)).2,
    calls := (afterGetConfig c nsName pipeline w).calls ++
      [Call.CreateProjectPipeline nsName (adapterCopy c pipeline)] }

/-- The world after the call of `DeleteProjectPipeline` at line 288. -/
def afterDeleteJob (c : Controller Spec Status J K) (nsName : String)
    (pipeline : Pipeline Spec Status) (w : World Spec Status J K) : World Spec Status J K :=
  { w with
    jenkins := (c.devopsClient.DeleteProjectPipeline w.jenkins nsName pipeline.Meta.Name).2,
    calls := w.calls ++ [Call.DeleteProjectPipeline nsName pipeline.Meta.Name] }

/-- What a call of the persistence step of a run on `pipeline` looks like: a
Get of the keyed Pipeline, or an Update whose object is some re-fetched
Pipeline with the owned fields of `pipeline` merged in. -/
def PersistenceCall (c : Controller Spec Status J K) (name nsName : String)
    (pipeline : Pipeline Spec Status) (call : Call Spec Status) : Prop :=
  call = Call.PipelinesGet nsName name ∨
  ∃ k newPipeline written,
    (c.kubesphereClient.Get k nsName name).1 = .ok newPipeline ∧
    mergeOwnedFields newPipeline pipeline = some written ∧
    call = Call.PipelinesUpdate nsName written

/-- Whether the error `DeleteProjectPipeline` returned counts as a successful
deletion (lines 290 to 296): a `restful.ServiceError` or an `*ErrorResponse`
whose status is 404; an error of any other type does not. -/
def deleteErrorMeansGone : GoError → Bool
  | .ServiceError code _ => code == StatusNotFound
  | .ErrorResponse statusCode _ => statusCode == StatusNotFound
  | _ => false

/-- The error `syncHandler` returns when the Jenkins job could not be deleted
(line 310). -/
def finalizerError : GoError :=
  .errorString "failed to remove pipeline job finalizer due to bad communication with Jenkins"

/-- The branch of `syncHandler` for a Pipeline whose deletion timestamp is set
(lines 285 to 312), followed by the persistence step. -/
def syncTerminating [DecidableEq Spec] [DecidableEq Status]
    (c : Controller Spec Status J K) (name nsName : String)
    (pipeline : Pipeline Spec Status) (w : World Spec Status J K) :
    Outcome × World Spec Status J K :=
  if HasString pipeline.Meta.Finalizers PipelineFinalizerName then
    let del := c.devopsClient.DeleteProjectPipeline w.jenkins nsName pipeline.Meta.Name
    let w1 : World Spec Status J K :=
      { w with jenkins := del.2,
               calls := w.calls ++ [Call.DeleteProjectPipeline nsName pipeline.Meta.Name] }
    let delSuccess : Bool :=
      match del.1 with
      | .error err => deleteErrorMeansGone err
      | .ok _ => true
    if delSuccess then
      let copy1 : Pipeline Spec Status :=
        { pipeline with
          Meta := { pipeline.Meta with
            Finalizers := RemoveString pipeline.Meta.Finalizers
              (fun item => item == PipelineFinalizerName) } }
      persistIfChanged c name nsName pipeline copy1 w1
    else (.returned (some finalizerError), w1)
  else persistIfChanged c name nsName pipeline pipeline w

/-- The method `Controller.syncHandler` (lines 205 to 324). A key that does not
split, and a Pipeline the lister does not find, end the run with nil. -/
def syncHandler [DecidableEq Spec] [DecidableEq Status]
    (c : Controller Spec Status J K) (key : String) (w : World Spec Status J K) :
    Outcome × World Spec Status J K :=
  match SplitMetaNamespaceKey key with
  | .error _ => (.returned none, w)
  | .ok (nsName, name) =>
    match c.devOpsProjectLister nsName name with
    | .error err =>
      if IsNotFound err then (.returned none, w) else (.returned (some err), w)
    | .ok pipeline =>
      if TimeIsZero pipeline.Meta.DeletionTimestamp then syncActive c name nsName pipeline w
      else syncTerminating c name nsName pipeline w

/-- The local copy and the world with which a run of `syncHandler` on
`pipeline` arrives at the persistence step (line 315), and `none` when the run
returns before it: at line 251 (short-circuit), 270 or 278 (the adapter
refused the update or the creation of the job) or 310 (the job could not be
deleted). -/
def copyAtPersistence [DecidableEq Spec]
    (c : Controller Spec Status J K) (nsName : String)
    (pipeline : Pipeline Spec Status) (w : World Spec Status J K) :
    Option (Pipeline Spec Status × World Spec Status J K) :=
  if TimeIsZero pipeline.Meta.DeletionTimestamp then
    if shortCircuited c pipeline then none
    else
      match (c.devopsClient.GetProjectPipelineConfig w.jenkins nsName pipeline.Meta.Name).1 with
      | .ok jenkinsPipeline =>
        if jenkinsPipeline.Spec ≠ pipeline.Spec then
          match (c.devopsClient.UpdateProjectPipeline
              (afterGetConfig c nsName pipeline w).jenkins nsName (adapterCopy c pipeline)).1 with
          | .error _ => none
          | .ok _ => some (finalCopy c pipeline, afterUpdateJob c nsName pipeline w)
        else some (finalCopy c pipeline, afterGetConfig c nsName pipeline w)
      | .error _ =>
        match (c.devopsClient.CreateProjectPipeline
            (afterGetConfig c nsName pipeline w).jenkins nsName (adapterCopy c pipeline)).1 with
        | .error _ => none
        | .ok _ => some (finalCopy c pipeline, afterCreateJob c nsName pipeline w)
  else if HasString pipeline.Meta.Finalizers PipelineFinalizerName then
    if (match (c.devopsClient.DeleteProjectPipeline w.jenkins nsName pipeline.Meta.Name).1 with
        | .error err => deleteErrorMeansGone err
        | .ok _ => true)
    then some (strippedCopy pipeline, afterDeleteJob c nsName pipeline w)
    else none
  else some (pipeline, w)

end Controller

/-! ## The work queue and the event handlers -/

section WorkQueue

variable {Spec Status J K Q : Type}

/-- An item of the work queue, an `interface{}` in the source: a string key,
or a value of another dynamic type (named by a description). -/
inductive QueueItem where
  | key (s : String)
  | other (description : String)
deriving DecidableEq, Repr

/-- A call on the work queue (`workqueue.RateLimitingInterface`). -/
inductive QueueCall where
  | Get
  | Done (item : QueueItem)
  | Forget (item : QueueItem)
  | AddRateLimited (item : QueueItem)
  | Add (item : QueueItem)
deriving DecidableEq, Repr

/-- The part of `workqueue.RateLimitingInterface` the controller calls. An
implementation is any state `Q` (pending keys, keys in flight, failure
counts) with these transitions; `Get` returns the item and the shutdown
flag. -/
structure RateLimitingInterface (Q : Type) where
  Get : Q → (QueueItem × Bool) × Q
  Done : Q → QueueItem → Q
  Forget : Q → QueueItem → Q
  AddRateLimited : Q → QueueItem → Q
  Add : Q → QueueItem → Q

/-- The state of the work queue and the calls made on it so far, oldest
first. -/
structure QueueState (Q : Type) where
  queue : Q
  calls : List QueueCall

/-- How `processNextWorkItem` ends: it returns whether the worker goes on, or
the panic of `syncHandler` passes through it. -/
inductive WorkerOutcome where
  | returned (goOn : Bool)
  | panicked
deriving DecidableEq, Repr

/-- The method `Controller.processNextWorkItem` (lines 138 to 170).
`workqueue.Done` is deferred: it runs when the inner function ends, also by a
panic. -/
def processNextWorkItem [DecidableEq Spec] [DecidableEq Status]
    (c : Controller Spec Status J K) (workqueue : RateLimitingInterface Q)
    (w : World Spec Status J K) (q : QueueState Q) :
    WorkerOutcome × World Spec Status J K × QueueState Q :=
  let got := workqueue.Get q.queue
  let q1 : QueueState Q := { queue := got.2, calls := q.calls ++ [QueueCall.Get] }
  let obj := got.1.1
  if got.1.2 then (.returned false, w, q1)
  else
    let done (q2 : QueueState Q) : QueueState Q :=
      { queue := workqueue.Done q2.queue obj, calls := q2.calls ++ [QueueCall.Done obj] }
    match obj with
    | .other _ =>
      let q2 : QueueState Q :=
        { queue := workqueue.Forget q1.queue obj, calls := q1.calls ++ [QueueCall.Forget obj] }
      (.returned true, w, done q2)
    | .key key =>
      match syncHandler c key w with
      | (.returned (some _), w1) =>
        let q2 : QueueState Q :=
          { queue := workqueue.AddRateLimited q1.queue (.key key),
            calls := q1.calls ++ [QueueCall.AddRateLimited (.key key)] }
        (.returned true, w1, done q2)
      | (.returned none, w1) =>
        let q2 : QueueState Q :=
          { queue := workqueue.Forget q1.queue obj, calls := q1.calls ++ [QueueCall.Forget obj] }
        (.returned true, w1, done q2)
      | (.panicked, w1) => (.panicked, w1, done q1)

/-- The calls a step made on the work queue. -/
def queueCallsMade (before after : QueueState Q) : List QueueCall :=
  after.calls.drop before.calls.length

/-- Modelled from the spec: `devopsv1alpha3.PipelineRequestToSyncRunsAnnoKey`,
the key of the annotation that requests a sync of the pipeline runs; the
declaration is not among the sources. -/
def PipelineRequestToSyncRunsAnnoKey : String :=
  "pipeline.devops.kubesphere.io/request-to-sync-pipelineruns"

/-- The function `cache.MetaNamespaceKeyFunc` of client-go on an object with
metadata: `namespace/name`, or `name` alone when the namespace is empty. -/
def MetaNamespaceKeyFunc (objectMeta : ObjectMeta) : String :=
  if objectMeta.Namespace.length > 0 then objectMeta.Namespace ++ "/" ++ objectMeta.Name
  else objectMeta.Name

/-- The method `Controller.enqueuePipeline` (lines 127 to 136) on a Pipeline:
its key is added to the work queue. -/
def enqueuePipeline (workqueue : RateLimitingInterface Q) (obj : Pipeline Spec Status)
    (q : QueueState Q) : QueueState Q :=
  { queue := workqueue.Add q.queue (.key (MetaNamespaceKeyFunc obj.Meta)),
    calls := q.calls ++ [QueueCall.Add (.key (MetaNamespaceKeyFunc obj.Meta))] }

/-- The `UpdateFunc` handler registered in `NewController` (lines 105 to 118). -/
def UpdateFunc [DecidableEq Spec] (workqueue : RateLimitingInterface Q)
    (oldPipeline newPipeline : Pipeline Spec Status) (q : QueueState Q) : QueueState Q :=
  if oldPipeline.Meta.ResourceVersion = newPipeline.Meta.ResourceVersion then q
  else
    let requestSync : Bool :=
      (mapGet? newPipeline.Meta.Annotations PipelineRequestToSyncRunsAnnoKey).isSome
    if oldPipeline.Spec ≠ newPipeline.Spec ∨
        (ObjectMeta.DeepEqual oldPipeline.Meta newPipeline.Meta = false ∧ requestSync = false)
    then enqueuePipeline workqueue newPipeline q
    else q

end WorkQueue

/-! ## Environments used in examples -/

section Examples

variable {Spec Status : Type}

/-- An adapter holding at most one Jenkins job, in the manner of the fake
DevOps client of the tests: Get and Delete answer 404 when there is no job,
Create and Update store the job. -/
def singleJobAdapter : DevOpsInterface Spec Status (Option (Pipeline Spec Status)) where
  GetProjectPipelineConfig := fun j _ _ =>
    match j with
    | some job => (.ok job, j)
    | none => (.error (.ServiceError 404 "job not found"), j)
  CreateProjectPipeline := fun _ _ pipeline => (.ok pipeline.Meta.Name, some pipeline)
  UpdateProjectPipeline := fun _ _ pipeline => (.ok pipeline.Meta.Name, some pipeline)
  DeleteProjectPipeline := fun j _ pipelineId =>
    match j with
    | some _ => (.ok pipelineId, none)
    | none => (.error (.ServiceError 404 "job not found"), none)

/-- An API server holding at most one Pipeline: Get answers NotFound when
there is none, Update stores the object it is given. -/
def singleObjectStore : PipelineInterface Spec Status (Option (Pipeline Spec Status)) where
  Get := fun k _ _ =>
    match k with
    | some stored => (.ok stored, k)
    | none => (.error (.StatusError "NotFound" "pipeline not found"), k)
  Update := fun _ _ pipeline => (.ok pipeline, some pipeline)

/-- A controller over the single-object API server whose informer cache is in
step with the server: the lister returns the Pipeline `stored`, which the
server holds. -/
def inStepController {J : Type} (d : DevOpsInterface Spec Status J) (hash : Spec → String)
    (stored : Option (Pipeline Spec Status)) :
    Controller Spec Status J (Option (Pipeline Spec Status)) where
  devOpsProjectLister := fun _ _ =>
    match stored with
    | some pipeline => .ok pipeline
    | none => .error (.StatusError "NotFound" "pipeline not found")
  devopsClient := d
  kubesphereClient := singleObjectStore
  ComputeHash := hash

/-- One reconciliation of `key` against the single-object API server, the
informer cache holding what the server holds when the run starts. What the
run persists is what the next run reads. -/
def reconcileInStep {J : Type} [DecidableEq Spec] [DecidableEq Status]
    (d : DevOpsInterface Spec Status J) (hash : Spec → String) (key : String)
    (w : World Spec Status J (Option (Pipeline Spec Status))) :
    Outcome × World Spec Status J (Option (Pipeline Spec Status)) :=
  syncHandler (inStepController d hash w.kube) key w

/-- A controller over the two environments above whose informer cache holds
exactly the Pipeline `cached` (under every key), with a hash that prefixes the
spec, a string, by `h:`. -/
def exampleController (cached : Option (Pipeline String Unit)) :
    Controller String Unit (Option (Pipeline String Unit)) (Option (Pipeline String Unit)) where
  devOpsProjectLister := fun _ _ =>
    match cached with
    | some pipeline => .ok pipeline
    | none => .error (.StatusError "NotFound" "pipeline not found")
  devopsClient := singleJobAdapter
  kubesphereClient := singleObjectStore
  ComputeHash := fun spec => "h:" ++ spec

/-- A Pipeline `ns/foo` with the given spec, deletion timestamp, annotations
and finalizers. -/
def examplePipeline (spec : String) (deletion : Option Nat)
    (annotations : Option StringMap) (finalizers : Option (List String)) :
    Pipeline String Unit where
  Meta := { Name := "foo", Namespace := "ns", ResourceVersion := "1",
            DeletionTimestamp := deletion, Labels := none,
            Annotations := annotations, Finalizers := finalizers }
  Spec := spec
  Status := ()

/-- The world in which Jenkins holds `job`, the API server holds `stored` and
no call has been made. -/
def exampleWorld (job stored : Option (Pipeline String Unit)) :
    World String Unit (Option (Pipeline String Unit)) (Option (Pipeline String Unit)) where
  jenkins := job
  kube := stored
  calls := []

/-- An active Pipeline that was synced: it carries the finalizer, the
sync-status annotation reads successful and the recorded hash is the hash of
its spec. -/
def syncedPipeline : Pipeline String Unit :=
  examplePipeline "A" none
    (some [(PipelineSyncStatusAnnoKey, StatusSuccessful), (PipelineSpecHash, "h:A")])
    (some [PipelineFinalizerName])

/-- A terminating Pipeline that carries the finalizer and no annotation map,
as the deleting Pipeline of the tests. -/
def deletingPipeline : Pipeline String Unit :=
  examplePipeline "A" (some 1700000000) none (some [PipelineFinalizerName])

/-- An adapter whose `DeleteProjectPipeline` always fails with the given error
and whose other operations are those of `singleJobAdapter`. -/
def failingDeleteAdapter (err : GoError) :
    DevOpsInterface Spec Status (Option (Pipeline Spec Status)) :=
  { (singleJobAdapter : DevOpsInterface Spec Status (Option (Pipeline Spec Status))) with
    DeleteProjectPipeline := fun j _ _ => (.error err, j) }

/-- The run of the tests' deleting Pipeline when Jenkins has no such job: the
adapter answers the deletion with a 404. -/
def deleteAbsentJobRun : Outcome ×
    World String Unit (Option (Pipeline String Unit)) (Option (Pipeline String Unit)) :=
  syncHandler (exampleController (some deletingPipeline)) "ns/foo"
    (exampleWorld none (some deletingPipeline))

/-- The run of the tests' deleting Pipeline when Jenkins holds its job. -/
def deleteExistingJobRun : Outcome ×
    World String Unit (Option (Pipeline String Unit)) (Option (Pipeline String Unit)) :=
  syncHandler (exampleController (some deletingPipeline)) "ns/foo"
    (exampleWorld (some deletingPipeline) (some deletingPipeline))

/-- A Pipeline as a user has just created it, with an empty annotation map and
no finalizer, as the new Pipeline of the tests. -/
def freshPipeline : Pipeline String Unit :=
  examplePipeline "A" none (some []) none

/-- An active Pipeline that was synced, with the recorded hash of its spec, but
carries no finalizer. -/
def syncedPipelineWithoutFinalizer : Pipeline String Unit :=
  examplePipeline "A" none
    (some [(PipelineSyncStatusAnnoKey, StatusSuccessful), (PipelineSpecHash, "h:A")])
    none

/-- The first reconciliation of the fresh Pipeline while Jenkins has no job. -/
def firstReconcileRun : Outcome ×
    World String Unit (Option (Pipeline String Unit)) (Option (Pipeline String Unit)) :=
  syncHandler (exampleController (some freshPipeline)) "ns/foo"
    (exampleWorld none (some freshPipeline))

/-- The object the first reconciliation of the fresh Pipeline writes: the
finalizer is added, the sync-status reads successful and the spec hash is
written as the empty string. -/
def firstReconcileWritten : Pipeline String Unit :=
  examplePipeline "A" none
    (some [(PipelineSpecHash, ""), (PipelineSyncStatusAnnoKey, StatusSuccessful)])
    (some [PipelineFinalizerName])

/-- The Pipeline of the tests' update scenario: it carries the finalizer and an
empty annotation map, and its spec was changed to `aa`. -/
def modifiedPipeline : Pipeline String Unit :=
  examplePipeline "aa" none (some []) (some [PipelineFinalizerName])

/-- The Jenkins job of the tests' update scenario, still with the empty
spec. -/
def staleJob : Pipeline String Unit :=
  examplePipeline "" none (some []) (some [PipelineFinalizerName])

/-- The run of the tests' update scenario. -/
def updateConfigRun : Outcome ×
    World String Unit (Option (Pipeline String Unit)) (Option (Pipeline String Unit)) :=
  syncHandler (exampleController (some modifiedPipeline)) "ns/foo"
    (exampleWorld (some staleJob) (some modifiedPipeline))

/-- The Pipeline of the tests' do-nothing scenario: it carries the finalizer,
its sync-status reads successful, and it has no spec-hash annotation. -/
def doNothingPipeline : Pipeline String Unit :=
  examplePipeline "" none (some [(PipelineSyncStatusAnnoKey, StatusSuccessful)])
    (some [PipelineFinalizerName])

/-- The run of the tests' do-nothing scenario: Jenkins holds a job with the
same spec. -/
def doNothingRun : Outcome ×
    World String Unit (Option (Pipeline String Unit)) (Option (Pipeline String Unit)) :=
  syncHandler (exampleController (some doNothingPipeline)) "ns/foo"
    (exampleWorld (some doNothingPipeline) (some doNothingPipeline))

/-- The first reconciliation of the fresh Pipeline, persisted. -/
def roundTripFirst : Outcome ×
    World String Unit (Option (Pipeline String Unit)) (Option (Pipeline String Unit)) :=
  reconcileInStep singleJobAdapter (fun spec => "h:" ++ spec) "ns/foo"
    (exampleWorld none (some freshPipeline))

/-- The reconciliation that follows `roundTripFirst` with no change in
between. -/
def roundTripSecond : Outcome ×
    World String Unit (Option (Pipeline String Unit)) (Option (Pipeline String Unit)) :=
  reconcileInStep singleJobAdapter (fun spec => "h:" ++ spec) "ns/foo" roundTripFirst.2

/-- An adapter whose `CreateProjectPipeline` always fails with the given error
and whose other operations are those of `singleJobAdapter`. -/
def failingCreateAdapter (err : GoError) :
    DevOpsInterface Spec Status (Option (Pipeline Spec Status)) :=
  { (singleJobAdapter : DevOpsInterface Spec Status (Option (Pipeline Spec Status))) with
    CreateProjectPipeline := fun j _ _ => (.error err, j) }

/-- The first reconciliation of the fresh Pipeline when Jenkins refuses to
create the job. -/
def createRefusedRun : Outcome ×
    World String Unit (Option (Pipeline String Unit)) (Option (Pipeline String Unit)) :=
  syncHandler
    { exampleController (some freshPipeline) with
      devopsClient := failingCreateAdapter (.ErrorResponse 500 "server error") }
    "ns/foo" (exampleWorld none (some freshPipeline))

/-- A desired Pipeline without annotation map and with an empty finalizer
list, as the local copy of the tests' deleting Pipeline once the finalizer is
stripped. -/
def desiredWithoutAnnotations : Pipeline String Unit :=
  examplePipeline "A" (some 1700000000) none (some [])

/-- A terminating Pipeline held by the API server with the finalizer and the
sync-status annotation successful. -/
def storedSyncedTerminating : Pipeline String Unit :=
  examplePipeline "A" (some 1700000000)
    (some [(PipelineSyncStatusAnnoKey, StatusSuccessful)]) (some [PipelineFinalizerName])

/-- The first call of `updatePipeline` with `desiredWithoutAnnotations` while
the API server holds `storedSyncedTerminating`. -/
def firstUpdateCall : Outcome ×
    World String Unit (Option (Pipeline String Unit)) (Option (Pipeline String Unit)) :=
  updatePipeline (exampleController none) "foo" "ns" desiredWithoutAnnotations
    (exampleWorld none (some storedSyncedTerminating))

/-- The call of `updatePipeline` that follows `firstUpdateCall`, with the same
desired Pipeline. -/
def secondUpdateCall : Outcome ×
    World String Unit (Option (Pipeline String Unit)) (Option (Pipeline String Unit)) :=
  updatePipeline (exampleController none) "foo" "ns" desiredWithoutAnnotations
    firstUpdateCall.2

/-- A desired Pipeline with an annotation map: the fresh Pipeline with the
finalizer and the sync-status successful. -/
def desiredSynced : Pipeline String Unit :=
  examplePipeline "A" none (some [(PipelineSyncStatusAnnoKey, StatusSuccessful)])
    (some [PipelineFinalizerName])

/-- A work queue that holds its pending items in a list: `Get` takes the
first one and reports shutdown when there is none; `Add` and `AddRateLimited`
append; `Done` and `Forget` keep the list. -/
def listQueue : RateLimitingInterface (List QueueItem) where
  Get := fun pending =>
    match pending with
    | [] => ((.other "nil", true), [])
    | item :: rest => ((item, false), rest)
  Done := fun pending _ => pending
  Forget := fun pending _ => pending
  AddRateLimited := fun pending item => pending ++ [item]
  Add := fun pending item => pending ++ [item]

/-- The queue state in which the given items are pending and no call has been
made. -/
def pendingQueue (items : List QueueItem) : QueueState (List QueueItem) where
  queue := items
  calls := []

/-- A Pipeline as the API server returns it when it was created without
annotations: the annotation map is nil, and there is no finalizer. -/
def unannotatedPipeline : Pipeline String Unit :=
  examplePipeline "A" none none none

/-- An adapter whose `UpdateProjectPipeline` always fails with the given error
and whose other operations are those of `singleJobAdapter`. -/
def failingUpdateAdapter (err : GoError) :
    DevOpsInterface Spec Status (Option (Pipeline Spec Status)) :=
  { (singleJobAdapter : DevOpsInterface Spec Status (Option (Pipeline Spec Status))) with
    UpdateProjectPipeline := fun j _ _ => (.error err, j) }

/-- The reconciliation of the Pipeline stored without annotations while
Jenkins has no job: the informer cache and the API server hold the same
object. -/
def unannotatedRun : Outcome ×
    World String Unit (Option (Pipeline String Unit)) (Option (Pipeline String Unit)) :=
  syncHandler (exampleController (some unannotatedPipeline)) "ns/foo"
    (exampleWorld none (some unannotatedPipeline))

/-- The update scenario of the tests when Jenkins refuses the update of the
job. -/
def updateRefusedRun : Outcome ×
    World String Unit (Option (Pipeline String Unit)) (Option (Pipeline String Unit)) :=
  syncHandler
    { exampleController (some modifiedPipeline) with
      devopsClient := failingUpdateAdapter (.ErrorResponse 500 "server error") }
    "ns/foo" (exampleWorld (some staleJob) (some modifiedPipeline))

/-- The synced Pipeline after an update that changed its resource version and
nothing else in its metadata or spec (a status-only update). -/
def statusOnlyUpdate : Pipeline String Unit :=
  { syncedPipeline with Meta := { syncedPipeline.Meta with ResourceVersion := "2" } }

/-- The synced Pipeline after an update that changed its resource version and
added the request-to-sync-runs annotation. -/
def requestSyncUpdate : Pipeline String Unit :=
  { syncedPipeline with
    Meta := { syncedPipeline.Meta with
      ResourceVersion := "2",
      Annotations := some [(PipelineRequestToSyncRunsAnnoKey, "true"),
        (PipelineSyncStatusAnnoKey, StatusSuccessful), (PipelineSpecHash, "h:A")] } }

/-- A terminating Pipeline that carries the finalizer and an empty annotation
map: it was never synced. -/
def unsyncedDeletingPipeline : Pipeline String Unit :=
  examplePipeline "A" (some 1700000000) (some []) (some [PipelineFinalizerName])

/-- The run on `unsyncedDeletingPipeline` while Jenkins holds its job, the
informer cache and the API server holding the same object. -/
def unsyncedDeletingRun : Outcome ×
    World String Unit (Option (Pipeline String Unit)) (Option (Pipeline String Unit)) :=
  syncHandler (exampleController (some unsyncedDeletingPipeline)) "ns/foo"
    (exampleWorld (some unsyncedDeletingPipeline) (some unsyncedDeletingPipeline))

/-- The run on `unsyncedDeletingPipeline` read from a stale informer cache:
the API server holds `storedSyncedTerminating`, whose sync-status reads
successful. -/
def staleDeletingRun : Outcome ×
    World String Unit (Option (Pipeline String Unit)) (Option (Pipeline String Unit)) :=
  syncHandler (exampleController (some unsyncedDeletingPipeline)) "ns/foo"
    (exampleWorld (some unsyncedDeletingPipeline) (some storedSyncedTerminating))

/-- A terminating Pipeline without the finalizer. -/
def releasedPipeline : Pipeline String Unit :=
  examplePipeline "A" (some 1700000000) none (some [])

end Examples

end PipelineController

/-! # Token operator of ks-devops

Shallow embedding of `pkg/models/auth/token.go` (`tokenOperator.Verify`,
`IssueTo`, `RevokeAllUserTokens`, `tokenCacheValidate` and `cacheToken`). The
token issuer and the cache are interfaces in the source; the issuer is a record
of functions, the cache a record of transition functions over an arbitrary
state, and every call on the cache is appended to `CacheState.calls`.
-/

namespace TokenOperator

open PipelineController (GoError)

/-- The data of a `user.Info` of the API server library. -/
structure UserInfo where
  Name : String
  UID : String
  Groups : List String
deriving DecidableEq, Repr

/-- The type `token.TokenType`, a string. -/
abbrev TokenType := String

/-- Modelled from the spec: `token.AccessToken`; the declaration is not among
the sources. -/
def AccessToken : TokenType := "access_token"

/-- Modelled from the spec: `token.RefreshToken`; the declaration is not among
the sources. -/
def RefreshToken : TokenType := "refresh_token"

/-- Modelled from the spec: `token.StaticToken`, the type of a token that is
never cached; the declaration is not among the sources. -/
def StaticToken : TokenType := "static_token"

/-- A `time.Duration`, in nanoseconds. -/
abbrev Duration := Int

/-- The fields of `oauth.Options` the operator reads. -/
structure OAuthOptions where
  AccessTokenMaxAge : Duration
  AccessTokenInactivityTimeout : Duration
deriving DecidableEq, Repr

/-- The fields of `authoptions.AuthenticationOptions` the operator reads;
`OAuthOptions` is a pointer, `none` when nil. -/
structure AuthenticationOptions where
  OAuthOptions : Option OAuthOptions
  MultipleLogin : Bool
deriving DecidableEq, Repr

/-- The interface `token.Issuer`: issue a token of a type with a lifetime, and
verify a token, which yields the authenticated user and the token type. -/
structure Issuer where
  IssueTo : UserInfo → TokenType → Duration → Except GoError String
  Verify : String → Except GoError (UserInfo × TokenType)

/-- A call on the cache (`cache.Interface`). -/
inductive CacheCall where
  | Keys (pattern : String)
  | Set (key value : String) (duration : Duration)
  | Del (keys : List String)
  | Exists (key : String)
deriving DecidableEq, Repr

/-- The part of `cache.Interface` the operator calls. An implementation is any
state `S` with these transitions. -/
structure CacheInterface (S : Type) where
  Keys : S → String → Except GoError (List String) × S
  Set : S → String → String → Duration → Option GoError × S
  Del : S → List String → Option GoError × S
  Exists : S → String → Except GoError Bool × S

/-- The state of the cache and the calls made on it so far, oldest first. -/
structure CacheState (S : Type) where
  cache : S
  calls : List CacheCall

/-- The struct `tokenOperator`. -/
structure tokenOperator (S : Type) where
  issuer : Issuer
  options : AuthenticationOptions
  cache : CacheInterface S

/-- The cache key of a token of a user, the format string of lines 138 and
150: `kubesphere:user:<username>:token:<token>`. -/
def tokenCacheKey (username token : String) : String :=
  "kubesphere:user:" ++ username ++ ":token:" ++ token

/-- The error of line 142. -/
def tokenNotFoundError : GoError :=
  .errorString "token not found in cache"

/-- The method `tokenOperator.tokenCacheValidate` (lines 137 to 147). -/
def tokenCacheValidate {S : Type} (t : tokenOperator S) (username token : String)
    (s : CacheState S) : Option GoError × CacheState S :=
  let key := tokenCacheKey username token
  let found := t.cache.Exists s.cache key
  let s1 : CacheState S := { cache := found.2, calls := s.calls ++ [CacheCall.Exists key] }
  match found.1 with
  | .error err => (some err, s1)
  | .ok exist => if !exist then (some tokenNotFoundError, s1) else (none, s1)

/-- The method `tokenOperator.Verify` (lines 62 to 75). -/
def Verify {S : Type} (t : tokenOperator S) (tokenStr : String) (s : CacheState S) :
    Except GoError UserInfo × CacheState S :=
  match t.issuer.Verify tokenStr with
  | .error err => (.error err, s)
  | .ok (authenticated, tokenType) =>
    let uncached : Bool :=
      match t.options.OAuthOptions with
      | none => true
      | some oauthOptions => oauthOptions.AccessTokenMaxAge == 0 || tokenType == StaticToken
    if uncached then (.ok authenticated, s)
    else
      match tokenCacheValidate t authenticated.Name tokenStr s with
      | (some err, s1) => (.error err, s1)
      | (none, s1) => (.ok authenticated, s1)

/-- The struct `oauth.Token` (the fields `IssueTo` sets). -/
structure Token where
  AccessToken : String
  TokenType : String
  RefreshToken : String
  ExpiresIn : Int
deriving DecidableEq, Repr

/-- How `IssueTo` ends: it returns its pair of results (a token or an error),
or it panics on the nil pointer `t.options.OAuthOptions`. -/
inductive IssueOutcome where
  | returned (result : Except GoError Token)
  | panicked

/-- The value of an `int64` computation whose exact result is `x`: Go wraps
around on overflow. -/
def wrapInt64 (x : Int) : Int :=
  (x + 9223372036854775808) % 18446744073709551616 - 9223372036854775808

/-! ## The float64 arithmetic of `time.Duration.Seconds`

`IssueTo` computes `ExpiresIn` as `int(accessTokenExpiresIn.Seconds())`, and
`Seconds` of the Go standard library is
`float64(d / Second) + float64(d % Second) / 1e9`. A finite float64 is
modelled exactly, as an integer mantissa and a binary exponent, and every
operation rounds its exact result to the nearest float64, ties to even
(IEEE 754). Only the normal range is modelled: the values that occur lie
between `1e-9` and `1e10` in magnitude, or are zero. -/

/-- A finite float64: the number `mant * 2 ^ exp`. -/
structure Float64 where
  mant : Int
  exp : Int
deriving DecidableEq, Repr

/-- The number of binary digits of `n`, by halving at most `fuel` times. -/
def bitLengthAux : Nat → Nat → Nat
  | 0, _ => 0
  | fuel + 1, n => if n = 0 then 0 else bitLengthAux fuel (n / 2) + 1

/-- The number of binary digits of `n`. -/
def bitLength (n : Nat) : Nat := bitLengthAux n n

/-- The binary exponent of the positive fraction `p / q`: the `e` with
`2 ^ e ≤ p / q < 2 ^ (e + 1)`. The difference of the bit lengths is `e` or
`e + 1`; a comparison tells which. -/
def floorLog2 (p q : Nat) : Int :=
  let l : Int := (bitLength p : Int) - (bitLength q : Int)
  if q * 2 ^ l.toNat ≤ p * 2 ^ (-l).toNat then l else l - 1

/-- The float64 nearest to the fraction `p / q` (`q` positive), ties to even:
the fraction is scaled to a mantissa of 53 bits, which is rounded to an
integer. -/
def roundToFloat64 (p : Int) (q : Nat) : Float64 :=
  if p = 0 then { mant := 0, exp := 0 }
  else
    let shift : Int := 52 - floorLog2 p.natAbs q
    let n : Nat := p.natAbs * 2 ^ shift.toNat
    let d : Nat := q * 2 ^ (-shift).toNat
    let m0 : Nat := n / d
    let r : Nat := n % d
    let m : Nat := if d < 2 * r ∨ (2 * r = d ∧ m0 % 2 = 1) then m0 + 1 else m0
    { mant := p.sign * m, exp := -shift }

/-- The numerator of a float64 written as a fraction over `Float64.den`. -/
def Float64.num (x : Float64) : Int := x.mant * 2 ^ x.exp.toNat

/-- The denominator of a float64 written as a fraction, a power of two. -/
def Float64.den (x : Float64) : Nat := 2 ^ (-x.exp).toNat

/-- The conversion `float64(n)` of an integer. -/
def Float64.ofInt (n : Int) : Float64 := roundToFloat64 n 1

/-- The float64 sum `x + y`. -/
def Float64.add (x y : Float64) : Float64 :=
  roundToFloat64 (x.num * y.den + y.num * x.den) (x.den * y.den)

/-- The float64 quotient `x / y`, for `y` not zero. -/
def Float64.div (x y : Float64) : Float64 :=
  roundToFloat64 (x.num * y.den * y.num.sign) (x.den * y.num.natAbs)

/-- The conversion `int(x)` of a float64 within the range of `int`: the
fraction is discarded (truncation towards zero). -/
def Float64.toInt (x : Float64) : Int := Int.tdiv x.num x.den

/-- The method `time.Duration.Seconds` of the Go standard library, for a
duration in nanoseconds: `float64(d / Second) + float64(d % Second) / 1e9`,
where the integer division truncates towards zero. -/
def Seconds (d : Duration) : Float64 :=
  Float64.add (Float64.ofInt (Int.tdiv d 1000000000))
    (Float64.div (Float64.ofInt (Int.tmod d 1000000000)) (Float64.ofInt 1000000000))

/-- The method `tokenOperator.cacheToken` (lines 149 to 156). -/
def cacheToken {S : Type} (t : tokenOperator S) (username token : String)
    (duration : Duration) (s : CacheState S) : Option GoError × CacheState S :=
  let key := tokenCacheKey username token
  let set := t.cache.Set s.cache key token duration
  (set.1, { cache := set.2, calls := s.calls ++ [CacheCall.Set key token duration] })

/-- The pattern of line 124: `kubesphere:user:<username>:token:*`. -/
def userTokenPattern (username : String) : String :=
  "kubesphere:user:" ++ username ++ ":token:*"

/-- The method `tokenOperator.RevokeAllUserTokens` (lines 123 to 135). -/
def RevokeAllUserTokens {S : Type} (t : tokenOperator S) (username : String)
    (s : CacheState S) : Option GoError × CacheState S :=
  let pattern := userTokenPattern username
  let found := t.cache.Keys s.cache pattern
  let s1 : CacheState S := { cache := found.2, calls := s.calls ++ [CacheCall.Keys pattern] }
  match found.1 with
  | .error err => (some err, s1)
  | .ok keys =>
    if keys.length > 0 then
      let del := t.cache.Del s1.cache keys
      (del.1, { cache := del.2, calls := s1.calls ++ [CacheCall.Del keys] })
    else (none, s1)

/-- The method `tokenOperator.IssueTo` (lines 78 to 120). The sum of line 80
is an `int64` sum. -/
def IssueTo {S : Type} (t : tokenOperator S) (user : UserInfo) (s : CacheState S) :
    IssueOutcome × CacheState S :=
  match t.options.OAuthOptions with
  | none => (.panicked, s)
  | some oauthOptions =>
    let accessTokenExpiresIn := oauthOptions.AccessTokenMaxAge
    let refreshTokenExpiresIn :=
      wrapInt64 (accessTokenExpiresIn + oauthOptions.AccessTokenInactivityTimeout)
    match t.issuer.IssueTo user AccessToken accessTokenExpiresIn with
    | .error err => (.returned (.error err), s)
    | .ok accessToken =>
      match t.issuer.IssueTo user RefreshToken refreshTokenExpiresIn with
      | .error err => (.returned (.error err), s)
      | .ok refreshToken =>
        let result : Token :=
          { AccessToken := accessToken, TokenType := "Bearer", RefreshToken := refreshToken,
            ExpiresIn := (Seconds accessTokenExpiresIn).toInt }
        let revoked : Option GoError × CacheState S :=
          if !t.options.MultipleLogin then RevokeAllUserTokens t user.Name s else (none, s)
        match revoked with
        | (some err, s1) => (.returned (.error err), s1)
        | (none, s1) =>
          if accessTokenExpiresIn > 0 then
            match cacheToken t user.Name accessToken accessTokenExpiresIn s1 with
            | (some err, s2) => (.returned (.error err), s2)
            | (none, s2) =>
              match cacheToken t user.Name refreshToken refreshTokenExpiresIn s2 with
              | (some err, s3) => (.returned (.error err), s3)
              | (none, s3) => (.returned (.ok result), s3)
          else (.returned (.ok result), s1)

/-- The calls a step made on the cache. -/
def cacheCallsMade {S : Type} (before after : CacheState S) : List CacheCall :=
  after.calls.drop before.calls.length

/-- The contract of `cache.Interface`, a store of keys in the manner of
Redis whose declaration and implementations are not among the sources,
relative to a notion `holds` of the keys a state holds and a notion
`isMatch` of a key matching a pattern: `Keys` lists exactly the held keys that
match the pattern, a successful `Del` removes exactly the keys it is given, a
successful `Set` adds its key and removes none, `Exists` answers whether the
key is held, and `Keys` and `Exists` change nothing. Expiry is the passing of
time and is not modelled: no key expires during the calls considered. -/
structure CacheContract {S : Type} (cache : CacheInterface S)
    (holds : S → String → Prop) (isMatch : String → String → Prop) : Prop where
  keys_lists : ∀ c pattern keys, (cache.Keys c pattern).1 = .ok keys →
    ∀ k, k ∈ keys ↔ holds c k ∧ isMatch pattern k
  keys_frame : ∀ c pattern k, holds (cache.Keys c pattern).2 k ↔ holds c k
  del_removes : ∀ c keys, (cache.Del c keys).1 = none →
    ∀ k, holds (cache.Del c keys).2 k ↔ holds c k ∧ k ∉ keys
  set_adds : ∀ c key value duration, (cache.Set c key value duration).1 = none →
    ∀ k, holds (cache.Set c key value duration).2 k ↔ k = key ∨ holds c k
  exists_reads : ∀ c key found, (cache.Exists c key).1 = .ok found →
    (found = true ↔ holds c key)
  exists_frame : ∀ c key k, holds (cache.Exists c key).2 k ↔ holds c k

/-! ## Environments used in examples -/

/-- Whether a key matches a pattern of the form `text*` (the key starts with
the text) or a pattern without star (the key is the pattern). -/
def matchesPattern (pattern key : String) : Bool :=
  match pattern.data.reverse with
  | '*' :: reversed => decide (key.data.take reversed.length = reversed.reverse)
  | _ => decide (key = pattern)

/-- A cache that holds its entries in a list and never fails. -/
def listCache : CacheInterface (List (String × String)) where
  Keys := fun entries pattern =>
    (.ok ((entries.map Prod.fst).filter (matchesPattern pattern)), entries)
  Set := fun entries key value _ =>
    (none, (key, value) :: entries.filter (fun entry => entry.1 != key))
  Del := fun entries keys => (none, entries.filter (fun entry => !keys.contains entry.1))
  Exists := fun entries key => (.ok ((entries.map Prod.fst).contains key), entries)

/-- An issuer whose tokens are `<type>:<user name>`: it verifies exactly the
access and static tokens of the user `alice`. -/
def exampleIssuer : Issuer where
  IssueTo := fun user tokenType _ => .ok (tokenType ++ ":" ++ user.Name)
  Verify := fun tokenStr =>
    if tokenStr = "access_token:alice" then
      .ok ({ Name := "alice", UID := "1", Groups := [] }, AccessToken)
    else if tokenStr = "static_token:alice" then
      .ok ({ Name := "alice", UID := "1", Groups := [] }, StaticToken)
    else .error (.errorString "token is malformed")

/-- An operator over `exampleIssuer` and `listCache` with the given options. -/
def exampleOperator (options : AuthenticationOptions) :
    tokenOperator (List (String × String)) where
  issuer := exampleIssuer
  options := options
  cache := listCache

/-- Options with an access token lifetime of two hours and single login. -/
def cachingOptions : AuthenticationOptions where
  OAuthOptions := some { AccessTokenMaxAge := 7200000000000,
                         AccessTokenInactivityTimeout := 0 }
  MultipleLogin := false

/-- The cache state with the given entries and no call made. -/
def cacheWith (entries : List (String × String)) : CacheState (List (String × String)) where
  cache := entries
  calls := []

/-- The user `alice`. -/
def alice : UserInfo := { Name := "alice", UID := "1", Groups := [] }

/-- An issuer whose tokens are `<type>:<user name>`, a function of its
arguments as the interface allows. It verifies the access, refresh and static
tokens of `alice`, and an access token of `alice` from an earlier login,
`access_token:alice:earlier`. -/
def loginIssuer : Issuer where
  IssueTo := fun user tokenType _ => .ok (tokenType ++ ":" ++ user.Name)
  Verify := fun tokenStr =>
    if tokenStr = "access_token:alice" then .ok (alice, AccessToken)
    else if tokenStr = "refresh_token:alice" then .ok (alice, RefreshToken)
    else if tokenStr = "static_token:alice" then .ok (alice, StaticToken)
    else if tokenStr = "access_token:alice:earlier" then .ok (alice, AccessToken)
    else .error (.errorString "token is malformed")

/-- An operator over `loginIssuer` and `listCache` with the given options. -/
def loginOperator (options : AuthenticationOptions) :
    tokenOperator (List (String × String)) where
  issuer := loginIssuer
  options := options
  cache := listCache

/-- An issuer that issues access tokens and fails on every other type. -/
def accessOnlyIssuer : Issuer where
  IssueTo := fun user tokenType _ =>
    if tokenType = AccessToken then .ok (tokenType ++ ":" ++ user.Name)
    else .error (.errorString "signing failed")
  Verify := fun _ => .error (.errorString "token is malformed")

/-- The keys the list cache holds. -/
def listCacheHolds (entries : List (String × String)) (key : String) : Prop :=
  key ∈ entries.map Prod.fst

/-- A key matching a pattern, for the list cache. -/
def listCacheMatch (pattern key : String) : Prop :=
  matchesPattern pattern key = true

/-- Options with an access token lifetime of 16777216.999999999 seconds (a
little over 194 days), given in nanoseconds, and multiple login. -/
def longLivedOptions : AuthenticationOptions where
  OAuthOptions := some { AccessTokenMaxAge := 16777216999999999,
                         AccessTokenInactivityTimeout := 0 }
  MultipleLogin := true

/-- Options with an access token lifetime of two hours, an inactivity timeout
of one hour and multiple login. -/
def multipleLoginOptions : AuthenticationOptions where
  OAuthOptions := some { AccessTokenMaxAge := 7200000000000,
                         AccessTokenInactivityTimeout := 3600000000000 }
  MultipleLogin := true

/-- A first login of `alice` under single login, on an empty cache. -/
def firstLogin : IssueOutcome × CacheState (List (String × String)) :=
  IssueTo (loginOperator cachingOptions) alice (cacheWith [])

/-- The login of `alice` that follows `firstLogin`. -/
def secondLogin : IssueOutcome × CacheState (List (String × String)) :=
  IssueTo (loginOperator cachingOptions) alice firstLogin.2

/-- A cache that holds the key of an access token of `alice` from an earlier
login and a key of `bob`. -/
def staleCache : CacheState (List (String × String)) :=
  cacheWith [("kubesphere:user:alice:token:access_token:alice:earlier",
              "access_token:alice:earlier"),
             ("kubesphere:user:bob:token:access_token:bob", "access_token:bob")]

/-- A cache that holds two tokens of `alice` and one of `bob`. -/
def sharedCache : CacheState (List (String × String)) :=
  cacheWith [("kubesphere:user:alice:token:access_token:alice", "access_token:alice"),
             ("kubesphere:user:bob:token:access_token:bob", "access_token:bob"),
             ("kubesphere:user:alice:token:refresh_token:alice", "refresh_token:alice")]

end TokenOperator

/-! # Sonar results of a pipeline

Shallow embedding of `pkg/models/devops/project_pipeline_sonar_handler.go`
(`pipelineSonarGetter.GetPipelineSonar`). The build getter and the SonarQube
client are interfaces in the source; here they are records of transition
functions over an arbitrary state, and every call on them is appended to
`SonarState.calls`.
-/

namespace PipelineSonar

open PipelineController (GoError StatusNotFound)

/-- The fields of `devops.Action`, an action of a build, that the getter
reads. -/
structure Action where
  ClassName : String
  SonarTaskId : String
deriving DecidableEq, Repr

/-- The field of `devops.Build` that the getter reads. -/
structure Build where
  Actions : List Action
deriving DecidableEq, Repr

/-- Modelled from the spec: `sonarqube.SonarAnalysisActionClass`, the class
name of a Sonar analysis action; the declaration is not among the sources. -/
def SonarAnalysisActionClass : String := "hudson.plugins.sonar.action.SonarAnalysisAction"

/-- Modelled from the spec: `devops.LastBuild`, the build type of the last
build; the declaration is not among the sources. -/
def LastBuild : String := "lastBuild"

/-- Modelled from the spec: `devops.LastCompletedBuild`, the build type of the
last completed build; the declaration is not among the sources. -/
def LastCompletedBuild : String := "lastCompletedBuild"

/-- The constant `http.StatusBadRequest`. -/
def StatusBadRequest : Nat := 400

/-- A call on the build getter or on the SonarQube client. -/
inductive SonarCall where
  | GetProjectPipelineBuildByType (projectId pipelineId status : String)
  | GetSonarResultsByTaskIds (taskIds : List String)
deriving DecidableEq, Repr

/-- The struct `pipelineSonarGetter`: the method of `devops.BuildGetter` and the
method of `sonarqube.SonarInterface` that `GetPipelineSonar` calls, over a
state `D` of the two services. The build is a pointer, `none` when nil; the
Sonar results are a slice of a result type `R`, `none` when nil. -/
structure pipelineSonarGetter (R D : Type) where
  GetProjectPipelineBuildByType : D → String → String → String →
    Except GoError (Option Build) × D
  GetSonarResultsByTaskIds : D → List String → Except GoError (Option (List R)) × D

/-- What the getter reads of an error value: its service code, by
`errors.GetServiceErrorCode`, a function of this repository that is not among
the sources, and its text, by the method `Error`. -/
structure ErrorReader where
  GetServiceErrorCode : GoError → Nat
  Error : GoError → String

/-- The state of the two services and the calls made so far, oldest first. -/
structure SonarState (D : Type) where
  services : D
  calls : List SonarCall

/-- How `GetPipelineSonar` ends: it returns its pair of results (the Sonar
results, possibly nil, or an error), or it panics. -/
inductive SonarOutcome (R : Type) where
  | returned (result : Except GoError (Option (List R)))
  | panicked

/-- The loop of lines 58 to 62 and 80 to 84: the task id of every Sonar
analysis action is appended to `taskIds`, in the order of the actions. -/
def appendSonarTaskIds (taskIds : List String) (actions : List Action) : List String :=
  actions.foldl
    (fun ids action =>
      if action.ClassName = SonarAnalysisActionClass then ids ++ [action.SonarTaskId] else ids)
    taskIds

/-- The error of line 55. -/
def cannotFindBuild (projectId pipelineId : String) : GoError :=
  .errorString ("cannot find build, " ++ projectId ++ "/" ++ pipelineId)

/-- The Sonar query of lines 66 to 70 and 85 to 89 and the return of line 92:
an error of the query becomes a 400 error with the text of that error. -/
def querySonar {R D : Type} (g : pipelineSonarGetter R D) (errors : ErrorReader)
    (taskIds : List String) (s : SonarState D) : SonarOutcome R × SonarState D :=
  let res := g.GetSonarResultsByTaskIds s.services taskIds
  let s1 : SonarState D :=
    { services := res.2, calls := s.calls ++ [SonarCall.GetSonarResultsByTaskIds taskIds] }
  match res.1 with
  | .error err => (.returned (.error (.ServiceError StatusBadRequest (errors.Error err))), s1)
  | .ok sonarStatus => (.returned (.ok sonarStatus), s1)

/-- The method `pipelineSonarGetter.GetPipelineSonar` (lines 47 to 93). The
last completed build is dereferenced without a nil check (line 80). -/
def GetPipelineSonar {R D : Type} (g : pipelineSonarGetter R D) (errors : ErrorReader)
    (projectId pipelineId : String) (s : SonarState D) : SonarOutcome R × SonarState D :=
  let got := g.GetProjectPipelineBuildByType s.services projectId pipelineId LastBuild
  let s1 : SonarState D :=
    { services := got.2,
      calls := s.calls ++
        [SonarCall.GetProjectPipelineBuildByType projectId pipelineId LastBuild] }
  match got.1 with
  | .error err => (.returned (.error err), s1)
  | .ok none => (.returned (.error (cannotFindBuild projectId pipelineId)), s1)
  | .ok (some build) =>
    let taskIds := appendSonarTaskIds [] build.Actions
    if taskIds.length ≠ 0 then querySonar g errors taskIds s1
    else
      let got2 :=
        g.GetProjectPipelineBuildByType s1.services projectId pipelineId LastCompletedBuild
      let s2 : SonarState D :=
        { services := got2.2,
          calls := s1.calls ++
            [SonarCall.GetProjectPipelineBuildByType projectId pipelineId LastCompletedBuild] }
      match got2.1 with
      | .error err =>
        if errors.GetServiceErrorCode err ≠ StatusNotFound then
          (.returned (.error
            (.ServiceError (errors.GetServiceErrorCode err) (errors.Error err))), s2)
        else (.returned (.ok none), s2)
      | .ok none => (.panicked, s2)
      | .ok (some completed) =>
        querySonar g errors (appendSonarTaskIds taskIds completed.Actions) s2

/-- The task ids of the Sonar analysis actions of a build, in the order of the
actions. -/
def sonarTaskIdsOf (build : Build) : List String :=
  (build.Actions.filter (fun action => action.ClassName = SonarAnalysisActionClass)).map
    Action.SonarTaskId

/-- The state of the services after the lookup of the last build (line 49). -/
def afterLastBuild {R D : Type} (g : pipelineSonarGetter R D)
    (projectId pipelineId : String) (s : SonarState D) : D :=
  (g.GetProjectPipelineBuildByType s.services projectId pipelineId LastBuild).2

/-- The state of the services after the lookup of the last completed build
(line 72). -/
def afterLastCompleted {R D : Type} (g : pipelineSonarGetter R D)
    (projectId pipelineId : String) (s : SonarState D) : D :=
  (g.GetProjectPipelineBuildByType (afterLastBuild g projectId pipelineId s)
    projectId pipelineId LastCompletedBuild).2

/-- The calls a run made on the two services. -/
def sonarCallsMade {D : Type} (before after : SonarState D) : List SonarCall :=
  after.calls.drop before.calls.length

/-! ## Environments used in examples -/

/-- The service code of an error as `errors.GetServiceErrorCode` is understood
to compute it: the status code of a `restful.ServiceError` or of an
`*ErrorResponse`, and 500 for any other error. The text of an error is its
message. -/
def exampleErrors : ErrorReader where
  GetServiceErrorCode := fun err =>
    match err with
    | .ServiceError code _ => code
    | .ErrorResponse statusCode _ => statusCode
    | _ => 500
  Error := fun err =>
    match err with
    | .ServiceError _ message => message
    | .ErrorResponse _ message => message
    | .StatusError _ message => message
    | .errorString text => text

/-- Services that hold a last build and possibly a last completed build (a
lookup of a build that is not there answers 404) and a SonarQube that answers
a query with one result per task id, `result of <id>`. -/
def exampleGetter : pipelineSonarGetter String (Build × Option Build) where
  GetProjectPipelineBuildByType := fun d _ _ status =>
    if status = LastBuild then (.ok (some d.1), d)
    else
      match d.2 with
      | some completed => (.ok (some completed), d)
      | none => (.error (.ServiceError 404 "build not found"), d)
  GetSonarResultsByTaskIds := fun d taskIds =>
    (.ok (some (taskIds.map (fun id => "result of " ++ id))), d)

/-- A build with a checkout action and two Sonar analysis actions, with task
ids `t1` and `t2`. -/
def analysedBuild : Build where
  Actions := [{ ClassName := "hudson.plugins.git.util.BuildData", SonarTaskId := "" },
              { ClassName := SonarAnalysisActionClass, SonarTaskId := "t1" },
              { ClassName := SonarAnalysisActionClass, SonarTaskId := "t2" }]

/-- A build without a Sonar analysis action. -/
def plainBuild : Build where
  Actions := [{ ClassName := "hudson.plugins.git.util.BuildData", SonarTaskId := "" }]

/-- Services as `exampleGetter`, except that the lookup of a last completed
build that is not there answers with neither an error nor a build (a nil
build and a nil error). -/
def nilBuildGetter : pipelineSonarGetter String (Build × Option Build) where
  GetProjectPipelineBuildByType := fun d _ _ status =>
    if status = LastBuild then (.ok (some d.1), d) else (.ok d.2, d)
  GetSonarResultsByTaskIds := fun d taskIds =>
    (.ok (some (taskIds.map (fun id => "result of " ++ id))), d)

/-- The state in which the services hold the given builds and no call has been
made. -/
def sonarStart (last : Build) (completed : Option Build) :
    SonarState (Build × Option Build) where
  services := (last, completed)
  calls := []

end PipelineSonar

namespace PipelineController

/-! ## Lemmas on Go values -/

theorem lookup_filter_ne (l : StringMap) (k k1 : String) (h : k1 ≠ k) :
    (l.filter (fun entry => entry.1 != k)).lookup k1 = l.lookup k1 := by
  induction l with
  | nil => rfl
  | cons e l ih =>
    rcases e with ⟨a, b⟩
    by_cases ha : a = k
    · subst ha
      have h1 : (k1 == a) = false := by simpa using h
      simp [List.filter_cons, List.lookup_cons, h1, ih]
    · have h2 : (a != k) = true := by simpa using ha
      simp only [List.filter_cons, h2, if_true, List.lookup_cons, ih]

theorem lookup_mapSet (l : StringMap) (k v k1 : String) :
    (mapSet l k v).lookup k1 = if k1 = k then some v else l.lookup k1 := by
  by_cases h : k1 = k
  · subst h
    simp [mapSet]
  · have h1 : (k1 == k) = false := by simpa using h
    simp only [mapSet, List.lookup_cons, h1, if_neg h, lookup_filter_ne l k k1 h]

theorem mapDeepEqual_refl (m : Option StringMap) : mapDeepEqual m m = true := by
  cases m <;> simp [mapDeepEqual]

theorem mapDeepEqual_some_iff (a b : StringMap) :
    mapDeepEqual (some a) (some b) = true ↔ ∀ k, a.lookup k = b.lookup k := by
  constructor
  · intro h k
    simp only [mapDeepEqual, List.all_eq_true, List.mem_append, decide_eq_true_eq] at h
    by_cases hk : k ∈ mapKeys a ∨ k ∈ mapKeys b
    · exact h k hk
    · have ha : a.lookup k = none := by
        rw [List.lookup_eq_none_iff]
        intro p hp
        simp only [bne_iff_ne, ne_eq]
        intro hkp
        exact hk (Or.inl (by simpa [mapKeys] using ⟨p.2, by rw [hkp]; exact hp⟩))
      have hb : b.lookup k = none := by
        rw [List.lookup_eq_none_iff]
        intro p hp
        simp only [bne_iff_ne, ne_eq]
        intro hkp
        exact hk (Or.inr (by simpa [mapKeys] using ⟨p.2, by rw [hkp]; exact hp⟩))
      rw [ha, hb]
  · intro h
    simp only [mapDeepEqual, List.all_eq_true, decide_eq_true_eq]
    intro k _
    exact h k

theorem mapDeepEqual_false_of_lookup_ne {a b : StringMap} (k : String)
    (h : a.lookup k ≠ b.lookup k) : mapDeepEqual (some a) (some b) = false := by
  cases hd : mapDeepEqual (some a) (some b)
  · rfl
  · exact absurd ((mapDeepEqual_some_iff a b).1 hd k) h

theorem objectMeta_deepEqual_refl (a : ObjectMeta) : ObjectMeta.DeepEqual a a = true := by
  simp [ObjectMeta.DeepEqual, mapDeepEqual_refl]

theorem pipeline_deepEqual_refl {Spec Status : Type} [DecidableEq Spec] [DecidableEq Status]
    (a : Pipeline Spec Status) : Pipeline.DeepEqual a a = true := by
  simp [Pipeline.DeepEqual, objectMeta_deepEqual_refl]

theorem pipeline_deepEqual_false_of_annotations {Spec Status : Type}
    [DecidableEq Spec] [DecidableEq Status] (a b : Pipeline Spec Status)
    (h : mapDeepEqual a.Meta.Annotations b.Meta.Annotations = false) :
    Pipeline.DeepEqual a b = false := by
  simp [Pipeline.DeepEqual, ObjectMeta.DeepEqual, h]

theorem pipeline_deepEqual_false_of_finalizers {Spec Status : Type}
    [DecidableEq Spec] [DecidableEq Status] (a b : Pipeline Spec Status)
    (h : a.Meta.Finalizers ≠ b.Meta.Finalizers) :
    Pipeline.DeepEqual a b = false := by
  simp [Pipeline.DeepEqual, ObjectMeta.DeepEqual, h]

theorem syncStatusKey_ne_specHashKey : PipelineSyncStatusAnnoKey ≠ PipelineSpecHash := by
  decide

/-! ## Lemmas on the persistence step -/

section Run

variable {Spec Status J K : Type}

theorem callsMade_of_append (w w1 : World Spec Status J K) (l : List (Call Spec Status))
    (h : w1.calls = w.calls ++ l) : callsMade w w1 = l := by
  simp [callsMade, h]

theorem callsMade_self (w : World Spec Status J K) : callsMade w w = [] := by
  simp [callsMade]

theorem RetryOnConflict_succ_of_nil {W : Type} (fn : W → Outcome × W) (n : Nat)
    (last : Option GoError) (w : W) (h : (fn w).1 = .returned none) :
    RetryOnConflict fn (n + 1) last w = fn w := by
  rcases hf : fn w with ⟨o, w1⟩
  rw [hf] at h
  simp only at h
  subst h
  simp [RetryOnConflict, hf]

theorem RetryOnConflict_succ_of_panic {W : Type} (fn : W → Outcome × W) (n : Nat)
    (last : Option GoError) (w : W) (h : (fn w).1 = .panicked) :
    RetryOnConflict fn (n + 1) last w = fn w := by
  rcases hf : fn w with ⟨o, w1⟩
  rw [hf] at h
  simp only at h
  subst h
  simp [RetryOnConflict, hf]

theorem RetryOnConflict_succ_of_error {W : Type} (fn : W → Outcome × W) (n : Nat)
    (last : Option GoError) (w : W) (err : GoError)
    (h : (fn w).1 = .returned (some err)) (hc : IsConflict err = false) :
    RetryOnConflict fn (n + 1) last w = fn w := by
  rcases hf : fn w with ⟨o, w1⟩
  rw [hf] at h
  simp only at h
  subst h
  simp [RetryOnConflict, hf, hc]

theorem RetryOnConflict_succ_of_conflict {W : Type} (fn : W → Outcome × W) (n : Nat)
    (last : Option GoError) (w w1 : W) (err : GoError)
    (h : fn w = (.returned (some err), w1)) (hc : IsConflict err = true) :
    RetryOnConflict fn (n + 1) last w = RetryOnConflict fn n (some err) w1 := by
  simp [RetryOnConflict, h, hc]

theorem afterAttempts_succ {W : Type} (fn : W → Outcome × W) (n : Nat) :
    ∀ w : W, afterAttempts fn (n + 1) w = (fn (afterAttempts fn n w)).2 := by
  induction n with
  | zero => intro w; rfl
  | succ n ih =>
    intro w
    show afterAttempts fn (n + 1) (fn w).2 = (fn (afterAttempts fn n (fn w).2)).2
    exact ih (fn w).2

theorem updatePipelineAttempt_frame (c : Controller Spec Status J K) (name nsName : String)
    (pipeline : Pipeline Spec Status) (w : World Spec Status J K) :
    ∃ l, (updatePipelineAttempt c name nsName pipeline w).2.calls = w.calls ++ l ∧
      (updatePipelineAttempt c name nsName pipeline w).2.jenkins = w.jenkins ∧
      ∀ call ∈ l, PersistenceCall c name nsName pipeline call := by
  rcases hg : (c.kubesphereClient.Get w.kube nsName name).1 with err | newPipeline
  · refine ⟨[Call.PipelinesGet nsName name], ?_, ?_, ?_⟩ <;>
      simp [updatePipelineAttempt, hg, PersistenceCall]
  · rcases ha : ownedFieldsAgree newPipeline pipeline with _ | _
    · rcases hm : mergeOwnedFields newPipeline pipeline with _ | written
      · refine ⟨[Call.PipelinesGet nsName name], ?_, ?_, ?_⟩ <;>
          simp [updatePipelineAttempt, hg, ha, hm, PersistenceCall]
      · refine ⟨[Call.PipelinesGet nsName name, Call.PipelinesUpdate nsName written],
          ?_, ?_, ?_⟩
        · rcases hu : (c.kubesphereClient.Update
              (c.kubesphereClient.Get w.kube nsName name).2 nsName written).1 with e | r <;>
            simp [updatePipelineAttempt, hg, ha, hm, hu]
        · rcases hu : (c.kubesphereClient.Update
              (c.kubesphereClient.Get w.kube nsName name).2 nsName written).1 with e | r <;>
            simp [updatePipelineAttempt, hg, ha, hm, hu]
        · intro call hcall
          simp only [List.mem_cons, List.mem_singleton, List.not_mem_nil, or_false] at hcall
          rcases hcall with h | h
          · exact Or.inl h
          · exact Or.inr ⟨w.kube, newPipeline, written, hg, hm, h⟩
    · refine ⟨[Call.PipelinesGet nsName name], ?_, ?_, ?_⟩ <;>
        simp [updatePipelineAttempt, hg, ha, PersistenceCall]

theorem RetryOnConflict_frame (c : Controller Spec Status J K) (name nsName : String)
    (pipeline : Pipeline Spec Status) (n : Nat) :
    ∀ (last : Option GoError) (w : World Spec Status J K),
    ∃ l, (RetryOnConflict (updatePipelineAttempt c name nsName pipeline) n last w).2.calls
        = w.calls ++ l ∧
      (RetryOnConflict (updatePipelineAttempt c name nsName pipeline) n last w).2.jenkins
        = w.jenkins ∧
      ∀ call ∈ l, PersistenceCall c name nsName pipeline call := by
  induction n with
  | zero =>
    intro last w
    exact ⟨[], by simp [RetryOnConflict], by simp [RetryOnConflict], by simp⟩
  | succ n ih =>
    intro last w
    obtain ⟨l, hl, hj, hp⟩ := updatePipelineAttempt_frame c name nsName pipeline w
    rcases hf : updatePipelineAttempt c name nsName pipeline w with ⟨o, w1⟩
    rw [hf] at hl hj
    simp only at hl hj
    cases o with
    | panicked => exact ⟨l, by simp [RetryOnConflict, hf, hl], by simp [RetryOnConflict, hf, hj], hp⟩
    | returned e =>
      cases e with
      | none => exact ⟨l, by simp [RetryOnConflict, hf, hl], by simp [RetryOnConflict, hf, hj], hp⟩
      | some err =>
        by_cases hc : IsConflict err = true
        · obtain ⟨l2, hl2, hj2, hp2⟩ := ih (some err) w1
          refine ⟨l ++ l2, ?_, ?_, ?_⟩
          · simp [RetryOnConflict, hf, hc, hl2, hl]
          · simp [RetryOnConflict, hf, hc, hj2, hj]
          · intro call hcall
            rcases List.mem_append.1 hcall with h | h
            · exact hp call h
            · exact hp2 call h
        · exact ⟨l, by simp [RetryOnConflict, hf, hc, hl], by simp [RetryOnConflict, hf, hc, hj], hp⟩

theorem updatePipeline_frame (c : Controller Spec Status J K) (name nsName : String)
    (pipeline : Pipeline Spec Status) (w : World Spec Status J K) :
    ∃ l, (updatePipeline c name nsName pipeline w).2.calls = w.calls ++ l ∧
      (updatePipeline c name nsName pipeline w).2.jenkins = w.jenkins ∧
      ∀ call ∈ l, PersistenceCall c name nsName pipeline call :=
  RetryOnConflict_frame c name nsName pipeline DefaultRetrySteps none w

theorem persistIfChanged_frame [DecidableEq Spec] [DecidableEq Status]
    (c : Controller Spec Status J K) (name nsName : String)
    (pipeline copyPipeline : Pipeline Spec Status) (w : World Spec Status J K) :
    ∃ l, (persistIfChanged c name nsName pipeline copyPipeline w).2.calls = w.calls ++ l ∧
      (persistIfChanged c name nsName pipeline copyPipeline w).2.jenkins = w.jenkins ∧
      ∀ call ∈ l, PersistenceCall c name nsName copyPipeline call := by
  unfold persistIfChanged
  split
  · exact ⟨[], by simp, rfl, by simp⟩
  · exact updatePipeline_frame c name nsName copyPipeline w

end Run

/-! ## Lemmas on the two branches of `syncHandler` -/

section Branches

variable {Spec Status J K : Type} [DecidableEq Spec] [DecidableEq Status]

theorem mapGet?_getD (m : Option StringMap) (k : String) :
    mapGet? (some (m.getD [])) k = mapGet? m k := by
  cases m <;> simp [mapGet?]

theorem mapIndex_getD (m : Option StringMap) (k : String) :
    mapIndex (some (m.getD [])) k = mapIndex m k := by
  simp [mapIndex, mapGet?_getD]

theorem syncHandler_active (c : Controller Spec Status J K) (key nsName name : String)
    (w : World Spec Status J K) (pipeline : Pipeline Spec Status)
    (hkey : SplitMetaNamespaceKey key = .ok (nsName, name))
    (hlist : c.devOpsProjectLister nsName name = .ok pipeline)
    (hzero : TimeIsZero pipeline.Meta.DeletionTimestamp = true) :
    syncHandler c key w = syncActive c name nsName pipeline w := by
  simp [syncHandler, hkey, hlist, hzero]

theorem syncHandler_terminating (c : Controller Spec Status J K) (key nsName name : String)
    (w : World Spec Status J K) (pipeline : Pipeline Spec Status)
    (hkey : SplitMetaNamespaceKey key = .ok (nsName, name))
    (hlist : c.devOpsProjectLister nsName name = .ok pipeline)
    (hzero : TimeIsZero pipeline.Meta.DeletionTimestamp = false) :
    syncHandler c key w = syncTerminating c name nsName pipeline w := by
  simp [syncHandler, hkey, hlist, hzero]

theorem syncActive_shortCircuited (c : Controller Spec Status J K) (name nsName : String)
    (w : World Spec Status J K) (pipeline : Pipeline Spec Status)
    (h : shortCircuited c pipeline = true) :
    syncActive c name nsName pipeline w = (.returned none, w) := by
  unfold shortCircuited at h
  simp only [syncActive, mapGet?_getD, mapIndex_getD, h, if_true]

theorem finalCopy_not_deepEqual (c : Controller Spec Status J K)
    (pipeline : Pipeline Spec Status) (h : shortCircuited c pipeline = false) :
    Pipeline.DeepEqual pipeline (finalCopy c pipeline) = false := by
  apply pipeline_deepEqual_false_of_annotations
  rcases ha : pipeline.Meta.Annotations with _ | a
  · simp [finalCopy, adapterCopy, mapDeepEqual]
  · simp only [shortCircuited, ha, mapGet?, mapIndex] at h
    rcases hs : a.lookup PipelineSyncStatusAnnoKey with _ | state
    · apply mapDeepEqual_false_of_lookup_ne PipelineSyncStatusAnnoKey
      simp [finalCopy, adapterCopy, ha, mapGet?, hs, mapSet, List.lookup_cons]
    · by_cases hst : state = StatusSuccessful
      · subst hst
        simp only [hs, beq_self_eq_true, Bool.true_and, beq_eq_false_iff_ne, ne_eq] at h
        apply mapDeepEqual_false_of_lookup_ne PipelineSpecHash
        have hne : (PipelineSpecHash == PipelineSyncStatusAnnoKey) = false := by decide
        simp only [finalCopy, adapterCopy, ha, mapGet?, hs, mapSet, List.lookup_cons,
          Option.getD_some, beq_self_eq_true, if_true, hne]
        intro hl
        rw [hl] at h
        exact h rfl
      · apply mapDeepEqual_false_of_lookup_ne PipelineSyncStatusAnnoKey
        have hb : (state == StatusSuccessful) = false := by simpa using hst
        simp only [finalCopy, adapterCopy, ha, mapGet?, hs, hb, mapSet, List.lookup_cons,
          Option.getD_some, beq_self_eq_true]
        intro hl
        exact hst (Option.some.inj hl)

theorem syncActive_unfold (c : Controller Spec Status J K) (name nsName : String)
    (w : World Spec Status J K) (pipeline : Pipeline Spec Status) :
    syncActive c name nsName pipeline w =
      if ((match mapGet? (some (pipeline.Meta.Annotations.getD []))
            PipelineSyncStatusAnnoKey with
          | some state => state == StatusSuccessful
          | none => false) &&
          c.ComputeHash pipeline.Spec ==
            mapIndex (some (pipeline.Meta.Annotations.getD [])) PipelineSpecHash) = true
      then (.returned none, w)
      else
        match (c.devopsClient.GetProjectPipelineConfig w.jenkins nsName pipeline.Meta.Name).1 with
        | .ok jenkinsPipeline =>
          if jenkinsPipeline.Spec ≠ pipeline.Spec then
            match (c.devopsClient.UpdateProjectPipeline
                (afterGetConfig c nsName pipeline w).jenkins nsName (adapterCopy c pipeline)).1 with
            | .error err => (.returned (some err), afterUpdateJob c nsName pipeline w)
            | .ok _ =>
              persistIfChanged c name nsName pipeline (finalCopy c pipeline)
                (afterUpdateJob c nsName pipeline w)
          else
            persistIfChanged c name nsName pipeline (finalCopy c pipeline)
              (afterGetConfig c nsName pipeline w)
        | .error _ =>
          match (c.devopsClient.CreateProjectPipeline
              (afterGetConfig c nsName pipeline w).jenkins nsName (adapterCopy c pipeline)).1 with
          | .error err => (.returned (some err), afterCreateJob c nsName pipeline w)
          | .ok _ =>
            persistIfChanged c name nsName pipeline (finalCopy c pipeline)
              (afterCreateJob c nsName pipeline w) :=
  rfl

theorem syncActive_eq (c : Controller Spec Status J K) (name nsName : String)
    (w : World Spec Status J K) (pipeline : Pipeline Spec Status)
    (h : shortCircuited c pipeline = false) :
    syncActive c name nsName pipeline w =
      match (c.devopsClient.GetProjectPipelineConfig w.jenkins nsName pipeline.Meta.Name).1 with
      | .ok jenkinsPipeline =>
        if jenkinsPipeline.Spec ≠ pipeline.Spec then
          match (c.devopsClient.UpdateProjectPipeline
              (afterGetConfig c nsName pipeline w).jenkins nsName (adapterCopy c pipeline)).1 with
          | .error err => (.returned (some err), afterUpdateJob c nsName pipeline w)
          | .ok _ =>
            updatePipeline c name nsName (finalCopy c pipeline) (afterUpdateJob c nsName pipeline w)
        else
          updatePipeline c name nsName (finalCopy c pipeline) (afterGetConfig c nsName pipeline w)
      | .error _ =>
        match (c.devopsClient.CreateProjectPipeline
            (afterGetConfig c nsName pipeline w).jenkins nsName (adapterCopy c pipeline)).1 with
        | .error err => (.returned (some err), afterCreateJob c nsName pipeline w)
        | .ok _ =>
          updatePipeline c name nsName (finalCopy c pipeline) (afterCreateJob c nsName pipeline w) := by
  have hd := finalCopy_not_deepEqual c pipeline h
  have hsc : ((match mapGet? (some (pipeline.Meta.Annotations.getD []))
        PipelineSyncStatusAnnoKey with
      | some state => state == StatusSuccessful
      | none => false) &&
      c.ComputeHash pipeline.Spec ==
        mapIndex (some (pipeline.Meta.Annotations.getD [])) PipelineSpecHash) = false := by
    rw [mapGet?_getD, mapIndex_getD]
    exact h
  have hp : ∀ w2 : World Spec Status J K,
      persistIfChanged c name nsName pipeline (finalCopy c pipeline) w2
        = updatePipeline c name nsName (finalCopy c pipeline) w2 := by
    intro w2
    simp [persistIfChanged, hd]
  rw [syncActive_unfold]
  simp only [hsc, hp, Bool.false_eq_true, if_false]

theorem syncTerminating_unfold (c : Controller Spec Status J K) (name nsName : String)
    (w : World Spec Status J K) (pipeline : Pipeline Spec Status) :
    syncTerminating c name nsName pipeline w =
      if HasString pipeline.Meta.Finalizers PipelineFinalizerName = true then
        if (match (c.devopsClient.DeleteProjectPipeline w.jenkins nsName pipeline.Meta.Name).1 with
            | .error err => deleteErrorMeansGone err
            | .ok _ => true) = true
        then persistIfChanged c name nsName pipeline (strippedCopy pipeline)
          (afterDeleteJob c nsName pipeline w)
        else (.returned (some finalizerError), afterDeleteJob c nsName pipeline w)
      else persistIfChanged c name nsName pipeline pipeline w :=
  rfl

theorem persistence_calls_not_adapter (c : Controller Spec Status J K) (name nsName : String)
    (pipeline : Pipeline Spec Status) (l : List (Call Spec Status))
    (h : ∀ call ∈ l, PersistenceCall c name nsName pipeline call) :
    l.filter Call.isAdapter = [] := by
  rw [List.filter_eq_nil_iff]
  intro call hcall
  rcases h call hcall with h1 | ⟨_, _, _, _, _, h1⟩ <;> simp [h1, Call.isAdapter]

theorem hasString_strippedCopy (pipeline : Pipeline Spec Status) :
    HasString (strippedCopy pipeline).Meta.Finalizers PipelineFinalizerName = false := by
  rcases hf : pipeline.Meta.Finalizers with _ | l <;>
    simp [strippedCopy, RemoveString, HasString, hf]

theorem strippedCopy_not_deepEqual (pipeline : Pipeline Spec Status)
    (h : HasString pipeline.Meta.Finalizers PipelineFinalizerName = true) :
    Pipeline.DeepEqual pipeline (strippedCopy pipeline) = false := by
  apply pipeline_deepEqual_false_of_finalizers
  intro heq
  have h2 := hasString_strippedCopy pipeline
  rw [← heq, h] at h2
  exact Bool.noConfusion h2

theorem mergeOwnedFields_finalizers (newPipeline pipeline written : Pipeline Spec Status)
    (h : mergeOwnedFields newPipeline pipeline = some written) :
    written.Meta.Finalizers = pipeline.Meta.Finalizers ∧
    written.Spec = newPipeline.Spec ∧ written.Status = newPipeline.Status := by
  unfold mergeOwnedFields at h
  split at h
  · cases h
    exact ⟨rfl, rfl, rfl⟩
  · split at h
    · cases h
    · cases h
      exact ⟨rfl, rfl, rfl⟩

theorem syncTerminating_deleted (c : Controller Spec Status J K) (name nsName : String)
    (w : World Spec Status J K) (pipeline : Pipeline Spec Status)
    (hfin : HasString pipeline.Meta.Finalizers PipelineFinalizerName = true)
    (hdel : (match (c.devopsClient.DeleteProjectPipeline w.jenkins nsName
          pipeline.Meta.Name).1 with
        | .error err => deleteErrorMeansGone err
        | .ok _ => true) = true) :
    syncTerminating c name nsName pipeline w =
      updatePipeline c name nsName (strippedCopy pipeline) (afterDeleteJob c nsName pipeline w) := by
  rw [syncTerminating_unfold]
  simp only [hfin, hdel, if_true, persistIfChanged, strippedCopy_not_deepEqual pipeline hfin,
    Bool.false_eq_true, if_false]

theorem syncTerminating_delete_failed (c : Controller Spec Status J K) (name nsName : String)
    (w : World Spec Status J K) (pipeline : Pipeline Spec Status)
    (hfin : HasString pipeline.Meta.Finalizers PipelineFinalizerName = true)
    (hdel : (match (c.devopsClient.DeleteProjectPipeline w.jenkins nsName
          pipeline.Meta.Name).1 with
        | .error err => deleteErrorMeansGone err
        | .ok _ => true) = false) :
    syncTerminating c name nsName pipeline w =
      (.returned (some finalizerError), afterDeleteJob c nsName pipeline w) := by
  rw [syncTerminating_unfold]
  simp only [hfin, hdel, if_true, Bool.false_eq_true, if_false]

theorem syncTerminating_no_finalizer (c : Controller Spec Status J K) (name nsName : String)
    (w : World Spec Status J K) (pipeline : Pipeline Spec Status)
    (hfin : HasString pipeline.Meta.Finalizers PipelineFinalizerName = false) :
    syncTerminating c name nsName pipeline w = (.returned none, w) := by
  rw [syncTerminating_unfold]
  simp only [hfin, Bool.false_eq_true, if_false, persistIfChanged,
    pipeline_deepEqual_refl, if_true]

theorem mergeOwnedFields_isSome (newPipeline pipeline : Pipeline Spec Status)
    (hann : pipeline.Meta.Annotations ≠ none → newPipeline.Meta.Annotations ≠ none) :
    ∃ written, mergeOwnedFields newPipeline pipeline = some written := by
  unfold mergeOwnedFields
  rcases hp : pipeline.Meta.Annotations with _ | a
  · exact ⟨_, rfl⟩
  · rcases hn : newPipeline.Meta.Annotations with _ | m
    · exact absurd hn (hann (by simp [hp]))
    · exact ⟨_, rfl⟩

theorem updatePipeline_ok (c : Controller Spec Status J K) (name nsName : String)
    (copyPipeline newPipeline : Pipeline Spec Status) (w : World Spec Status J K)
    (hget : (c.kubesphereClient.Get w.kube nsName name).1 = .ok newPipeline)
    (hann : copyPipeline.Meta.Annotations ≠ none → newPipeline.Meta.Annotations ≠ none)
    (hupd : ∀ k obj, ∃ r, (c.kubesphereClient.Update k nsName obj).1 = .ok r) :
    (updatePipeline c name nsName copyPipeline w).1 = .returned none ∧
    ((ownedFieldsAgree newPipeline copyPipeline = true ∧
        (updatePipeline c name nsName copyPipeline w).2.calls
          = w.calls ++ [Call.PipelinesGet nsName name]) ∨
     (ownedFieldsAgree newPipeline copyPipeline = false ∧
        ∃ written, mergeOwnedFields newPipeline copyPipeline = some written ∧
          (updatePipeline c name nsName copyPipeline w).2.calls
            = w.calls ++ [Call.PipelinesGet nsName name, Call.PipelinesUpdate nsName written])) := by
  have hattempt : (updatePipelineAttempt c name nsName copyPipeline w).1 = .returned none ∧
      ((ownedFieldsAgree newPipeline copyPipeline = true ∧
          (updatePipelineAttempt c name nsName copyPipeline w).2.calls
            = w.calls ++ [Call.PipelinesGet nsName name]) ∨
       (ownedFieldsAgree newPipeline copyPipeline = false ∧
          ∃ written, mergeOwnedFields newPipeline copyPipeline = some written ∧
            (updatePipelineAttempt c name nsName copyPipeline w).2.calls
              = w.calls ++ [Call.PipelinesGet nsName name,
                  Call.PipelinesUpdate nsName written])) := by
    rcases ha : ownedFieldsAgree newPipeline copyPipeline with _ | _
    · obtain ⟨written, hm⟩ := mergeOwnedFields_isSome newPipeline copyPipeline hann
      obtain ⟨r, hr⟩ := hupd (c.kubesphereClient.Get w.kube nsName name).2 written
      refine ⟨?_, Or.inr ⟨rfl, written, hm, ?_⟩⟩ <;>
        simp [updatePipelineAttempt, hget, ha, hm, hr]
    · refine ⟨?_, Or.inl ⟨rfl, ?_⟩⟩ <;> simp [updatePipelineAttempt, hget, ha]
  have hrun : updatePipeline c name nsName copyPipeline w
      = updatePipelineAttempt c name nsName copyPipeline w :=
    RetryOnConflict_succ_of_nil _ 4 none w hattempt.1
  rw [hrun]
  exact hattempt

theorem ownedFieldsAgree_finalizers (newPipeline pipeline : Pipeline Spec Status)
    (h : ownedFieldsAgree newPipeline pipeline = true) :
    mapIndex newPipeline.Meta.Annotations PipelineSyncStatusAnnoKey
      = mapIndex pipeline.Meta.Annotations PipelineSyncStatusAnnoKey ∧
    mapIndex newPipeline.Meta.Annotations PipelineSpecHash
      = mapIndex pipeline.Meta.Annotations PipelineSpecHash ∧
    newPipeline.Meta.Finalizers = pipeline.Meta.Finalizers := by
  simpa [ownedFieldsAgree, and_assoc] using h

theorem mem_callsMade_append (w w1 w2 : World Spec Status J K)
    (l1 l2 : List (Call Spec Status)) (h1 : w1.calls = w.calls ++ l1)
    (h2 : w2.calls = w1.calls ++ l2) : callsMade w w2 = l1 ++ l2 := by
  apply callsMade_of_append
  rw [h2, h1, List.append_assoc]

theorem mergeOwnedFields_annotations_nil (newPipeline pipeline written : Pipeline Spec Status)
    (hp : pipeline.Meta.Annotations = none)
    (h : mergeOwnedFields newPipeline pipeline = some written) :
    written.Meta.Annotations = newPipeline.Meta.Annotations := by
  unfold mergeOwnedFields at h
  rw [hp] at h
  cases h
  rfl

theorem mergeOwnedFields_annotations (newPipeline pipeline written : Pipeline Spec Status)
    (hp : pipeline.Meta.Annotations ≠ none)
    (h : mergeOwnedFields newPipeline pipeline = some written) :
    mapGet? written.Meta.Annotations PipelineSyncStatusAnnoKey
      = some (mapIndex pipeline.Meta.Annotations PipelineSyncStatusAnnoKey) ∧
    mapGet? written.Meta.Annotations PipelineSpecHash
      = some (mapIndex pipeline.Meta.Annotations PipelineSpecHash) := by
  unfold mergeOwnedFields at h
  rcases ha : pipeline.Meta.Annotations with _ | a
  · exact absurd ha hp
  · rw [ha] at h
    rcases hn : newPipeline.Meta.Annotations with _ | m
    · rw [hn] at h
      cases h
    · rw [hn] at h
      cases h
      have hk := syncStatusKey_ne_specHashKey
      simp [mapGet?, lookup_mapSet, hk]

theorem afterGetConfig_calls (c : Controller Spec Status J K) (nsName : String)
    (pipeline : Pipeline Spec Status) (w : World Spec Status J K) :
    (afterGetConfig c nsName pipeline w).calls
      = w.calls ++ [Call.GetProjectPipelineConfig nsName pipeline.Meta.Name] :=
  rfl

theorem afterUpdateJob_calls (c : Controller Spec Status J K) (nsName : String)
    (pipeline : Pipeline Spec Status) (w : World Spec Status J K) :
    (afterUpdateJob c nsName pipeline w).calls
      = w.calls ++ [Call.GetProjectPipelineConfig nsName pipeline.Meta.Name,
          Call.UpdateProjectPipeline nsName (adapterCopy c pipeline)] := by
  simp [afterUpdateJob, afterGetConfig]

theorem afterCreateJob_calls (c : Controller Spec Status J K) (nsName : String)
    (pipeline : Pipeline Spec Status) (w : World Spec Status J K) :
    (afterCreateJob c nsName pipeline w).calls
      = w.calls ++ [Call.GetProjectPipelineConfig nsName pipeline.Meta.Name,
          Call.CreateProjectPipeline nsName (adapterCopy c pipeline)] := by
  simp [afterCreateJob, afterGetConfig]

theorem updatePipeline_adapter_calls (c : Controller Spec Status J K) (name nsName : String)
    (copyPipeline : Pipeline Spec Status) (w w1 : World Spec Status J K)
    (l1 : List (Call Spec Status)) (h1 : w1.calls = w.calls ++ l1) :
    (callsMade w (updatePipeline c name nsName copyPipeline w1).2).filter Call.isAdapter
      = l1.filter Call.isAdapter := by
  obtain ⟨l, hl, _, hp⟩ := updatePipeline_frame c name nsName copyPipeline w1
  rw [mem_callsMade_append w w1 _ l1 l h1 hl, List.filter_append,
    persistence_calls_not_adapter c name nsName copyPipeline l hp, List.append_nil]

theorem updatePipeline_writes (c : Controller Spec Status J K) (name nsName : String)
    (copyPipeline : Pipeline Spec Status) (w w1 : World Spec Status J K)
    (l1 : List (Call Spec Status)) (h1 : w1.calls = w.calls ++ l1)
    (hl1 : l1.filter Call.isWrite = []) (ns : String) (obj : Pipeline Spec Status)
    (hmem : Call.PipelinesUpdate ns obj
      ∈ callsMade w (updatePipeline c name nsName copyPipeline w1).2) :
    ∃ k newPipeline, (c.kubesphereClient.Get k nsName name).1 = .ok newPipeline ∧
      mergeOwnedFields newPipeline copyPipeline = some obj := by
  obtain ⟨l, hl, _, hp⟩ := updatePipeline_frame c name nsName copyPipeline w1
  rw [mem_callsMade_append w w1 _ l1 l h1 hl, List.mem_append] at hmem
  rcases hmem with hmem | hmem
  · have : Call.PipelinesUpdate ns obj ∈ l1.filter Call.isWrite := by
      rw [List.mem_filter]
      exact ⟨hmem, rfl⟩
    rw [hl1] at this
    cases this
  · rcases hp _ hmem with h | ⟨k, np, written, hg, hm, h⟩
    · cases h
    · cases h
      exact ⟨k, np, hg, hm⟩

theorem syncActive_adapter_calls (c : Controller Spec Status J K) (name nsName : String)
    (w : World Spec Status J K) (pipeline : Pipeline Spec Status)
    (h : shortCircuited c pipeline = false) :
    (callsMade w (syncActive c name nsName pipeline w).2).filter Call.isAdapter =
      match (c.devopsClient.GetProjectPipelineConfig w.jenkins nsName pipeline.Meta.Name).1 with
      | .ok jenkinsPipeline =>
        if jenkinsPipeline.Spec ≠ pipeline.Spec then
          [Call.GetProjectPipelineConfig nsName pipeline.Meta.Name,
           Call.UpdateProjectPipeline nsName (adapterCopy c pipeline)]
        else [Call.GetProjectPipelineConfig nsName pipeline.Meta.Name]
      | .error _ =>
        [Call.GetProjectPipelineConfig nsName pipeline.Meta.Name,
         Call.CreateProjectPipeline nsName (adapterCopy c pipeline)] := by
  rw [syncActive_eq c name nsName w pipeline h]
  rcases hg : (c.devopsClient.GetProjectPipelineConfig w.jenkins nsName
      pipeline.Meta.Name).1 with err | job
  · rcases hc : (c.devopsClient.CreateProjectPipeline
        (afterGetConfig c nsName pipeline w).jenkins nsName (adapterCopy c pipeline)).1
      with err2 | r
    · simp only []
      rw [callsMade_of_append w _ _ (afterCreateJob_calls c nsName pipeline w)]
      simp [Call.isAdapter]
    · simp only []
      rw [updatePipeline_adapter_calls c name nsName _ w _ _
        (afterCreateJob_calls c nsName pipeline w)]
      simp [Call.isAdapter]
  · by_cases hs : job.Spec = pipeline.Spec
    · simp only [hs, ne_eq, not_true_eq_false, if_false]
      rw [updatePipeline_adapter_calls c name nsName _ w _ _
        (afterGetConfig_calls c nsName pipeline w)]
      simp [Call.isAdapter]
    · simp only [hs, ne_eq, not_false_eq_true, if_true]
      rcases hu : (c.devopsClient.UpdateProjectPipeline
          (afterGetConfig c nsName pipeline w).jenkins nsName (adapterCopy c pipeline)).1
        with err2 | r
      · simp only []
        rw [callsMade_of_append w _ _ (afterUpdateJob_calls c nsName pipeline w)]
        simp [Call.isAdapter]
      · simp only []
        rw [updatePipeline_adapter_calls c name nsName _ w _ _
          (afterUpdateJob_calls c nsName pipeline w)]
        simp [Call.isAdapter]

theorem syncActive_writes (c : Controller Spec Status J K) (name nsName : String)
    (w : World Spec Status J K) (pipeline : Pipeline Spec Status)
    (h : shortCircuited c pipeline = false) (ns : String) (obj : Pipeline Spec Status)
    (hmem : Call.PipelinesUpdate ns obj
      ∈ callsMade w (syncActive c name nsName pipeline w).2) :
    ∃ k newPipeline, (c.kubesphereClient.Get k nsName name).1 = .ok newPipeline ∧
      mergeOwnedFields newPipeline (finalCopy c pipeline) = some obj := by
  rw [syncActive_eq c name nsName w pipeline h] at hmem
  rcases hg : (c.devopsClient.GetProjectPipelineConfig w.jenkins nsName
      pipeline.Meta.Name).1 with err | job
  · rw [hg] at hmem
    rcases hc : (c.devopsClient.CreateProjectPipeline
        (afterGetConfig c nsName pipeline w).jenkins nsName (adapterCopy c pipeline)).1
      with err2 | r
    · rw [hc] at hmem
      simp only [] at hmem
      rw [callsMade_of_append w _ _ (afterCreateJob_calls c nsName pipeline w)] at hmem
      simp at hmem
    · rw [hc] at hmem
      exact updatePipeline_writes c name nsName _ w _ _
        (afterCreateJob_calls c nsName pipeline w) (by simp [Call.isWrite]) ns obj hmem
  · rw [hg] at hmem
    by_cases hs : job.Spec = pipeline.Spec
    · simp only [hs, ne_eq, not_true_eq_false, if_false] at hmem
      exact updatePipeline_writes c name nsName _ w _ _
        (afterGetConfig_calls c nsName pipeline w) (by simp [Call.isWrite]) ns obj hmem
    · simp only [hs, ne_eq, not_false_eq_true, if_true] at hmem
      rcases hu : (c.devopsClient.UpdateProjectPipeline
          (afterGetConfig c nsName pipeline w).jenkins nsName (adapterCopy c pipeline)).1
        with err2 | r
      · rw [hu] at hmem
        simp only [] at hmem
        rw [callsMade_of_append w _ _ (afterUpdateJob_calls c nsName pipeline w)] at hmem
        simp at hmem
      · rw [hu] at hmem
        exact updatePipeline_writes c name nsName _ w _ _
          (afterUpdateJob_calls c nsName pipeline w) (by simp [Call.isWrite]) ns obj hmem

theorem syncedBefore_iff (m : Option StringMap) :
    (match mapGet? (some (m.getD [])) PipelineSyncStatusAnnoKey with
      | some state => state == StatusSuccessful
      | none => false) = true ↔
    mapGet? m PipelineSyncStatusAnnoKey = some StatusSuccessful := by
  rw [mapGet?_getD]
  rcases mapGet? m PipelineSyncStatusAnnoKey with _ | state <;> simp

theorem finalCopy_sync (c : Controller Spec Status J K) (pipeline : Pipeline Spec Status) :
    mapIndex (finalCopy c pipeline).Meta.Annotations PipelineSyncStatusAnnoKey
      = StatusSuccessful := by
  simp [finalCopy, mapIndex, mapGet?, mapSet]

theorem finalCopy_hash (c : Controller Spec Status J K) (pipeline : Pipeline Spec Status) :
    mapIndex (finalCopy c pipeline).Meta.Annotations PipelineSpecHash
      = if mapGet? pipeline.Meta.Annotations PipelineSyncStatusAnnoKey
            = some StatusSuccessful
        then c.ComputeHash pipeline.Spec
        else mapIndex pipeline.Meta.Annotations PipelineSpecHash := by
  by_cases hb : mapGet? pipeline.Meta.Annotations PipelineSyncStatusAnnoKey
      = some StatusSuccessful
  · have hm := (syncedBefore_iff pipeline.Meta.Annotations).2 hb
    rw [if_pos hb]
    simp only [finalCopy, adapterCopy, hm, if_true]
    simp [mapIndex, mapGet?, lookup_mapSet, syncStatusKey_ne_specHashKey.symm]
  · have hm : (match mapGet? (some (pipeline.Meta.Annotations.getD []))
          PipelineSyncStatusAnnoKey with
        | some state => state == StatusSuccessful
        | none => false) = false := by
      rw [← Bool.not_eq_true]
      exact fun h => hb ((syncedBefore_iff pipeline.Meta.Annotations).1 h)
    rw [if_neg hb, ← mapIndex_getD pipeline.Meta.Annotations]
    simp only [finalCopy, adapterCopy, hm, Bool.false_eq_true, if_false]
    simp [mapIndex, mapGet?, lookup_mapSet, syncStatusKey_ne_specHashKey.symm]

theorem finalCopy_annotations (c : Controller Spec Status J K)
    (pipeline : Pipeline Spec Status) : (finalCopy c pipeline).Meta.Annotations ≠ none := by
  simp [finalCopy]

theorem finalCopy_hasFinalizer (c : Controller Spec Status J K)
    (pipeline : Pipeline Spec Status) :
    HasString (finalCopy c pipeline).Meta.Finalizers PipelineFinalizerName = true := by
  rcases hf : HasString pipeline.Meta.Finalizers PipelineFinalizerName with _ | _
  · simp only [finalCopy, adapterCopy, hf, Bool.not_false, if_true]
    rcases pipeline.Meta.Finalizers with _ | l <;> simp [appendString, HasString]
  · simp only [finalCopy, adapterCopy, hf, Bool.not_true, Bool.false_eq_true, if_false]

theorem updatePipeline_kube_calls (c : Controller Spec Status J K) (name nsName : String)
    (copyPipeline newPipeline : Pipeline Spec Status) (w w1 : World Spec Status J K)
    (l1 : List (Call Spec Status)) (h1 : w1.calls = w.calls ++ l1)
    (hl1 : l1.filter Call.isKube = []) (hk : w1.kube = w.kube)
    (hget : (c.kubesphereClient.Get w.kube nsName name).1 = .ok newPipeline)
    (hann : copyPipeline.Meta.Annotations ≠ none → newPipeline.Meta.Annotations ≠ none)
    (hupd : ∀ k obj, ∃ r, (c.kubesphereClient.Update k nsName obj).1 = .ok r) :
    (updatePipeline c name nsName copyPipeline w1).1 = .returned none ∧
    ((ownedFieldsAgree newPipeline copyPipeline = true ∧
        (callsMade w (updatePipeline c name nsName copyPipeline w1).2).filter Call.isKube
          = [Call.PipelinesGet nsName name]) ∨
     (ownedFieldsAgree newPipeline copyPipeline = false ∧
        ∃ written, mergeOwnedFields newPipeline copyPipeline = some written ∧
        (callsMade w (updatePipeline c name nsName copyPipeline w1).2).filter Call.isKube
          = [Call.PipelinesGet nsName name, Call.PipelinesUpdate nsName written])) := by
  rw [← hk] at hget
  obtain ⟨hnil, hcalls⟩ := updatePipeline_ok c name nsName copyPipeline newPipeline w1
    hget hann hupd
  refine ⟨hnil, ?_⟩
  rcases hcalls with ⟨ha, hl⟩ | ⟨ha, written, hm, hl⟩
  · left
    refine ⟨ha, ?_⟩
    rw [mem_callsMade_append w w1 _ l1 _ h1 hl, List.filter_append, hl1]
    simp [Call.isKube]
  · right
    refine ⟨ha, written, hm, ?_⟩
    rw [mem_callsMade_append w w1 _ l1 _ h1 hl, List.filter_append, hl1]
    simp [Call.isKube]

theorem syncActive_persists (c : Controller Spec Status J K) (name nsName : String)
    (w : World Spec Status J K) (pipeline newPipeline : Pipeline Spec Status)
    (h : shortCircuited c pipeline = false)
    (hcreate : ∀ j q, ∃ r, (c.devopsClient.CreateProjectPipeline j nsName q).1 = .ok r)
    (hupdate : ∀ j q, ∃ r, (c.devopsClient.UpdateProjectPipeline j nsName q).1 = .ok r)
    (hget : (c.kubesphereClient.Get w.kube nsName name).1 = .ok newPipeline)
    (hann : newPipeline.Meta.Annotations ≠ none)
    (hupd : ∀ k obj, ∃ r, (c.kubesphereClient.Update k nsName obj).1 = .ok r) :
    (syncActive c name nsName pipeline w).1 = .returned none ∧
    ((ownedFieldsAgree newPipeline (finalCopy c pipeline) = true ∧
        (callsMade w (syncActive c name nsName pipeline w).2).filter Call.isKube
          = [Call.PipelinesGet nsName name]) ∨
     (ownedFieldsAgree newPipeline (finalCopy c pipeline) = false ∧
        ∃ written, mergeOwnedFields newPipeline (finalCopy c pipeline) = some written ∧
        (callsMade w (syncActive c name nsName pipeline w).2).filter Call.isKube
          = [Call.PipelinesGet nsName name, Call.PipelinesUpdate nsName written])) := by
  rw [syncActive_eq c name nsName w pipeline h]
  rcases hg : (c.devopsClient.GetProjectPipelineConfig w.jenkins nsName
      pipeline.Meta.Name).1 with err | job
  · obtain ⟨r, hc⟩ := hcreate (afterGetConfig c nsName pipeline w).jenkins
      (adapterCopy c pipeline)
    simp only [hc]
    exact updatePipeline_kube_calls c name nsName _ newPipeline w _ _
      (afterCreateJob_calls c nsName pipeline w) (by simp [Call.isKube]) rfl hget
      (fun _ => hann) hupd
  · by_cases hs : job.Spec = pipeline.Spec
    · simp only [hs, ne_eq, not_true_eq_false, if_false]
      exact updatePipeline_kube_calls c name nsName _ newPipeline w _ _
        (afterGetConfig_calls c nsName pipeline w) (by simp [Call.isKube]) rfl hget
        (fun _ => hann) hupd
    · obtain ⟨r, hu⟩ := hupdate (afterGetConfig c nsName pipeline w).jenkins
        (adapterCopy c pipeline)
      simp only [hs, ne_eq, not_false_eq_true, if_true, hu]
      exact updatePipeline_kube_calls c name nsName _ newPipeline w _ _
        (afterUpdateJob_calls c nsName pipeline w) (by simp [Call.isKube]) rfl hget
        (fun _ => hann) hupd

theorem mapGet?_of_mapIndex (m : Option StringMap) (k v : String)
    (h : mapIndex m k = v) (hv : v ≠ "") : mapGet? m k = some v := by
  unfold mapIndex at h
  rcases hg : mapGet? m k with _ | x
  · rw [hg] at h
    exact absurd h.symm hv
  · rw [hg] at h
    simpa using h

theorem mapIndex_of_mapGet? (m : Option StringMap) (k v : String)
    (h : mapGet? m k = some v) : mapIndex m k = v := by
  simp [mapIndex, h]

/-- What the API server holds for the Pipeline after a successful run of the
active branch: the object written, or the re-fetched object when it agreed
already; its two owned annotations and its finalizers are those of the final
copy, its spec and status those of the re-fetched object. -/
theorem syncActive_persisted (c : Controller Spec Status J K) (name nsName : String)
    (w : World Spec Status J K) (pipeline newPipeline : Pipeline Spec Status)
    (h : shortCircuited c pipeline = false)
    (hcreate : ∀ j q, ∃ r, (c.devopsClient.CreateProjectPipeline j nsName q).1 = .ok r)
    (hupdate : ∀ j q, ∃ r, (c.devopsClient.UpdateProjectPipeline j nsName q).1 = .ok r)
    (hget : (c.kubesphereClient.Get w.kube nsName name).1 = .ok newPipeline)
    (hann : newPipeline.Meta.Annotations ≠ none)
    (hupd : ∀ k obj, ∃ r, (c.kubesphereClient.Update k nsName obj).1 = .ok r) :
    (syncActive c name nsName pipeline w).1 = .returned none ∧
    ∃ persisted,
      ((callsMade w (syncActive c name nsName pipeline w).2).filter Call.isKube
          = [Call.PipelinesGet nsName name, Call.PipelinesUpdate nsName persisted] ∨
       ((callsMade w (syncActive c name nsName pipeline w).2).filter Call.isKube
          = [Call.PipelinesGet nsName name] ∧ persisted = newPipeline)) ∧
      mapIndex persisted.Meta.Annotations PipelineSyncStatusAnnoKey
        = mapIndex (finalCopy c pipeline).Meta.Annotations PipelineSyncStatusAnnoKey ∧
      mapIndex persisted.Meta.Annotations PipelineSpecHash
        = mapIndex (finalCopy c pipeline).Meta.Annotations PipelineSpecHash ∧
      persisted.Meta.Finalizers = (finalCopy c pipeline).Meta.Finalizers ∧
      persisted.Spec = newPipeline.Spec ∧ persisted.Status = newPipeline.Status := by
  obtain ⟨hnil, hcalls⟩ := syncActive_persists c name nsName w pipeline newPipeline h
    hcreate hupdate hget hann hupd
  refine ⟨hnil, ?_⟩
  rcases hcalls with ⟨ha, hl⟩ | ⟨_, written, hm, hl⟩
  · obtain ⟨h1, h2, h3⟩ := ownedFieldsAgree_finalizers newPipeline (finalCopy c pipeline) ha
    exact ⟨newPipeline, Or.inr ⟨hl, rfl⟩, h1, h2, h3, rfl, rfl⟩
  · obtain ⟨h1, h2⟩ := mergeOwnedFields_annotations newPipeline (finalCopy c pipeline) written
      (finalCopy_annotations c pipeline) hm
    obtain ⟨h3, h4, h5⟩ := mergeOwnedFields_finalizers newPipeline (finalCopy c pipeline)
      written hm
    exact ⟨written, Or.inl hl, mapIndex_of_mapGet? _ _ _ h1, mapIndex_of_mapGet? _ _ _ h2,
      h3, h4, h5⟩

theorem finalCopy_not_agree (c : Controller Spec Status J K)
    (pipeline : Pipeline Spec Status) (h : shortCircuited c pipeline = false) :
    ownedFieldsAgree pipeline (finalCopy c pipeline) = false := by
  rw [← Bool.not_eq_true]
  intro ha
  obtain ⟨h1, h2, _⟩ := ownedFieldsAgree_finalizers pipeline (finalCopy c pipeline) ha
  rw [finalCopy_sync] at h1
  have hs := mapGet?_of_mapIndex _ _ _ h1 (by decide)
  rw [finalCopy_hash, if_pos hs] at h2
  simp [shortCircuited, hs, h2] at h

theorem mergeOwnedFields_finalCopy (c : Controller Spec Status J K)
    (newPipeline pipeline written : Pipeline Spec Status)
    (hm : mergeOwnedFields newPipeline (finalCopy c pipeline) = some written) :
    written.Meta.DeletionTimestamp = newPipeline.Meta.DeletionTimestamp ∧
    written.Spec = newPipeline.Spec ∧
    written.Meta.Annotations ≠ none ∧
    mapGet? written.Meta.Annotations PipelineSyncStatusAnnoKey = some StatusSuccessful ∧
    mapGet? written.Meta.Annotations PipelineSpecHash
      = some (if mapGet? pipeline.Meta.Annotations PipelineSyncStatusAnnoKey
            = some StatusSuccessful
          then c.ComputeHash pipeline.Spec
          else mapIndex pipeline.Meta.Annotations PipelineSpecHash) := by
  obtain ⟨h1, h2⟩ := mergeOwnedFields_annotations newPipeline (finalCopy c pipeline) written
    (finalCopy_annotations c pipeline) hm
  rw [finalCopy_sync] at h1
  rw [finalCopy_hash] at h2
  refine ⟨?_, (mergeOwnedFields_finalizers _ _ _ hm).2.1, ?_, h1, h2⟩
  · unfold mergeOwnedFields at hm
    split at hm
    · cases hm
      rfl
    · split at hm
      · cases hm
      · cases hm
        rfl
  · intro hnone
    rw [hnone] at h1
    cases h1

theorem updatePipeline_store (c : Controller Spec Status J (Option (Pipeline Spec Status)))
    (hc : c.kubesphereClient = singleObjectStore) (name nsName : String)
    (copyPipeline stored written : Pipeline Spec Status)
    (w : World Spec Status J (Option (Pipeline Spec Status)))
    (hk : w.kube = some stored) (ha : ownedFieldsAgree stored copyPipeline = false)
    (hm : mergeOwnedFields stored copyPipeline = some written) :
    updatePipeline c name nsName copyPipeline w =
      (.returned none,
        { w with
          kube := some written,
          calls := w.calls ++
            [Call.PipelinesGet nsName name, Call.PipelinesUpdate nsName written] }) := by
  have hattempt : updatePipelineAttempt c name nsName copyPipeline w =
      (.returned none,
        { w with
          kube := some written,
          calls := w.calls ++
            [Call.PipelinesGet nsName name, Call.PipelinesUpdate nsName written] }) := by
    simp [updatePipelineAttempt, hc, singleObjectStore, hk, ha, hm]
  have hrun : updatePipeline c name nsName copyPipeline w
      = updatePipelineAttempt c name nsName copyPipeline w :=
    RetryOnConflict_succ_of_nil _ 4 none w (by rw [hattempt])
  rw [hrun, hattempt]

theorem reconcileInStep_active (d : DevOpsInterface Spec Status J) (hash : Spec → String)
    (key nsName name : String) (w : World Spec Status J (Option (Pipeline Spec Status)))
    (pipeline : Pipeline Spec Status)
    (hkey : SplitMetaNamespaceKey key = .ok (nsName, name))
    (hk : w.kube = some pipeline)
    (hzero : TimeIsZero pipeline.Meta.DeletionTimestamp = true)
    (hann : pipeline.Meta.Annotations ≠ none)
    (hrun : shortCircuited (inStepController d hash w.kube) pipeline = false)
    (hcreate : ∀ j ns q, ∃ r, (d.CreateProjectPipeline j ns q).1 = .ok r)
    (hupdate : ∀ j ns q, ∃ r, (d.UpdateProjectPipeline j ns q).1 = .ok r) :
    ∃ written l,
      mergeOwnedFields pipeline (finalCopy (inStepController d hash w.kube) pipeline)
        = some written ∧
      (reconcileInStep d hash key w).1 = .returned none ∧
      (reconcileInStep d hash key w).2.kube = some written ∧
      (reconcileInStep d hash key w).2.calls
        = w.calls ++ (l ++ [Call.PipelinesGet nsName name,
            Call.PipelinesUpdate nsName written]) ∧
      l.filter Call.isWrite = [] := by
  obtain ⟨written, hm⟩ := mergeOwnedFields_isSome pipeline
    (finalCopy (inStepController d hash w.kube) pipeline) (fun _ => hann)
  have ha := finalCopy_not_agree (inStepController d hash w.kube) pipeline hrun
  have hlist : (inStepController d hash w.kube).devOpsProjectLister nsName name
      = .ok pipeline := by
    simp [inStepController, hk]
  unfold reconcileInStep
  rw [syncHandler_active _ key nsName name w pipeline hkey hlist hzero,
    syncActive_eq _ name nsName w pipeline hrun]
  rcases hg : ((inStepController d hash w.kube).devopsClient.GetProjectPipelineConfig
      w.jenkins nsName pipeline.Meta.Name).1 with err | job
  · obtain ⟨r, hcr⟩ := hcreate
      (afterGetConfig (inStepController d hash w.kube) nsName pipeline w).jenkins nsName
      (adapterCopy (inStepController d hash w.kube) pipeline)
    have hcr2 : ((inStepController d hash w.kube).devopsClient.CreateProjectPipeline
        (afterGetConfig (inStepController d hash w.kube) nsName pipeline w).jenkins nsName
        (adapterCopy (inStepController d hash w.kube) pipeline)).1 = .ok r := hcr
    simp only [hcr2]
    rw [updatePipeline_store (inStepController d hash w.kube) rfl name nsName _ pipeline
      written (afterCreateJob (inStepController d hash w.kube) nsName pipeline w) hk ha hm]
    refine ⟨written, [Call.GetProjectPipelineConfig nsName pipeline.Meta.Name,
      Call.CreateProjectPipeline nsName (adapterCopy (inStepController d hash w.kube) pipeline)], hm, rfl, rfl, ?_, ?_⟩
    · simp only [afterCreateJob_calls, List.append_assoc]
    · simp [Call.isWrite]
  · by_cases hs : job.Spec = pipeline.Spec
    · simp only [hs, ne_eq, not_true_eq_false, if_false]
      rw [updatePipeline_store (inStepController d hash w.kube) rfl name nsName _ pipeline
        written (afterGetConfig (inStepController d hash w.kube) nsName pipeline w) hk ha hm]
      refine ⟨written, [Call.GetProjectPipelineConfig nsName pipeline.Meta.Name], hm, rfl, rfl, ?_, ?_⟩
      · simp only [afterGetConfig_calls, List.append_assoc]
      · simp [Call.isWrite]
    · obtain ⟨r, hu⟩ := hupdate
        (afterGetConfig (inStepController d hash w.kube) nsName pipeline w).jenkins nsName
        (adapterCopy (inStepController d hash w.kube) pipeline)
      have hu2 : ((inStepController d hash w.kube).devopsClient.UpdateProjectPipeline
          (afterGetConfig (inStepController d hash w.kube) nsName pipeline w).jenkins nsName
          (adapterCopy (inStepController d hash w.kube) pipeline)).1 = .ok r := hu
      simp only [hs, ne_eq, not_false_eq_true, if_true, hu2]
      rw [updatePipeline_store (inStepController d hash w.kube) rfl name nsName _ pipeline
        written (afterUpdateJob (inStepController d hash w.kube) nsName pipeline w) hk ha hm]
      refine ⟨written, [Call.GetProjectPipelineConfig nsName pipeline.Meta.Name,
      Call.UpdateProjectPipeline nsName (adapterCopy (inStepController d hash w.kube) pipeline)], hm, rfl, rfl, ?_, ?_⟩
      · simp only [afterUpdateJob_calls, List.append_assoc]
      · simp [Call.isWrite]

/-! ### The shape of a run -/

theorem persistence_calls_are_kube (c : Controller Spec Status J K) (name nsName : String)
    (pipeline : Pipeline Spec Status) (l : List (Call Spec Status))
    (h : ∀ call ∈ l, PersistenceCall c name nsName pipeline call) :
    l.filter Call.isKube = l := by
  rw [List.filter_eq_self]
  intro call hcall
  rcases h call hcall with h1 | ⟨_, _, _, _, _, h1⟩ <;> simp [h1, Call.isKube]

theorem updatePipelineAttempt_first_call (c : Controller Spec Status J K)
    (name nsName : String) (pipeline : Pipeline Spec Status) (w : World Spec Status J K) :
    ∃ rest, (updatePipelineAttempt c name nsName pipeline w).2.calls
        = w.calls ++ Call.PipelinesGet nsName name :: rest ∧
      (rest = [] ∨ ∃ written, rest = [Call.PipelinesUpdate nsName written]) := by
  rcases hg : (c.kubesphereClient.Get w.kube nsName name).1 with err | newPipeline
  · exact ⟨[], by simp [updatePipelineAttempt, hg], Or.inl rfl⟩
  · rcases ha : ownedFieldsAgree newPipeline pipeline with _ | _
    · rcases hm : mergeOwnedFields newPipeline pipeline with _ | written
      · exact ⟨[], by simp [updatePipelineAttempt, hg, ha, hm], Or.inl rfl⟩
      · refine ⟨[Call.PipelinesUpdate nsName written], ?_, Or.inr ⟨written, rfl⟩⟩
        rcases hu : (c.kubesphereClient.Update
            (c.kubesphereClient.Get w.kube nsName name).2 nsName written).1 with e | r <;>
          simp [updatePipelineAttempt, hg, ha, hm, hu]
    · exact ⟨[], by simp [updatePipelineAttempt, hg, ha], Or.inl rfl⟩

theorem updatePipeline_first_call (c : Controller Spec Status J K)
    (name nsName : String) (pipeline : Pipeline Spec Status) (w : World Spec Status J K) :
    ∃ rest, (updatePipeline c name nsName pipeline w).2.calls
        = w.calls ++ Call.PipelinesGet nsName name :: rest := by
  obtain ⟨rest, hrest, _⟩ := updatePipelineAttempt_first_call c name nsName pipeline w
  rcases hf : updatePipelineAttempt c name nsName pipeline w with ⟨o, w1⟩
  rw [hf] at hrest
  simp only at hrest
  have hun : updatePipeline c name nsName pipeline w
      = RetryOnConflict (updatePipelineAttempt c name nsName pipeline) (4 + 1) none w := rfl
  rw [hun]
  cases o with
  | panicked =>
    rw [RetryOnConflict_succ_of_panic _ 4 none w (by rw [hf]), hf]
    exact ⟨rest, hrest⟩
  | returned e =>
    cases e with
    | none =>
      rw [RetryOnConflict_succ_of_nil _ 4 none w (by rw [hf]), hf]
      exact ⟨rest, hrest⟩
    | some err =>
      by_cases hc : IsConflict err = true
      · obtain ⟨l2, hl2, _, _⟩ := RetryOnConflict_frame c name nsName pipeline 4 (some err) w1
        refine ⟨rest ++ l2, ?_⟩
        rw [RetryOnConflict_succ_of_conflict _ 4 none w w1 err hf hc, hl2, hrest]
        simp
      · have hc2 : IsConflict err = false := by simpa using hc
        rw [RetryOnConflict_succ_of_error _ 4 none w err (by rw [hf]) hc2, hf]
        exact ⟨rest, hrest⟩

theorem updatePipeline_kube_calls_ne_nil (c : Controller Spec Status J K)
    (name nsName : String) (pipeline : Pipeline Spec Status) (w w1 : World Spec Status J K)
    (l1 : List (Call Spec Status)) (h1 : w1.calls = w.calls ++ l1) :
    (callsMade w (updatePipeline c name nsName pipeline w1).2).filter Call.isKube ≠ [] := by
  obtain ⟨rest, hrest⟩ := updatePipeline_first_call c name nsName pipeline w1
  rw [mem_callsMade_append w w1 _ l1 _ h1 hrest, List.filter_append]
  simp [Call.isKube]

theorem updatePipeline_agreed (c : Controller Spec Status J K) (name nsName : String)
    (pipeline newPipeline : Pipeline Spec Status) (w : World Spec Status J K)
    (hget : (c.kubesphereClient.Get w.kube nsName name).1 = .ok newPipeline)
    (ha : ownedFieldsAgree newPipeline pipeline = true) :
    updatePipeline c name nsName pipeline w =
      (.returned none,
        { w with kube := (c.kubesphereClient.Get w.kube nsName name).2,
                 calls := w.calls ++ [Call.PipelinesGet nsName name] }) := by
  have hattempt : updatePipelineAttempt c name nsName pipeline w =
      (.returned none,
        { w with kube := (c.kubesphereClient.Get w.kube nsName name).2,
                 calls := w.calls ++ [Call.PipelinesGet nsName name] }) := by
    simp [updatePipelineAttempt, hget, ha]
  have hrun : updatePipeline c name nsName pipeline w
      = updatePipelineAttempt c name nsName pipeline w :=
    RetryOnConflict_succ_of_nil _ 4 none w (by rw [hattempt])
  rw [hrun, hattempt]

theorem updatePipeline_written (c : Controller Spec Status J K) (name nsName : String)
    (pipeline newPipeline written : Pipeline Spec Status) (w : World Spec Status J K)
    (hget : (c.kubesphereClient.Get w.kube nsName name).1 = .ok newPipeline)
    (ha : ownedFieldsAgree newPipeline pipeline = false)
    (hm : mergeOwnedFields newPipeline pipeline = some written)
    (hupd : ∃ r, (c.kubesphereClient.Update (c.kubesphereClient.Get w.kube nsName name).2
      nsName written).1 = .ok r) :
    updatePipeline c name nsName pipeline w =
      (.returned none,
        { w with
          kube := (c.kubesphereClient.Update (c.kubesphereClient.Get w.kube nsName name).2
            nsName written).2,
          calls := w.calls ++
            [Call.PipelinesGet nsName name, Call.PipelinesUpdate nsName written] }) := by
  obtain ⟨r, hr⟩ := hupd
  have hattempt : updatePipelineAttempt c name nsName pipeline w =
      (.returned none,
        { w with
          kube := (c.kubesphereClient.Update (c.kubesphereClient.Get w.kube nsName name).2
            nsName written).2,
          calls := w.calls ++
            [Call.PipelinesGet nsName name, Call.PipelinesUpdate nsName written] }) := by
    simp [updatePipelineAttempt, hget, ha, hm, hr]
  have hrun : updatePipeline c name nsName pipeline w
      = updatePipelineAttempt c name nsName pipeline w :=
    RetryOnConflict_succ_of_nil _ 4 none w (by rw [hattempt])
  rw [hrun, hattempt]

theorem mergeOwnedFields_agrees (newPipeline pipeline written : Pipeline Spec Status)
    (hp : pipeline.Meta.Annotations ≠ none)
    (hm : mergeOwnedFields newPipeline pipeline = some written) :
    ownedFieldsAgree written pipeline = true := by
  obtain ⟨h1, h2⟩ := mergeOwnedFields_annotations newPipeline pipeline written hp hm
  have h3 := (mergeOwnedFields_finalizers newPipeline pipeline written hm).1
  simp [ownedFieldsAgree, mapIndex, h1, h2, h3]

theorem syncActive_persisted_of_job (c : Controller Spec Status J K) (name nsName : String)
    (w : World Spec Status J K) (pipeline jenkinsPipeline newPipeline : Pipeline Spec Status)
    (h : shortCircuited c pipeline = false)
    (hjob : (c.devopsClient.GetProjectPipelineConfig w.jenkins nsName
      pipeline.Meta.Name).1 = .ok jenkinsPipeline)
    (hupdate : ∀ j q, ∃ r, (c.devopsClient.UpdateProjectPipeline j nsName q).1 = .ok r)
    (hget : (c.kubesphereClient.Get w.kube nsName name).1 = .ok newPipeline)
    (hann : newPipeline.Meta.Annotations ≠ none)
    (hupd : ∀ k obj, ∃ r, (c.kubesphereClient.Update k nsName obj).1 = .ok r) :
    (syncActive c name nsName pipeline w).1 = .returned none ∧
    ((ownedFieldsAgree newPipeline (finalCopy c pipeline) = true ∧
        (callsMade w (syncActive c name nsName pipeline w).2).filter Call.isKube
          = [Call.PipelinesGet nsName name]) ∨
     (ownedFieldsAgree newPipeline (finalCopy c pipeline) = false ∧
        ∃ written, mergeOwnedFields newPipeline (finalCopy c pipeline) = some written ∧
        (callsMade w (syncActive c name nsName pipeline w).2).filter Call.isKube
          = [Call.PipelinesGet nsName name, Call.PipelinesUpdate nsName written])) := by
  rw [syncActive_eq c name nsName w pipeline h, hjob]
  by_cases hs : jenkinsPipeline.Spec = pipeline.Spec
  · simp only [hs, ne_eq, not_true_eq_false, if_false]
    exact updatePipeline_kube_calls c name nsName _ newPipeline w _ _
      (afterGetConfig_calls c nsName pipeline w) (by simp [Call.isKube]) rfl hget
      (fun _ => hann) hupd
  · obtain ⟨r, hu⟩ := hupdate (afterGetConfig c nsName pipeline w).jenkins
      (adapterCopy c pipeline)
    simp only [hs, ne_eq, not_false_eq_true, if_true, hu]
    exact updatePipeline_kube_calls c name nsName _ newPipeline w _ _
      (afterUpdateJob_calls c nsName pipeline w) (by simp [Call.isKube]) rfl hget
      (fun _ => hann) hupd

theorem persistIfChanged_of_not_deepEqual (c : Controller Spec Status J K)
    (name nsName : String) (pipeline copyPipeline : Pipeline Spec Status)
    (w : World Spec Status J K) (h : Pipeline.DeepEqual pipeline copyPipeline = false) :
    persistIfChanged c name nsName pipeline copyPipeline w
      = updatePipeline c name nsName copyPipeline w := by
  simp [persistIfChanged, h]

theorem persistIfChanged_of_deepEqual (c : Controller Spec Status J K)
    (name nsName : String) (pipeline copyPipeline : Pipeline Spec Status)
    (w : World Spec Status J K) (h : Pipeline.DeepEqual pipeline copyPipeline = true) :
    persistIfChanged c name nsName pipeline copyPipeline w = (.returned none, w) := by
  simp [persistIfChanged, h]

/-- A run that arrives at the persistence step ends in that step on the copy
and the world it arrived with; it has made adapter calls only; and the copy is
deep-equal to the Pipeline read exactly for a terminating Pipeline without the
finalizer. -/
theorem syncHandler_of_copyAtPersistence (c : Controller Spec Status J K)
    (key nsName name : String) (w w1 : World Spec Status J K)
    (pipeline copyPipeline : Pipeline Spec Status)
    (hkey : SplitMetaNamespaceKey key = .ok (nsName, name))
    (hlist : c.devOpsProjectLister nsName name = .ok pipeline)
    (h : copyAtPersistence c nsName pipeline w = some (copyPipeline, w1)) :
    syncHandler c key w = persistIfChanged c name nsName pipeline copyPipeline w1 ∧
    (∃ l, w1.calls = w.calls ++ l ∧ l.filter Call.isKube = []) ∧
    (Pipeline.DeepEqual pipeline copyPipeline = true ↔
      (TimeIsZero pipeline.Meta.DeletionTimestamp = false ∧
        HasString pipeline.Meta.Finalizers PipelineFinalizerName = false)) := by
  unfold copyAtPersistence at h
  rcases hz : TimeIsZero pipeline.Meta.DeletionTimestamp with _ | _
  · rw [syncHandler_terminating c key nsName name w pipeline hkey hlist hz]
    simp only [hz, Bool.false_eq_true, if_false] at h
    rcases hfin : HasString pipeline.Meta.Finalizers PipelineFinalizerName with _ | _
    · simp only [hfin, Bool.false_eq_true, if_false, Option.some.injEq, Prod.mk.injEq] at h
      obtain ⟨h1, h2⟩ := h
      subst h1
      subst h2
      rw [syncTerminating_no_finalizer c name nsName w pipeline hfin,
        persistIfChanged_of_deepEqual c name nsName pipeline pipeline w
          (pipeline_deepEqual_refl pipeline)]
      exact ⟨rfl, ⟨[], by simp, rfl⟩, by simp [pipeline_deepEqual_refl]⟩
    · simp only [hfin, if_true] at h
      have h : (if (match (c.devopsClient.DeleteProjectPipeline w.jenkins nsName
            pipeline.Meta.Name).1 with
          | .error err => deleteErrorMeansGone err
          | .ok _ => true) = true
          then some (strippedCopy pipeline, afterDeleteJob c nsName pipeline w)
          else none) = some (copyPipeline, w1) := h
      rcases hdel : (match (c.devopsClient.DeleteProjectPipeline w.jenkins nsName
            pipeline.Meta.Name).1 with
          | .error err => deleteErrorMeansGone err
          | .ok _ => true) with _ | _
      · rw [hdel] at h
        simp at h
      · rw [hdel] at h
        simp only [if_true, Option.some.injEq, Prod.mk.injEq] at h
        obtain ⟨h1, h2⟩ := h
        subst h1
        subst h2
        have hd := strippedCopy_not_deepEqual pipeline hfin
        rw [syncTerminating_deleted c name nsName w pipeline hfin hdel,
          persistIfChanged_of_not_deepEqual c name nsName pipeline _ _ hd]
        exact ⟨rfl, ⟨[Call.DeleteProjectPipeline nsName pipeline.Meta.Name], rfl,
          by simp [Call.isKube]⟩, by simp [hd]⟩
  · rw [syncHandler_active c key nsName name w pipeline hkey hlist hz]
    simp only [hz, if_true] at h
    rcases hsc : shortCircuited c pipeline with _ | _
    · have hd := finalCopy_not_deepEqual c pipeline hsc
      simp only [hsc, Bool.false_eq_true, if_false] at h
      rw [syncActive_eq c name nsName w pipeline hsc]
      rcases hg : (c.devopsClient.GetProjectPipelineConfig w.jenkins nsName
          pipeline.Meta.Name).1 with err | job
      · rw [hg] at h
        simp only [] at h ⊢
        rcases hc : (c.devopsClient.CreateProjectPipeline
            (afterGetConfig c nsName pipeline w).jenkins nsName (adapterCopy c pipeline)).1
          with err2 | r
        · rw [hc] at h
          simp at h
        · rw [hc] at h
          simp only [Option.some.injEq, Prod.mk.injEq] at h
          obtain ⟨h1, h2⟩ := h
          subst h1
          subst h2
          rw [persistIfChanged_of_not_deepEqual c name nsName pipeline _ _ hd]
          exact ⟨rfl, ⟨_, afterCreateJob_calls c nsName pipeline w, by simp [Call.isKube]⟩,
            by simp [hd]⟩
      · rw [hg] at h
        simp only [] at h ⊢
        by_cases hs : job.Spec = pipeline.Spec
        · simp only [hs, ne_eq, not_true_eq_false, if_false, Option.some.injEq,
            Prod.mk.injEq] at h ⊢
          obtain ⟨h1, h2⟩ := h
          subst h1
          subst h2
          rw [persistIfChanged_of_not_deepEqual c name nsName pipeline _ _ hd]
          exact ⟨rfl, ⟨_, afterGetConfig_calls c nsName pipeline w, by simp [Call.isKube]⟩,
            by simp [hd]⟩
        · simp only [hs, ne_eq, not_false_eq_true, if_true] at h ⊢
          rcases hu : (c.devopsClient.UpdateProjectPipeline
              (afterGetConfig c nsName pipeline w).jenkins nsName (adapterCopy c pipeline)).1
            with err2 | r
          · rw [hu] at h
            simp at h
          · rw [hu] at h
            simp only [Option.some.injEq, Prod.mk.injEq] at h
            obtain ⟨h1, h2⟩ := h
            subst h1
            subst h2
            rw [persistIfChanged_of_not_deepEqual c name nsName pipeline _ _ hd]
            exact ⟨rfl, ⟨_, afterUpdateJob_calls c nsName pipeline w, by simp [Call.isKube]⟩,
              by simp [hd]⟩
    · simp [hsc] at h

/-- A run that returns before the persistence step has made no call to the
Kubernetes client. -/
theorem syncHandler_of_no_copyAtPersistence (c : Controller Spec Status J K)
    (key nsName name : String) (w : World Spec Status J K) (pipeline : Pipeline Spec Status)
    (hkey : SplitMetaNamespaceKey key = .ok (nsName, name))
    (hlist : c.devOpsProjectLister nsName name = .ok pipeline)
    (h : copyAtPersistence c nsName pipeline w = none) :
    (callsMade w (syncHandler c key w).2).filter Call.isKube = [] := by
  unfold copyAtPersistence at h
  rcases hz : TimeIsZero pipeline.Meta.DeletionTimestamp with _ | _
  · rw [syncHandler_terminating c key nsName name w pipeline hkey hlist hz]
    simp only [hz, Bool.false_eq_true, if_false] at h
    rcases hfin : HasString pipeline.Meta.Finalizers PipelineFinalizerName with _ | _
    · simp [hfin] at h
    · simp only [hfin, if_true] at h
      have h : (if (match (c.devopsClient.DeleteProjectPipeline w.jenkins nsName
            pipeline.Meta.Name).1 with
          | .error err => deleteErrorMeansGone err
          | .ok _ => true) = true
          then some (strippedCopy pipeline, afterDeleteJob c nsName pipeline w)
          else none) = none := h
      rcases hdel : (match (c.devopsClient.DeleteProjectPipeline w.jenkins nsName
            pipeline.Meta.Name).1 with
          | .error err => deleteErrorMeansGone err
          | .ok _ => true) with _ | _
      · rw [syncTerminating_delete_failed c name nsName w pipeline hfin hdel,
          callsMade_of_append w (afterDeleteJob c nsName pipeline w)
            [Call.DeleteProjectPipeline nsName pipeline.Meta.Name] rfl]
        simp [Call.isKube]
      · rw [hdel] at h
        simp at h
  · rw [syncHandler_active c key nsName name w pipeline hkey hlist hz]
    simp only [hz, if_true] at h
    rcases hsc : shortCircuited c pipeline with _ | _
    · simp only [hsc, Bool.false_eq_true, if_false] at h
      rw [syncActive_eq c name nsName w pipeline hsc]
      rcases hg : (c.devopsClient.GetProjectPipelineConfig w.jenkins nsName
          pipeline.Meta.Name).1 with err | job
      · rw [hg] at h
        simp only [] at h ⊢
        rcases hc : (c.devopsClient.CreateProjectPipeline
            (afterGetConfig c nsName pipeline w).jenkins nsName (adapterCopy c pipeline)).1
          with err2 | r
        · simp only []
          rw [callsMade_of_append w _ _ (afterCreateJob_calls c nsName pipeline w)]
          simp [Call.isKube]
        · rw [hc] at h
          simp at h
      · rw [hg] at h
        simp only [] at h ⊢
        by_cases hs : job.Spec = pipeline.Spec
        · simp [hs] at h
        · simp only [hs, ne_eq, not_false_eq_true, if_true] at h ⊢
          rcases hu : (c.devopsClient.UpdateProjectPipeline
              (afterGetConfig c nsName pipeline w).jenkins nsName (adapterCopy c pipeline)).1
            with err2 | r
          · simp only []
            rw [callsMade_of_append w _ _ (afterUpdateJob_calls c nsName pipeline w)]
            simp [Call.isKube]
          · rw [hu] at h
            simp at h
    · rw [syncActive_shortCircuited c name nsName w pipeline hsc]
      simp [callsMade_self]

end Branches

/-! ## The claims on `syncHandler` -/

section Claims

variable {Spec Status J K : Type} [DecidableEq Spec] [DecidableEq Status]

/-- C1: for a Pipeline with no deletion timestamp whose sync-status annotation
equals successful and whose spec-hash annotation equals `ComputeHash` of its
spec, `syncHandler` returns nil and has made no call at all: no call to the
Jenkins adapter, no Get or Update on the Kubernetes client; the world is left
as it was. -/
theorem syncHandler_synced_is_noop (c : Controller Spec Status J K)
    (key nsName name : String) (w : World Spec Status J K) (pipeline : Pipeline Spec Status)
    (hkey : SplitMetaNamespaceKey key = .ok (nsName, name))
    (hlist : c.devOpsProjectLister nsName name = .ok pipeline)
    (hzero : TimeIsZero pipeline.Meta.DeletionTimestamp = true)
    (hsync : mapGet? pipeline.Meta.Annotations PipelineSyncStatusAnnoKey
      = some StatusSuccessful)
    (hhash : mapGet? pipeline.Meta.Annotations PipelineSpecHash
      = some (c.ComputeHash pipeline.Spec)) :
    (syncHandler c key w).1 = .returned none ∧
    (callsMade w (syncHandler c key w).2).filter Call.isAdapter = [] ∧
    (callsMade w (syncHandler c key w).2).filter Call.isKube = [] ∧
    (syncHandler c key w).2 = w := by
  have hsc : shortCircuited c pipeline = true := by
    simp [shortCircuited, hsync, mapIndex, hhash]
  rw [syncHandler_active c key nsName name w pipeline hkey hlist hzero,
    syncActive_shortCircuited c name nsName w pipeline hsc]
  simp [callsMade_self]

/-- Witness of C1: the synced example Pipeline `ns/foo`. -/
theorem syncHandler_synced_is_noop_witness :
    (syncHandler (exampleController (some syncedPipeline)) "ns/foo"
      (exampleWorld (some syncedPipeline) (some syncedPipeline))).1 = .returned none ∧
    (callsMade (exampleWorld (some syncedPipeline) (some syncedPipeline))
      (syncHandler (exampleController (some syncedPipeline)) "ns/foo"
        (exampleWorld (some syncedPipeline) (some syncedPipeline))).2).filter Call.isAdapter
      = [] ∧
    (callsMade (exampleWorld (some syncedPipeline) (some syncedPipeline))
      (syncHandler (exampleController (some syncedPipeline)) "ns/foo"
        (exampleWorld (some syncedPipeline) (some syncedPipeline))).2).filter Call.isKube
      = [] ∧
    (syncHandler (exampleController (some syncedPipeline)) "ns/foo"
      (exampleWorld (some syncedPipeline) (some syncedPipeline))).2
      = exampleWorld (some syncedPipeline) (some syncedPipeline) :=
  syncHandler_synced_is_noop (exampleController (some syncedPipeline)) "ns/foo" "ns" "foo"
    (exampleWorld (some syncedPipeline) (some syncedPipeline)) syncedPipeline
    rfl rfl rfl rfl rfl

/-- C3: for a terminating Pipeline that carries the finalizer, when
`DeleteProjectPipeline` fails with an error that is neither a
`restful.ServiceError` nor an `*ErrorResponse` of status 404 (an error of an
unrecognised type included), `syncHandler` returns an error that is not nil,
the only call it makes is that deletion (no Get, no Update on the Kubernetes
client), and the API server, hence the finalizer list it holds, is left as it
was. -/
theorem syncHandler_delete_failure_keeps_finalizer (c : Controller Spec Status J K)
    (key nsName name : String) (w : World Spec Status J K) (pipeline : Pipeline Spec Status)
    (err : GoError)
    (hkey : SplitMetaNamespaceKey key = .ok (nsName, name))
    (hlist : c.devOpsProjectLister nsName name = .ok pipeline)
    (hterm : TimeIsZero pipeline.Meta.DeletionTimestamp = false)
    (hfin : HasString pipeline.Meta.Finalizers PipelineFinalizerName = true)
    (hdel : (c.devopsClient.DeleteProjectPipeline w.jenkins nsName pipeline.Meta.Name).1
      = .error err)
    (hnot404 : ∀ msg, err ≠ .ServiceError 404 msg ∧ err ≠ .ErrorResponse 404 msg) :
    (∃ e, (syncHandler c key w).1 = .returned (some e)) ∧
    callsMade w (syncHandler c key w).2
      = [Call.DeleteProjectPipeline nsName pipeline.Meta.Name] ∧
    (callsMade w (syncHandler c key w).2).filter Call.isWrite = [] ∧
    (syncHandler c key w).2.kube = w.kube := by
  have hgone : deleteErrorMeansGone err = false := by
    cases err with
    | ServiceError code msg =>
      have h1 := (hnot404 msg).1
      simp only [deleteErrorMeansGone, StatusNotFound, beq_eq_false_iff_ne, ne_eq]
      intro hc
      exact h1 (by rw [hc])
    | ErrorResponse code msg =>
      have h1 := (hnot404 msg).2
      simp only [deleteErrorMeansGone, StatusNotFound, beq_eq_false_iff_ne, ne_eq]
      intro hc
      exact h1 (by rw [hc])
    | StatusError _ _ => rfl
    | errorString _ => rfl
  rw [syncHandler_terminating c key nsName name w pipeline hkey hlist hterm,
    syncTerminating_delete_failed c name nsName w pipeline hfin (by rw [hdel]; exact hgone)]
  refine ⟨⟨finalizerError, rfl⟩, ?_, ?_, rfl⟩
  · exact callsMade_of_append _ _ _ rfl
  · rw [callsMade_of_append w (afterDeleteJob c nsName pipeline w)
      [Call.DeleteProjectPipeline nsName pipeline.Meta.Name] rfl]
    rfl

/-- Witness of C3: Jenkins is unreachable (an error of an unrecognised type)
while the deleting example Pipeline is reconciled. -/
theorem syncHandler_delete_failure_keeps_finalizer_witness :
    (∃ e, (syncHandler
        { exampleController (some deletingPipeline) with
          devopsClient := failingDeleteAdapter (.errorString "connection refused") }
        "ns/foo" (exampleWorld none (some deletingPipeline))).1 = .returned (some e)) ∧
    callsMade (exampleWorld none (some deletingPipeline))
      (syncHandler
        { exampleController (some deletingPipeline) with
          devopsClient := failingDeleteAdapter (.errorString "connection refused") }
        "ns/foo" (exampleWorld none (some deletingPipeline))).2
      = [Call.DeleteProjectPipeline "ns" "foo"] ∧
    (callsMade (exampleWorld none (some deletingPipeline))
      (syncHandler
        { exampleController (some deletingPipeline) with
          devopsClient := failingDeleteAdapter (.errorString "connection refused") }
        "ns/foo" (exampleWorld none (some deletingPipeline))).2).filter Call.isWrite = [] ∧
    (syncHandler
        { exampleController (some deletingPipeline) with
          devopsClient := failingDeleteAdapter (.errorString "connection refused") }
        "ns/foo" (exampleWorld none (some deletingPipeline))).2.kube
      = some deletingPipeline :=
  syncHandler_delete_failure_keeps_finalizer
    { exampleController (some deletingPipeline) with
      devopsClient := failingDeleteAdapter (.errorString "connection refused") }
    "ns/foo" "ns" "foo" (exampleWorld none (some deletingPipeline)) deletingPipeline
    (.errorString "connection refused") rfl rfl rfl rfl rfl
    (fun _ => ⟨by simp, by simp⟩)

/-- Counterexample to C4: an active Pipeline without the finalizer whose sync
annotations short-circuit the run. The run returns nil at line 251, before the
finalizer is looked at: nothing is written and the API server still holds the
Pipeline without the finalizer. -/
theorem syncHandler_shortCircuit_skips_finalizer :
    TimeIsZero syncedPipelineWithoutFinalizer.Meta.DeletionTimestamp = true ∧
    HasString syncedPipelineWithoutFinalizer.Meta.Finalizers PipelineFinalizerName = false ∧
    (syncHandler (exampleController (some syncedPipelineWithoutFinalizer)) "ns/foo"
      (exampleWorld none (some syncedPipelineWithoutFinalizer))).1 = .returned none ∧
    (callsMade (exampleWorld none (some syncedPipelineWithoutFinalizer))
      (syncHandler (exampleController (some syncedPipelineWithoutFinalizer)) "ns/foo"
        (exampleWorld none (some syncedPipelineWithoutFinalizer))).2).filter Call.isWrite
      = [] ∧
    (syncHandler (exampleController (some syncedPipelineWithoutFinalizer)) "ns/foo"
      (exampleWorld none (some syncedPipelineWithoutFinalizer))).2.kube
      = some syncedPipelineWithoutFinalizer := by
  refine ⟨rfl, rfl, rfl, rfl, rfl⟩

/-- C4 as amended: for a Pipeline with no deletion timestamp, without the
finalizer and not short-circuited, a run whose job creation or update and
whose persistence calls succeed (the re-fetched Pipeline carrying an annotation
map) returns nil, and the object the API server then holds (the one object the
run wrote, or the re-fetched one when its owned fields agreed already) carries
the finalizer and has the spec and status of the re-fetched Pipeline. -/
theorem syncHandler_adds_finalizer (c : Controller Spec Status J K)
    (key nsName name : String) (w : World Spec Status J K)
    (pipeline newPipeline : Pipeline Spec Status)
    (hkey : SplitMetaNamespaceKey key = .ok (nsName, name))
    (hlist : c.devOpsProjectLister nsName name = .ok pipeline)
    (hzero : TimeIsZero pipeline.Meta.DeletionTimestamp = true)
    (_hfin : HasString pipeline.Meta.Finalizers PipelineFinalizerName = false)
    (hrun : shortCircuited c pipeline = false)
    (hcreate : ∀ j q, ∃ r, (c.devopsClient.CreateProjectPipeline j nsName q).1 = .ok r)
    (hupdate : ∀ j q, ∃ r, (c.devopsClient.UpdateProjectPipeline j nsName q).1 = .ok r)
    (hget : (c.kubesphereClient.Get w.kube nsName name).1 = .ok newPipeline)
    (hann : newPipeline.Meta.Annotations ≠ none)
    (hupd : ∀ k obj, ∃ r, (c.kubesphereClient.Update k nsName obj).1 = .ok r) :
    (syncHandler c key w).1 = .returned none ∧
    ∃ persisted,
      ((callsMade w (syncHandler c key w).2).filter Call.isKube
          = [Call.PipelinesGet nsName name, Call.PipelinesUpdate nsName persisted] ∨
       ((callsMade w (syncHandler c key w).2).filter Call.isKube
          = [Call.PipelinesGet nsName name] ∧ persisted = newPipeline)) ∧
      HasString persisted.Meta.Finalizers PipelineFinalizerName = true ∧
      persisted.Spec = newPipeline.Spec ∧ persisted.Status = newPipeline.Status := by
  rw [syncHandler_active c key nsName name w pipeline hkey hlist hzero]
  obtain ⟨hnil, persisted, hcalls, _, _, hf, hs, hst⟩ :=
    syncActive_persisted c name nsName w pipeline newPipeline hrun hcreate hupdate hget hann hupd
  refine ⟨hnil, persisted, hcalls, ?_, hs, hst⟩
  rw [hf]
  exact finalCopy_hasFinalizer c pipeline

/-- Witness of C4 as amended: the first reconciliation of the fresh example
Pipeline. -/
theorem syncHandler_adds_finalizer_witness :
    firstReconcileRun.1 = .returned none ∧
    ∃ persisted,
      ((callsMade (exampleWorld none (some freshPipeline)) firstReconcileRun.2).filter
          Call.isKube
          = [Call.PipelinesGet "ns" "foo", Call.PipelinesUpdate "ns" persisted] ∨
       ((callsMade (exampleWorld none (some freshPipeline)) firstReconcileRun.2).filter
          Call.isKube
          = [Call.PipelinesGet "ns" "foo"] ∧ persisted = freshPipeline)) ∧
      HasString persisted.Meta.Finalizers PipelineFinalizerName = true ∧
      persisted.Spec = "A" ∧ persisted.Status = () :=
  syncHandler_adds_finalizer (exampleController (some freshPipeline)) "ns/foo" "ns" "foo"
    (exampleWorld none (some freshPipeline)) freshPipeline freshPipeline
    rfl rfl rfl rfl rfl (fun _ q => ⟨q.Meta.Name, rfl⟩) (fun _ q => ⟨q.Meta.Name, rfl⟩)
    rfl (by simp [freshPipeline, examplePipeline]) (fun _ obj => ⟨obj, rfl⟩)

/-- Counterexample to C5: the first reconciliation of a newly created
Pipeline. Job creation and the write succeed, the run is not short-circuited
and returns nil, yet the one object it writes records the empty string as spec
hash, not `ComputeHash` of the spec. -/
theorem first_reconcile_records_no_hash :
    shortCircuited (exampleController (some freshPipeline)) freshPipeline = false ∧
    firstReconcileRun.1 = .returned none ∧
    callsMade (exampleWorld none (some freshPipeline)) firstReconcileRun.2
      = [Call.GetProjectPipelineConfig "ns" "foo",
         Call.CreateProjectPipeline "ns"
           (examplePipeline "A" none (some []) (some [PipelineFinalizerName])),
         Call.PipelinesGet "ns" "foo",
         Call.PipelinesUpdate "ns" firstReconcileWritten] ∧
    mapGet? firstReconcileWritten.Meta.Annotations PipelineSyncStatusAnnoKey
      = some StatusSuccessful ∧
    mapGet? firstReconcileWritten.Meta.Annotations PipelineSpecHash = some "" ∧
    mapGet? firstReconcileWritten.Meta.Annotations PipelineSpecHash
      ≠ some ((exampleController (some freshPipeline)).ComputeHash
          firstReconcileWritten.Spec) := by
  refine ⟨rfl, rfl, rfl, rfl, rfl, by decide⟩

/-- C5 as amended: for a Pipeline with no deletion timestamp that is not
short-circuited, a run whose job creation or update and whose persistence calls
succeed (the re-fetched Pipeline carrying an annotation map) returns nil, and
the object the API server then holds (the one object the run wrote, or the
re-fetched one when its owned fields agreed already) has sync-status
successful; its spec hash reads `ComputeHash` of the spec when the observed
sync-status was successful already, and otherwise reads as the observed
Pipeline's spec hash (empty when it had none). -/
theorem syncHandler_success_records_status (c : Controller Spec Status J K)
    (key nsName name : String) (w : World Spec Status J K)
    (pipeline newPipeline : Pipeline Spec Status)
    (hkey : SplitMetaNamespaceKey key = .ok (nsName, name))
    (hlist : c.devOpsProjectLister nsName name = .ok pipeline)
    (hzero : TimeIsZero pipeline.Meta.DeletionTimestamp = true)
    (hrun : shortCircuited c pipeline = false)
    (hcreate : ∀ j q, ∃ r, (c.devopsClient.CreateProjectPipeline j nsName q).1 = .ok r)
    (hupdate : ∀ j q, ∃ r, (c.devopsClient.UpdateProjectPipeline j nsName q).1 = .ok r)
    (hget : (c.kubesphereClient.Get w.kube nsName name).1 = .ok newPipeline)
    (hann : newPipeline.Meta.Annotations ≠ none)
    (hupd : ∀ k obj, ∃ r, (c.kubesphereClient.Update k nsName obj).1 = .ok r) :
    (syncHandler c key w).1 = .returned none ∧
    ∃ persisted,
      ((callsMade w (syncHandler c key w).2).filter Call.isKube
          = [Call.PipelinesGet nsName name, Call.PipelinesUpdate nsName persisted] ∨
       ((callsMade w (syncHandler c key w).2).filter Call.isKube
          = [Call.PipelinesGet nsName name] ∧ persisted = newPipeline)) ∧
      mapGet? persisted.Meta.Annotations PipelineSyncStatusAnnoKey = some StatusSuccessful ∧
      mapIndex persisted.Meta.Annotations PipelineSpecHash
        = (if mapGet? pipeline.Meta.Annotations PipelineSyncStatusAnnoKey
              = some StatusSuccessful
           then c.ComputeHash pipeline.Spec
           else mapIndex pipeline.Meta.Annotations PipelineSpecHash) := by
  rw [syncHandler_active c key nsName name w pipeline hkey hlist hzero]
  obtain ⟨hnil, persisted, hcalls, hs, hh, _, _, _⟩ :=
    syncActive_persisted c name nsName w pipeline newPipeline hrun hcreate hupdate hget hann hupd
  refine ⟨hnil, persisted, hcalls, ?_, ?_⟩
  · rw [finalCopy_sync] at hs
    exact mapGet?_of_mapIndex _ _ _ hs (by decide)
  · rw [hh, finalCopy_hash]

/-- Witness of C5 as amended: the tests' update scenario, in which Jenkins
holds a job with another spec. -/
theorem syncHandler_success_records_status_witness :
    updateConfigRun.1 = .returned none ∧
    ∃ persisted,
      ((callsMade (exampleWorld (some staleJob) (some modifiedPipeline))
          updateConfigRun.2).filter Call.isKube
          = [Call.PipelinesGet "ns" "foo", Call.PipelinesUpdate "ns" persisted] ∨
       ((callsMade (exampleWorld (some staleJob) (some modifiedPipeline))
          updateConfigRun.2).filter Call.isKube
          = [Call.PipelinesGet "ns" "foo"] ∧ persisted = modifiedPipeline)) ∧
      mapGet? persisted.Meta.Annotations PipelineSyncStatusAnnoKey = some StatusSuccessful ∧
      mapIndex persisted.Meta.Annotations PipelineSpecHash = "" :=
  syncHandler_success_records_status (exampleController (some modifiedPipeline))
    "ns/foo" "ns" "foo" (exampleWorld (some staleJob) (some modifiedPipeline))
    modifiedPipeline modifiedPipeline
    rfl rfl rfl rfl (fun _ q => ⟨q.Meta.Name, rfl⟩) (fun _ q => ⟨q.Meta.Name, rfl⟩)
    rfl (by simp [modifiedPipeline, examplePipeline]) (fun _ obj => ⟨obj, rfl⟩)

/-- Counterexample to C6: a freshly created Pipeline with spec `A` is
reconciled against a working adapter and the result persisted; the second run,
with no change in between, issues an Update of the Pipeline and the persisted
state differs from the state the first run left: the spec hash goes from the
empty string to the hash of the spec. -/
theorem roundTrip_second_run_writes :
    roundTripFirst.1 = .returned none ∧
    roundTripFirst.2.kube = some firstReconcileWritten ∧
    roundTripSecond.1 = .returned none ∧
    (callsMade roundTripFirst.2 roundTripSecond.2).filter Call.isWrite
      = [Call.PipelinesUpdate "ns"
          (examplePipeline "A" none
            (some [(PipelineSpecHash, "h:A"), (PipelineSyncStatusAnnoKey, StatusSuccessful)])
            (some [PipelineFinalizerName]))] ∧
    roundTripSecond.2.kube ≠ roundTripFirst.2.kube := by
  refine ⟨rfl, rfl, rfl, rfl, by decide⟩

/-- C6 as amended: a freshly created Pipeline (an annotation map without sync
annotations, no finalizer) whose spec has a non-empty hash is reconciled
against a working adapter, each run reading what the run before persisted. The
first run persists sync-status successful with an empty spec hash; the second
run, with no change in between, performs exactly one persistence write, which
records the hash of the spec; a third run makes no call at all and leaves the
world, hence the persisted state, identical. -/
theorem roundTrip_settles_after_second_run (d : DevOpsInterface Spec Status J)
    (hash : Spec → String) (key nsName name : String)
    (w0 : World Spec Status J (Option (Pipeline Spec Status)))
    (fresh : Pipeline Spec Status) (annotations : StringMap)
    (hkey : SplitMetaNamespaceKey key = .ok (nsName, name))
    (hstore : w0.kube = some fresh)
    (hzero : TimeIsZero fresh.Meta.DeletionTimestamp = true)
    (hann : fresh.Meta.Annotations = some annotations)
    (hnosync : annotations.lookup PipelineSyncStatusAnnoKey = none)
    (hnohash : annotations.lookup PipelineSpecHash = none)
    (_hnofin : HasString fresh.Meta.Finalizers PipelineFinalizerName = false)
    (hcreate : ∀ j ns q, ∃ r, (d.CreateProjectPipeline j ns q).1 = .ok r)
    (hupdate : ∀ j ns q, ∃ r, (d.UpdateProjectPipeline j ns q).1 = .ok r)
    (hhash : hash fresh.Spec ≠ "") :
    (reconcileInStep d hash key w0).1 = .returned none ∧
    (∃ first, (reconcileInStep d hash key w0).2.kube = some first ∧
      mapGet? first.Meta.Annotations PipelineSyncStatusAnnoKey = some StatusSuccessful ∧
      mapGet? first.Meta.Annotations PipelineSpecHash = some "") ∧
    (reconcileInStep d hash key (reconcileInStep d hash key w0).2).1 = .returned none ∧
    (∃ second,
      (callsMade (reconcileInStep d hash key w0).2
        (reconcileInStep d hash key (reconcileInStep d hash key w0).2).2).filter Call.isWrite
        = [Call.PipelinesUpdate nsName second] ∧
      (reconcileInStep d hash key (reconcileInStep d hash key w0).2).2.kube = some second ∧
      mapGet? second.Meta.Annotations PipelineSyncStatusAnnoKey = some StatusSuccessful ∧
      mapGet? second.Meta.Annotations PipelineSpecHash = some (hash fresh.Spec)) ∧
    reconcileInStep d hash key
        (reconcileInStep d hash key (reconcileInStep d hash key w0).2).2
      = (.returned none, (reconcileInStep d hash key (reconcileInStep d hash key w0).2).2) := by
  have hsync0 : mapGet? fresh.Meta.Annotations PipelineSyncStatusAnnoKey = none := by
    simp [mapGet?, hann, hnosync]
  have hrun1 : shortCircuited (inStepController d hash w0.kube) fresh = false := by
    simp [shortCircuited, hsync0]
  obtain ⟨first, l1, hm1, hnil1, hk1, _, _⟩ := reconcileInStep_active d hash key nsName name
    w0 fresh hkey hstore hzero (by simp [hann]) hrun1 hcreate hupdate
  obtain ⟨hd1, hs1, ha1, hsy1, hh1⟩ :=
    mergeOwnedFields_finalCopy (inStepController d hash w0.kube) fresh fresh first hm1
  rw [hsync0] at hh1
  have hh1' : mapGet? first.Meta.Annotations PipelineSpecHash = some "" := by
    rw [hh1]
    simp [mapIndex, mapGet?, hann, hnohash]
  have hrun2 : shortCircuited
      (inStepController d hash (reconcileInStep d hash key w0).2.kube) first = false := by
    simp only [shortCircuited, hsy1, mapIndex, hh1', inStepController, hs1]
    simpa using hhash
  obtain ⟨second, l2, hm2, hnil2, hk2, hc2, hl2⟩ := reconcileInStep_active d hash key nsName
    name (reconcileInStep d hash key w0).2 first hkey hk1 (by rw [hd1]; exact hzero) ha1 hrun2
    hcreate hupdate
  obtain ⟨hd2, hs2, _, hsy2, hh2⟩ :=
    mergeOwnedFields_finalCopy (inStepController d hash (reconcileInStep d hash key w0).2.kube)
      first first second hm2
  rw [if_pos hsy1] at hh2
  have hh2' : mapGet? second.Meta.Annotations PipelineSpecHash = some (hash fresh.Spec) := by
    rw [hh2, hs1]
    rfl
  refine ⟨hnil1, ⟨first, hk1, hsy1, hh1'⟩, hnil2, ⟨second, ?_, hk2, hsy2, hh2'⟩, ?_⟩
  · rw [callsMade_of_append _ _ _ hc2, List.filter_append, hl2]
    simp [Call.isWrite]
  · have hlist : (inStepController d hash
          (reconcileInStep d hash key (reconcileInStep d hash key w0).2).2.kube).devOpsProjectLister
          nsName name = .ok second := by
      simp [inStepController, hk2]
    have hsc : shortCircuited (inStepController d hash
        (reconcileInStep d hash key (reconcileInStep d hash key w0).2).2.kube) second = true := by
      simp [shortCircuited, hsy2, mapIndex, hh2', inStepController, hs2, hs1]
    have hz : TimeIsZero second.Meta.DeletionTimestamp = true := by
      rw [hd2, hd1]
      exact hzero
    have h3 : reconcileInStep d hash key
        (reconcileInStep d hash key (reconcileInStep d hash key w0).2).2
        = syncHandler (inStepController d hash
            (reconcileInStep d hash key (reconcileInStep d hash key w0).2).2.kube) key
            (reconcileInStep d hash key (reconcileInStep d hash key w0).2).2 := rfl
    rw [h3, syncHandler_active _ key nsName name _ second hkey hlist hz,
      syncActive_shortCircuited _ name nsName _ second hsc]

/-- Witness of C6 as amended: the fresh example Pipeline with spec `A`, whose
hash is `h:A`. -/
theorem roundTrip_settles_after_second_run_witness :
    roundTripFirst.1 = .returned none ∧
    (∃ first, roundTripFirst.2.kube = some first ∧
      mapGet? first.Meta.Annotations PipelineSyncStatusAnnoKey = some StatusSuccessful ∧
      mapGet? first.Meta.Annotations PipelineSpecHash = some "") ∧
    roundTripSecond.1 = .returned none ∧
    (∃ second,
      (callsMade roundTripFirst.2 roundTripSecond.2).filter Call.isWrite
        = [Call.PipelinesUpdate "ns" second] ∧
      roundTripSecond.2.kube = some second ∧
      mapGet? second.Meta.Annotations PipelineSyncStatusAnnoKey = some StatusSuccessful ∧
      mapGet? second.Meta.Annotations PipelineSpecHash = some "h:A") ∧
    reconcileInStep singleJobAdapter (fun spec => "h:" ++ spec) "ns/foo" roundTripSecond.2
      = (.returned none, roundTripSecond.2) :=
  roundTrip_settles_after_second_run singleJobAdapter (fun spec => "h:" ++ spec)
    "ns/foo" "ns" "foo" (exampleWorld none (some freshPipeline)) freshPipeline []
    rfl rfl rfl rfl rfl rfl rfl (fun _ _ q => ⟨q.Meta.Name, rfl⟩)
    (fun _ _ q => ⟨q.Meta.Name, rfl⟩) (by decide)

/-- Counterexample to C7: the tests' do-nothing scenario. The Pipeline carries
the finalizer, its sync-status reads successful and the Jenkins job has the
same spec, but no spec hash is recorded yet: the run issues an Update of the
Pipeline, which records the hash. -/
theorem doNothing_scenario_writes_hash :
    TimeIsZero doNothingPipeline.Meta.DeletionTimestamp = true ∧
    HasString doNothingPipeline.Meta.Finalizers PipelineFinalizerName = true ∧
    mapGet? doNothingPipeline.Meta.Annotations PipelineSyncStatusAnnoKey
      = some StatusSuccessful ∧
    (singleJobAdapter.GetProjectPipelineConfig (some doNothingPipeline) "ns" "foo").1
      = .ok doNothingPipeline ∧
    callsMade (exampleWorld (some doNothingPipeline) (some doNothingPipeline)) doNothingRun.2
      = [Call.GetProjectPipelineConfig "ns" "foo",
         Call.PipelinesGet "ns" "foo",
         Call.PipelinesUpdate "ns"
           (examplePipeline "" none
             (some [(PipelineSpecHash, "h:"), (PipelineSyncStatusAnnoKey, StatusSuccessful)])
             (some [PipelineFinalizerName]))] := by
  refine ⟨rfl, rfl, rfl, rfl, rfl⟩

/-- C7 as amended: for a Pipeline with no deletion timestamp that carries the
finalizer and the sync-status annotation successful, and whose Jenkins job has
the same spec, a run issues no create, update or delete of the Jenkins job
(its only adapter call, if any, is the lookup of the job); and when the
recorded spec hash is `ComputeHash` of the spec it does nothing at all: it
returns nil and leaves the world as it was, with no Update of the Pipeline. -/
theorem syncHandler_same_spec_leaves_job (c : Controller Spec Status J K)
    (key nsName name : String) (w : World Spec Status J K)
    (pipeline jenkinsPipeline : Pipeline Spec Status)
    (hkey : SplitMetaNamespaceKey key = .ok (nsName, name))
    (hlist : c.devOpsProjectLister nsName name = .ok pipeline)
    (hzero : TimeIsZero pipeline.Meta.DeletionTimestamp = true)
    (_hfin : HasString pipeline.Meta.Finalizers PipelineFinalizerName = true)
    (hsync : mapGet? pipeline.Meta.Annotations PipelineSyncStatusAnnoKey
      = some StatusSuccessful)
    (hjob : (c.devopsClient.GetProjectPipelineConfig w.jenkins nsName
      pipeline.Meta.Name).1 = .ok jenkinsPipeline)
    (hsame : jenkinsPipeline.Spec = pipeline.Spec) :
    (callsMade w (syncHandler c key w).2).filter Call.isAdapter
      = (if shortCircuited c pipeline = true then []
         else [Call.GetProjectPipelineConfig nsName pipeline.Meta.Name]) ∧
    (mapGet? pipeline.Meta.Annotations PipelineSpecHash = some (c.ComputeHash pipeline.Spec) →
      syncHandler c key w = (.returned none, w)) := by
  rw [syncHandler_active c key nsName name w pipeline hkey hlist hzero]
  refine ⟨?_, ?_⟩
  · rcases hsc : shortCircuited c pipeline with _ | _
    · rw [syncActive_adapter_calls c name nsName w pipeline hsc, hjob]
      simp [hsame]
    · rw [syncActive_shortCircuited c name nsName w pipeline hsc]
      simp [callsMade_self]
  · intro hhash
    apply syncActive_shortCircuited
    simp [shortCircuited, hsync, mapIndex, hhash]

/-- Witness of C7 as amended: the synced example Pipeline while Jenkins holds a
job with the same spec. -/
theorem syncHandler_same_spec_leaves_job_witness :
    (callsMade (exampleWorld (some syncedPipeline) (some syncedPipeline))
      (syncHandler (exampleController (some syncedPipeline)) "ns/foo"
        (exampleWorld (some syncedPipeline) (some syncedPipeline))).2).filter Call.isAdapter
      = [] ∧
    syncHandler (exampleController (some syncedPipeline)) "ns/foo"
        (exampleWorld (some syncedPipeline) (some syncedPipeline))
      = (.returned none, exampleWorld (some syncedPipeline) (some syncedPipeline)) :=
  ⟨(syncHandler_same_spec_leaves_job (exampleController (some syncedPipeline))
      "ns/foo" "ns" "foo" (exampleWorld (some syncedPipeline) (some syncedPipeline))
      syncedPipeline syncedPipeline rfl rfl rfl rfl rfl rfl rfl).1,
   (syncHandler_same_spec_leaves_job (exampleController (some syncedPipeline))
      "ns/foo" "ns" "foo" (exampleWorld (some syncedPipeline) (some syncedPipeline))
      syncedPipeline syncedPipeline rfl rfl rfl rfl rfl rfl rfl).2 rfl⟩

/-- C8: for a Pipeline with no deletion timestamp that is not short-circuited,
when `GetProjectPipelineConfig` reports the Jenkins job absent (it returns an
error), the adapter calls of the run are that lookup followed by exactly one
`CreateProjectPipeline` for the namespace, with the local copy, whose spec is
the Pipeline's spec; `UpdateProjectPipeline` and `DeleteProjectPipeline` are
never called. -/
theorem syncHandler_creates_absent_job (c : Controller Spec Status J K)
    (key nsName name : String) (w : World Spec Status J K) (pipeline : Pipeline Spec Status)
    (err : GoError)
    (hkey : SplitMetaNamespaceKey key = .ok (nsName, name))
    (hlist : c.devOpsProjectLister nsName name = .ok pipeline)
    (hzero : TimeIsZero pipeline.Meta.DeletionTimestamp = true)
    (hrun : shortCircuited c pipeline = false)
    (habsent : (c.devopsClient.GetProjectPipelineConfig w.jenkins nsName
      pipeline.Meta.Name).1 = .error err) :
    (callsMade w (syncHandler c key w).2).filter Call.isAdapter
      = [Call.GetProjectPipelineConfig nsName pipeline.Meta.Name,
         Call.CreateProjectPipeline nsName (adapterCopy c pipeline)] ∧
    (adapterCopy c pipeline).Spec = pipeline.Spec := by
  rw [syncHandler_active c key nsName name w pipeline hkey hlist hzero,
    syncActive_adapter_calls c name nsName w pipeline hrun, habsent]
  exact ⟨rfl, rfl⟩

/-- Witness of C8: the fresh example Pipeline while Jenkins has no job. -/
theorem syncHandler_creates_absent_job_witness :
    (callsMade (exampleWorld none (some freshPipeline))
      (syncHandler (exampleController (some freshPipeline)) "ns/foo"
        (exampleWorld none (some freshPipeline))).2).filter Call.isAdapter
      = [Call.GetProjectPipelineConfig "ns" "foo",
         Call.CreateProjectPipeline "ns"
           (adapterCopy (exampleController (some freshPipeline)) freshPipeline)] ∧
    (adapterCopy (exampleController (some freshPipeline)) freshPipeline).Spec = "A" :=
  syncHandler_creates_absent_job (exampleController (some freshPipeline)) "ns/foo" "ns" "foo"
    (exampleWorld none (some freshPipeline)) freshPipeline
    (.ServiceError 404 "job not found") rfl rfl rfl rfl rfl

/-- Counterexample to C9: the tests' update scenario. The Jenkins job exists
with another spec, `UpdateProjectPipeline` and the write succeed, the run
returns nil, yet the object it writes records the empty string as spec hash,
not the hash of the new spec. -/
theorem update_scenario_records_no_hash :
    shortCircuited (exampleController (some modifiedPipeline)) modifiedPipeline = false ∧
    updateConfigRun.1 = .returned none ∧
    callsMade (exampleWorld (some staleJob) (some modifiedPipeline)) updateConfigRun.2
      = [Call.GetProjectPipelineConfig "ns" "foo",
         Call.UpdateProjectPipeline "ns" modifiedPipeline,
         Call.PipelinesGet "ns" "foo",
         Call.PipelinesUpdate "ns"
           (examplePipeline "aa" none
             (some [(PipelineSpecHash, ""), (PipelineSyncStatusAnnoKey, StatusSuccessful)])
             (some [PipelineFinalizerName]))] ∧
    (exampleController (some modifiedPipeline)).ComputeHash modifiedPipeline.Spec ≠ "" := by
  refine ⟨rfl, rfl, rfl, by decide⟩

/-- C9 as amended: for a Pipeline with no deletion timestamp that is not
short-circuited and whose Jenkins job exists, the adapter calls of a run are
the lookup followed by `UpdateProjectPipeline` exactly when the job's spec
differs from the Pipeline's spec, and the lookup alone when the specs are equal
(no create, no update). Every object the run writes has sync-status
successful, and its recorded spec hash is `ComputeHash` of the spec when the
observed sync-status was successful already, and the observed Pipeline's spec
hash (empty when it had none) otherwise. When the job update and the
persistence calls succeed the run returns nil and an object with these two
annotations is persisted: the calls on the Kubernetes client are the re-fetch
and one write of that object, or the re-fetch alone when the re-fetched
Pipeline is that object already. -/
theorem syncHandler_updates_changed_job (c : Controller Spec Status J K)
    (key nsName name : String) (w : World Spec Status J K)
    (pipeline jenkinsPipeline : Pipeline Spec Status)
    (hkey : SplitMetaNamespaceKey key = .ok (nsName, name))
    (hlist : c.devOpsProjectLister nsName name = .ok pipeline)
    (hzero : TimeIsZero pipeline.Meta.DeletionTimestamp = true)
    (hrun : shortCircuited c pipeline = false)
    (hjob : (c.devopsClient.GetProjectPipelineConfig w.jenkins nsName
      pipeline.Meta.Name).1 = .ok jenkinsPipeline) :
    (callsMade w (syncHandler c key w).2).filter Call.isAdapter
      = (if jenkinsPipeline.Spec ≠ pipeline.Spec
         then [Call.GetProjectPipelineConfig nsName pipeline.Meta.Name,
               Call.UpdateProjectPipeline nsName (adapterCopy c pipeline)]
         else [Call.GetProjectPipelineConfig nsName pipeline.Meta.Name]) ∧
    (adapterCopy c pipeline).Spec = pipeline.Spec ∧
    (∀ ns obj, Call.PipelinesUpdate ns obj ∈ callsMade w (syncHandler c key w).2 →
      mapGet? obj.Meta.Annotations PipelineSyncStatusAnnoKey = some StatusSuccessful ∧
      mapGet? obj.Meta.Annotations PipelineSpecHash
        = some (if mapGet? pipeline.Meta.Annotations PipelineSyncStatusAnnoKey
              = some StatusSuccessful
           then c.ComputeHash pipeline.Spec
           else mapIndex pipeline.Meta.Annotations PipelineSpecHash)) ∧
    (∀ newPipeline,
      (∀ j q, ∃ r, (c.devopsClient.UpdateProjectPipeline j nsName q).1 = .ok r) →
      (c.kubesphereClient.Get w.kube nsName name).1 = .ok newPipeline →
      newPipeline.Meta.Annotations ≠ none →
      (∀ k obj, ∃ r, (c.kubesphereClient.Update k nsName obj).1 = .ok r) →
      (syncHandler c key w).1 = .returned none ∧
      ∃ persisted,
        ((callsMade w (syncHandler c key w).2).filter Call.isKube
            = [Call.PipelinesGet nsName name, Call.PipelinesUpdate nsName persisted] ∨
         ((callsMade w (syncHandler c key w).2).filter Call.isKube
            = [Call.PipelinesGet nsName name] ∧ persisted = newPipeline)) ∧
        mapIndex persisted.Meta.Annotations PipelineSyncStatusAnnoKey = StatusSuccessful ∧
        mapIndex persisted.Meta.Annotations PipelineSpecHash
          = (if mapGet? pipeline.Meta.Annotations PipelineSyncStatusAnnoKey
                = some StatusSuccessful
             then c.ComputeHash pipeline.Spec
             else mapIndex pipeline.Meta.Annotations PipelineSpecHash) ∧
        persisted.Spec = newPipeline.Spec) := by
  rw [syncHandler_active c key nsName name w pipeline hkey hlist hzero]
  refine ⟨?_, rfl, ?_, ?_⟩
  · rw [syncActive_adapter_calls c name nsName w pipeline hrun, hjob]
  · intro ns obj hmem
    obtain ⟨k, np, _, hm⟩ := syncActive_writes c name nsName w pipeline hrun ns obj hmem
    obtain ⟨h1, h2⟩ := mergeOwnedFields_annotations np (finalCopy c pipeline) obj
      (finalCopy_annotations c pipeline) hm
    rw [finalCopy_sync] at h1
    rw [finalCopy_hash] at h2
    exact ⟨h1, h2⟩
  · intro newPipeline hupdate hget hann hupd
    obtain ⟨hnil, hcalls⟩ := syncActive_persisted_of_job c name nsName w pipeline
      jenkinsPipeline newPipeline hrun hjob hupdate hget hann hupd
    refine ⟨hnil, ?_⟩
    rcases hcalls with ⟨ha, hl⟩ | ⟨_, written, hm, hl⟩
    · obtain ⟨h1, h2, _⟩ := ownedFieldsAgree_finalizers newPipeline (finalCopy c pipeline) ha
      rw [finalCopy_sync] at h1
      rw [finalCopy_hash] at h2
      exact ⟨newPipeline, Or.inr ⟨hl, rfl⟩, h1, h2, rfl⟩
    · obtain ⟨h1, h2⟩ := mergeOwnedFields_annotations newPipeline (finalCopy c pipeline)
        written (finalCopy_annotations c pipeline) hm
      obtain ⟨_, h4, _⟩ := mergeOwnedFields_finalizers newPipeline (finalCopy c pipeline)
        written hm
      rw [finalCopy_sync] at h1
      rw [finalCopy_hash] at h2
      exact ⟨written, Or.inl hl, mapIndex_of_mapGet? _ _ _ h1, mapIndex_of_mapGet? _ _ _ h2,
        h4⟩

/-- Witness of C9 as amended: the tests' update scenario, in which Jenkins
holds a job with another spec. -/
theorem syncHandler_updates_changed_job_witness :
    (callsMade (exampleWorld (some staleJob) (some modifiedPipeline))
      updateConfigRun.2).filter Call.isAdapter
      = [Call.GetProjectPipelineConfig "ns" "foo",
         Call.UpdateProjectPipeline "ns"
           (adapterCopy (exampleController (some modifiedPipeline)) modifiedPipeline)] ∧
    updateConfigRun.1 = .returned none ∧
    ∃ persisted,
      ((callsMade (exampleWorld (some staleJob) (some modifiedPipeline))
          updateConfigRun.2).filter Call.isKube
          = [Call.PipelinesGet "ns" "foo", Call.PipelinesUpdate "ns" persisted] ∨
       ((callsMade (exampleWorld (some staleJob) (some modifiedPipeline))
          updateConfigRun.2).filter Call.isKube
          = [Call.PipelinesGet "ns" "foo"] ∧ persisted = modifiedPipeline)) ∧
      mapIndex persisted.Meta.Annotations PipelineSyncStatusAnnoKey = StatusSuccessful ∧
      mapIndex persisted.Meta.Annotations PipelineSpecHash = "" ∧
      persisted.Spec = "aa" :=
  ⟨(syncHandler_updates_changed_job (exampleController (some modifiedPipeline))
      "ns/foo" "ns" "foo" (exampleWorld (some staleJob) (some modifiedPipeline))
      modifiedPipeline staleJob rfl rfl rfl rfl rfl).1,
   (syncHandler_updates_changed_job (exampleController (some modifiedPipeline))
      "ns/foo" "ns" "foo" (exampleWorld (some staleJob) (some modifiedPipeline))
      modifiedPipeline staleJob rfl rfl rfl rfl rfl).2.2.2 modifiedPipeline
      (fun _ q => ⟨q.Meta.Name, rfl⟩) rfl (by simp [modifiedPipeline, examplePipeline])
      (fun _ obj => ⟨obj, rfl⟩)⟩

/-- Counterexample to C10: a terminating Pipeline that carries the finalizer
and an empty annotation map. In step with the API server, the run deletes the
job and writes an object on which the sync-status and the spec-hash
annotations are set, to the empty string, although the stored object had
neither; and read from a stale cache while the stored object has sync-status
successful, the run overwrites that value with the empty string. -/
theorem terminating_run_rewrites_annotations :
    TimeIsZero unsyncedDeletingPipeline.Meta.DeletionTimestamp = false ∧
    mapGet? unsyncedDeletingPipeline.Meta.Annotations PipelineSyncStatusAnnoKey = none ∧
    mapGet? unsyncedDeletingPipeline.Meta.Annotations PipelineSpecHash = none ∧
    unsyncedDeletingRun.1 = .returned none ∧
    callsMade (exampleWorld (some unsyncedDeletingPipeline) (some unsyncedDeletingPipeline))
        unsyncedDeletingRun.2
      = [Call.DeleteProjectPipeline "ns" "foo", Call.PipelinesGet "ns" "foo",
         Call.PipelinesUpdate "ns"
           (examplePipeline "A" (some 1700000000)
             (some [(PipelineSpecHash, ""), (PipelineSyncStatusAnnoKey, "")]) (some []))] ∧
    unsyncedDeletingRun.2.kube
      = some (examplePipeline "A" (some 1700000000)
          (some [(PipelineSpecHash, ""), (PipelineSyncStatusAnnoKey, "")]) (some [])) ∧
    mapGet? storedSyncedTerminating.Meta.Annotations PipelineSyncStatusAnnoKey
      = some StatusSuccessful ∧
    staleDeletingRun.1 = .returned none ∧
    staleDeletingRun.2.kube
      = some (examplePipeline "A" (some 1700000000)
          (some [(PipelineSpecHash, ""), (PipelineSyncStatusAnnoKey, "")]) (some [])) := by
  refine ⟨rfl, rfl, rfl, rfl, rfl, rfl, rfl, rfl, rfl⟩

/-- C10 as amended: for a Pipeline whose deletion timestamp is set, the adapter
calls of a `syncHandler` run are exactly one `DeleteProjectPipeline` when the
finalizer is present and none when it is absent (so never
`GetProjectPipelineConfig`, `CreateProjectPipeline` or
`UpdateProjectPipeline`); with the finalizer absent the run returns nil and
leaves the world as it was (no call, no write). Every object the run writes
has the sync-status and the spec-hash annotation set to what the observed
Pipeline reads for them (the empty string for an absent one) when the
observed Pipeline has an annotation map, and carries the annotation map of
the re-fetched Pipeline untouched when it has none. And when the deletion
counts as done and the re-fetch and the write succeed, the run returns nil
after the deletion, the re-fetch and, unless the re-fetched Pipeline agrees on
the owned fields already, one write of the re-fetched Pipeline with the owned
fields of the stripped copy merged in. -/
theorem syncHandler_terminating_only_cleanup (c : Controller Spec Status J K)
    (key nsName name : String) (w : World Spec Status J K) (pipeline : Pipeline Spec Status)
    (hkey : SplitMetaNamespaceKey key = .ok (nsName, name))
    (hlist : c.devOpsProjectLister nsName name = .ok pipeline)
    (hterm : TimeIsZero pipeline.Meta.DeletionTimestamp = false) :
    (callsMade w (syncHandler c key w).2).filter Call.isAdapter
      = (if HasString pipeline.Meta.Finalizers PipelineFinalizerName = true
         then [Call.DeleteProjectPipeline nsName pipeline.Meta.Name] else []) ∧
    (HasString pipeline.Meta.Finalizers PipelineFinalizerName = false →
      syncHandler c key w = (.returned none, w)) ∧
    (∀ ns obj, Call.PipelinesUpdate ns obj ∈ callsMade w (syncHandler c key w).2 →
      (pipeline.Meta.Annotations ≠ none ∧
        mapGet? obj.Meta.Annotations PipelineSyncStatusAnnoKey
          = some (mapIndex pipeline.Meta.Annotations PipelineSyncStatusAnnoKey) ∧
        mapGet? obj.Meta.Annotations PipelineSpecHash
          = some (mapIndex pipeline.Meta.Annotations PipelineSpecHash)) ∨
      (pipeline.Meta.Annotations = none ∧
        ∃ k newPipeline, (c.kubesphereClient.Get k nsName name).1 = .ok newPipeline ∧
          obj.Meta.Annotations = newPipeline.Meta.Annotations)) ∧
    (∀ newPipeline,
      HasString pipeline.Meta.Finalizers PipelineFinalizerName = true →
      (match (c.devopsClient.DeleteProjectPipeline w.jenkins nsName pipeline.Meta.Name).1 with
        | .error err => deleteErrorMeansGone err
        | .ok _ => true) = true →
      (c.kubesphereClient.Get w.kube nsName name).1 = .ok newPipeline →
      (pipeline.Meta.Annotations ≠ none → newPipeline.Meta.Annotations ≠ none) →
      (∀ k obj, ∃ r, (c.kubesphereClient.Update k nsName obj).1 = .ok r) →
      (syncHandler c key w).1 = .returned none ∧
      ((ownedFieldsAgree newPipeline (strippedCopy pipeline) = true ∧
          callsMade w (syncHandler c key w).2
            = [Call.DeleteProjectPipeline nsName pipeline.Meta.Name,
               Call.PipelinesGet nsName name]) ∨
       (ownedFieldsAgree newPipeline (strippedCopy pipeline) = false ∧
          ∃ written, mergeOwnedFields newPipeline (strippedCopy pipeline) = some written ∧
            callsMade w (syncHandler c key w).2
              = [Call.DeleteProjectPipeline nsName pipeline.Meta.Name,
                 Call.PipelinesGet nsName name, Call.PipelinesUpdate nsName written]))) := by
  rw [syncHandler_terminating c key nsName name w pipeline hkey hlist hterm]
  rcases hfin : HasString pipeline.Meta.Finalizers PipelineFinalizerName with _ | _
  · rw [syncTerminating_no_finalizer c name nsName w pipeline hfin]
    simp [callsMade_self]
  · have hdelcalls : (afterDeleteJob c nsName pipeline w).calls
        = w.calls ++ [Call.DeleteProjectPipeline nsName pipeline.Meta.Name] := rfl
    rcases hdel : (match (c.devopsClient.DeleteProjectPipeline w.jenkins nsName
          pipeline.Meta.Name).1 with
        | .error err => deleteErrorMeansGone err
        | .ok _ => true) with _ | _
    · rw [syncTerminating_delete_failed c name nsName w pipeline hfin hdel]
      rw [callsMade_of_append w (afterDeleteJob c nsName pipeline w) _ hdelcalls]
      refine ⟨by simp [Call.isAdapter], by simp, by simp, ?_⟩
      intro newPipeline _ h
      exact Bool.noConfusion (hdel.symm.trans h)
    · rw [syncTerminating_deleted c name nsName w pipeline hfin hdel]
      refine ⟨?_, ?_, ?_, ?_⟩
      · rw [updatePipeline_adapter_calls c name nsName (strippedCopy pipeline) w _ _ hdelcalls]
        simp [Call.isAdapter]
      · intro h
        cases h
      · intro ns obj hmem
        obtain ⟨k, np, hg, hm⟩ := updatePipeline_writes c name nsName (strippedCopy pipeline)
          w _ _ hdelcalls (by simp [Call.isWrite]) ns obj hmem
        rcases ha : pipeline.Meta.Annotations with _ | a
        · right
          exact ⟨rfl, k, np, hg,
            mergeOwnedFields_annotations_nil np (strippedCopy pipeline) obj ha hm⟩
        · left
          have hne : (strippedCopy pipeline).Meta.Annotations ≠ none := by
            simp [strippedCopy, ha]
          obtain ⟨h1, h2⟩ := mergeOwnedFields_annotations np (strippedCopy pipeline) obj hne hm
          refine ⟨by simp, ?_, ?_⟩
          · rw [← ha]
            exact h1
          · rw [← ha]
            exact h2
      · intro newPipeline _ _ hget hann hupd
        obtain ⟨hnil, hcalls⟩ := updatePipeline_ok c name nsName (strippedCopy pipeline)
          newPipeline (afterDeleteJob c nsName pipeline w) hget hann hupd
        refine ⟨hnil, ?_⟩
        rcases hcalls with ⟨hagree, hl⟩ | ⟨hagree, written, hm, hl⟩
        · left
          exact ⟨hagree, mem_callsMade_append w (afterDeleteJob c nsName pipeline w) _
            [Call.DeleteProjectPipeline nsName pipeline.Meta.Name] _ rfl hl⟩
        · right
          exact ⟨hagree, written, hm, mem_callsMade_append w
            (afterDeleteJob c nsName pipeline w) _
            [Call.DeleteProjectPipeline nsName pipeline.Meta.Name] _ rfl hl⟩

/-- Witness of C10 as amended: the tests' deleting Pipeline and the never
synced terminating Pipeline while Jenkins holds the job. One
`DeleteProjectPipeline` is the only adapter call, and the second run returns
nil after the re-fetch and one write of the merged object. -/
theorem syncHandler_terminating_only_cleanup_witness :
    (callsMade (exampleWorld (some deletingPipeline) (some deletingPipeline))
        deleteExistingJobRun.2).filter Call.isAdapter
      = [Call.DeleteProjectPipeline "ns" "foo"] ∧
    (callsMade (exampleWorld (some unsyncedDeletingPipeline) (some unsyncedDeletingPipeline))
        unsyncedDeletingRun.2).filter Call.isAdapter
      = [Call.DeleteProjectPipeline "ns" "foo"] ∧
    unsyncedDeletingRun.1 = .returned none ∧
    ((ownedFieldsAgree unsyncedDeletingPipeline (strippedCopy unsyncedDeletingPipeline) = true ∧
        callsMade (exampleWorld (some unsyncedDeletingPipeline)
            (some unsyncedDeletingPipeline)) unsyncedDeletingRun.2
          = [Call.DeleteProjectPipeline "ns" "foo", Call.PipelinesGet "ns" "foo"]) ∨
     (ownedFieldsAgree unsyncedDeletingPipeline (strippedCopy unsyncedDeletingPipeline)
          = false ∧
        ∃ written,
          mergeOwnedFields unsyncedDeletingPipeline (strippedCopy unsyncedDeletingPipeline)
            = some written ∧
          callsMade (exampleWorld (some unsyncedDeletingPipeline)
              (some unsyncedDeletingPipeline)) unsyncedDeletingRun.2
            = [Call.DeleteProjectPipeline "ns" "foo", Call.PipelinesGet "ns" "foo",
               Call.PipelinesUpdate "ns" written])) :=
  ⟨(syncHandler_terminating_only_cleanup (exampleController (some deletingPipeline))
      "ns/foo" "ns" "foo" (exampleWorld (some deletingPipeline) (some deletingPipeline))
      deletingPipeline rfl rfl rfl).1,
   (syncHandler_terminating_only_cleanup (exampleController (some unsyncedDeletingPipeline))
      "ns/foo" "ns" "foo"
      (exampleWorld (some unsyncedDeletingPipeline) (some unsyncedDeletingPipeline))
      unsyncedDeletingPipeline rfl rfl rfl).1,
   (syncHandler_terminating_only_cleanup (exampleController (some unsyncedDeletingPipeline))
      "ns/foo" "ns" "foo"
      (exampleWorld (some unsyncedDeletingPipeline) (some unsyncedDeletingPipeline))
      unsyncedDeletingPipeline rfl rfl rfl).2.2.2 unsyncedDeletingPipeline rfl rfl rfl
      (fun _ => by simp [unsyncedDeletingPipeline, examplePipeline])
      (fun _ obj => ⟨obj, rfl⟩)⟩

/-- C12: when the lister lookup of the keyed Pipeline fails with a not-found
error, `syncHandler` returns nil and leaves the world as it was (no adapter
call, no persistence call); when it fails with any other error, `syncHandler`
returns that error, again without any call. -/
theorem syncHandler_lister_error (c : Controller Spec Status J K)
    (key nsName name : String) (w : World Spec Status J K) (err : GoError)
    (hkey : SplitMetaNamespaceKey key = .ok (nsName, name))
    (hlist : c.devOpsProjectLister nsName name = .error err) :
    (IsNotFound err = true → syncHandler c key w = (.returned none, w)) ∧
    (IsNotFound err = false → syncHandler c key w = (.returned (some err), w)) := by
  constructor <;> intro h <;> simp [syncHandler, hkey, hlist, h]

/-- Witness of C12: a cache without the Pipeline, and a lister that fails with
another error. -/
theorem syncHandler_lister_error_witness :
    syncHandler (exampleController none) "ns/foo" (exampleWorld none none)
      = (.returned none, exampleWorld none none) ∧
    syncHandler
        { exampleController none with
          devOpsProjectLister := fun _ _ => .error (.errorString "index corrupted") }
        "ns/foo" (exampleWorld none none)
      = (.returned (some (.errorString "index corrupted")), exampleWorld none none) :=
  ⟨(syncHandler_lister_error (exampleController none) "ns/foo" "ns" "foo"
      (exampleWorld none none) (.StatusError "NotFound" "pipeline not found") rfl rfl).1 rfl,
   (syncHandler_lister_error
      { exampleController none with
        devOpsProjectLister := fun _ _ => .error (.errorString "index corrupted") }
      "ns/foo" "ns" "foo" (exampleWorld none none) (.errorString "index corrupted")
      rfl rfl).2 rfl⟩

/-- C13: a run of `syncHandler` arrives at its final step with a local copy
(the final copy of an active Pipeline, the copy without the finalizer of a
terminating one, the Pipeline itself when a terminating one has no finalizer)
or returns before it. When it arrives and the copy is deep-equal to the
Pipeline read from the cache, the run returns nil there and has made no call
to the Kubernetes client; when the copy is not deep-equal, the rest of the run
is `updatePipeline` on the copy, and the calls to the Kubernetes client start
with its Get. When it returns before, it has made no call to the Kubernetes
client. So a run calls the Kubernetes client exactly when it arrives at the
final step with a copy that is not deep-equal; and the copy is deep-equal
exactly for a terminating Pipeline without the finalizer. -/
theorem syncHandler_updates_iff_changed (c : Controller Spec Status J K)
    (key nsName name : String) (w : World Spec Status J K) (pipeline : Pipeline Spec Status)
    (hkey : SplitMetaNamespaceKey key = .ok (nsName, name))
    (hlist : c.devOpsProjectLister nsName name = .ok pipeline) :
    (∀ copyPipeline w1, copyAtPersistence c nsName pipeline w = some (copyPipeline, w1) →
      (Pipeline.DeepEqual pipeline copyPipeline = true →
        syncHandler c key w = (.returned none, w1) ∧
        (callsMade w (syncHandler c key w).2).filter Call.isKube = []) ∧
      (Pipeline.DeepEqual pipeline copyPipeline = false →
        syncHandler c key w = updatePipeline c name nsName copyPipeline w1 ∧
        ∃ rest, (callsMade w (syncHandler c key w).2).filter Call.isKube
          = Call.PipelinesGet nsName name :: rest) ∧
      (Pipeline.DeepEqual pipeline copyPipeline = true ↔
        (TimeIsZero pipeline.Meta.DeletionTimestamp = false ∧
          HasString pipeline.Meta.Finalizers PipelineFinalizerName = false))) ∧
    (copyAtPersistence c nsName pipeline w = none →
      (callsMade w (syncHandler c key w).2).filter Call.isKube = []) ∧
    ((callsMade w (syncHandler c key w).2).filter Call.isKube ≠ [] ↔
      ∃ copyPipeline w1, copyAtPersistence c nsName pipeline w = some (copyPipeline, w1) ∧
        Pipeline.DeepEqual pipeline copyPipeline = false) := by
  have hsome : ∀ copyPipeline w1,
      copyAtPersistence c nsName pipeline w = some (copyPipeline, w1) →
      (Pipeline.DeepEqual pipeline copyPipeline = true →
        syncHandler c key w = (.returned none, w1) ∧
        (callsMade w (syncHandler c key w).2).filter Call.isKube = []) ∧
      (Pipeline.DeepEqual pipeline copyPipeline = false →
        syncHandler c key w = updatePipeline c name nsName copyPipeline w1 ∧
        ∃ rest, (callsMade w (syncHandler c key w).2).filter Call.isKube
          = Call.PipelinesGet nsName name :: rest) ∧
      (Pipeline.DeepEqual pipeline copyPipeline = true ↔
        (TimeIsZero pipeline.Meta.DeletionTimestamp = false ∧
          HasString pipeline.Meta.Finalizers PipelineFinalizerName = false)) := by
    intro copyPipeline w1 h
    obtain ⟨hrun, ⟨l, hl, hk⟩, hiff⟩ := syncHandler_of_copyAtPersistence c key nsName name
      w w1 pipeline copyPipeline hkey hlist h
    refine ⟨?_, ?_, hiff⟩
    · intro hd
      rw [hrun, persistIfChanged_of_deepEqual c name nsName pipeline copyPipeline w1 hd]
      refine ⟨rfl, ?_⟩
      rw [callsMade_of_append w w1 l hl]
      exact hk
    · intro hd
      rw [hrun, persistIfChanged_of_not_deepEqual c name nsName pipeline copyPipeline w1 hd]
      refine ⟨rfl, ?_⟩
      obtain ⟨rest, hrest⟩ := updatePipeline_first_call c name nsName copyPipeline w1
      refine ⟨rest.filter Call.isKube, ?_⟩
      rw [mem_callsMade_append w w1 _ l _ hl hrest, List.filter_append, hk]
      simp [Call.isKube]
  have hnone := syncHandler_of_no_copyAtPersistence c key nsName name w pipeline hkey hlist
  refine ⟨hsome, hnone, ?_, ?_⟩
  · intro hcalls
    rcases hcp : copyAtPersistence c nsName pipeline w with _ | ⟨copyPipeline, w1⟩
    · exact absurd (hnone hcp) hcalls
    · refine ⟨copyPipeline, w1, rfl, ?_⟩
      rcases hd : Pipeline.DeepEqual pipeline copyPipeline with _ | _
      · rfl
      · exact absurd ((hsome copyPipeline w1 hcp).1 hd).2 hcalls
  · rintro ⟨copyPipeline, w1, hcp, hd⟩
    obtain ⟨rest, hrest⟩ := ((hsome copyPipeline w1 hcp).2.1 hd).2
    rw [hrest]
    simp

/-- Witness of C13: the tests' deleting Pipeline arrives at the final step
with the copy that lost the finalizer, which is not deep-equal, and the run
ends in `updatePipeline` on it; a terminating Pipeline without the finalizer
arrives with itself, and the run makes no call; and the first reconciliation
of the fresh Pipeline arrives, after the creation of the job, with the final
copy and ends in `updatePipeline` on it. -/
theorem syncHandler_updates_iff_changed_witness :
    (deleteAbsentJobRun
        = updatePipeline (exampleController (some deletingPipeline)) "foo" "ns"
            (strippedCopy deletingPipeline)
            (afterDeleteJob (exampleController (some deletingPipeline)) "ns"
              deletingPipeline (exampleWorld none (some deletingPipeline))) ∧
      ∃ rest, (callsMade (exampleWorld none (some deletingPipeline))
          deleteAbsentJobRun.2).filter Call.isKube = Call.PipelinesGet "ns" "foo" :: rest) ∧
    (syncHandler (exampleController (some releasedPipeline)) "ns/foo"
        (exampleWorld none (some releasedPipeline))
        = (.returned none, exampleWorld none (some releasedPipeline)) ∧
      (callsMade (exampleWorld none (some releasedPipeline))
        (syncHandler (exampleController (some releasedPipeline)) "ns/foo"
          (exampleWorld none (some releasedPipeline))).2).filter Call.isKube = []) ∧
    (firstReconcileRun
        = updatePipeline (exampleController (some freshPipeline)) "foo" "ns"
            (finalCopy (exampleController (some freshPipeline)) freshPipeline)
            (afterCreateJob (exampleController (some freshPipeline)) "ns"
              freshPipeline (exampleWorld none (some freshPipeline))) ∧
      ∃ rest, (callsMade (exampleWorld none (some freshPipeline))
          firstReconcileRun.2).filter Call.isKube = Call.PipelinesGet "ns" "foo" :: rest) :=
  ⟨((syncHandler_updates_iff_changed (exampleController (some deletingPipeline))
      "ns/foo" "ns" "foo" (exampleWorld none (some deletingPipeline)) deletingPipeline
      rfl rfl).1 (strippedCopy deletingPipeline)
        (afterDeleteJob (exampleController (some deletingPipeline)) "ns"
          deletingPipeline (exampleWorld none (some deletingPipeline))) rfl).2.1 rfl,
   ((syncHandler_updates_iff_changed (exampleController (some releasedPipeline))
      "ns/foo" "ns" "foo" (exampleWorld none (some releasedPipeline)) releasedPipeline
      rfl rfl).1 releasedPipeline (exampleWorld none (some releasedPipeline)) rfl).1 rfl,
   ((syncHandler_updates_iff_changed (exampleController (some freshPipeline))
      "ns/foo" "ns" "foo" (exampleWorld none (some freshPipeline)) freshPipeline
      rfl rfl).1 (finalCopy (exampleController (some freshPipeline)) freshPipeline)
        (afterCreateJob (exampleController (some freshPipeline)) "ns"
          freshPipeline (exampleWorld none (some freshPipeline))) rfl).2.1 rfl⟩

/-- Counterexample to C15: the desired Pipeline has no annotation map and an
empty finalizer list, the API server holds the Pipeline with the sync-status
successful and the finalizer. The first call of `updatePipeline` writes and
returns nil; the second call, right after, writes again: the annotations are
compared at line 334 but not assigned at line 339. -/
theorem second_update_writes_again :
    firstUpdateCall.1 = .returned none ∧
    callsMade (exampleWorld none (some storedSyncedTerminating)) firstUpdateCall.2
      = [Call.PipelinesGet "ns" "foo",
         Call.PipelinesUpdate "ns"
           (examplePipeline "A" (some 1700000000)
             (some [(PipelineSyncStatusAnnoKey, StatusSuccessful)]) (some []))] ∧
    secondUpdateCall.1 = .returned none ∧
    callsMade firstUpdateCall.2 secondUpdateCall.2
      = [Call.PipelinesGet "ns" "foo",
         Call.PipelinesUpdate "ns"
           (examplePipeline "A" (some 1700000000)
             (some [(PipelineSyncStatusAnnoKey, StatusSuccessful)]) (some []))] := by
  refine ⟨rfl, rfl, rfl, rfl⟩

/-- C15 as amended: in `updatePipeline`, when the re-fetched Pipeline reads the
same sync-status annotation and spec-hash annotation as the desired Pipeline
and has the same finalizer list, no Update call is made and the result is
nil. When the desired Pipeline has an annotation map, a second call of
`updatePipeline` right after a successful write (the API server returning what
was written) makes no Update call. -/
theorem updatePipeline_skips_when_agreed (c : Controller Spec Status J K)
    (name nsName : String) (pipeline : Pipeline Spec Status) (w : World Spec Status J K) :
    (∀ newPipeline, (c.kubesphereClient.Get w.kube nsName name).1 = .ok newPipeline →
      mapIndex newPipeline.Meta.Annotations PipelineSyncStatusAnnoKey
        = mapIndex pipeline.Meta.Annotations PipelineSyncStatusAnnoKey →
      mapIndex newPipeline.Meta.Annotations PipelineSpecHash
        = mapIndex pipeline.Meta.Annotations PipelineSpecHash →
      newPipeline.Meta.Finalizers = pipeline.Meta.Finalizers →
      (updatePipeline c name nsName pipeline w).1 = .returned none ∧
      callsMade w (updatePipeline c name nsName pipeline w).2
        = [Call.PipelinesGet nsName name]) ∧
    (∀ newPipeline written,
      (c.kubesphereClient.Get w.kube nsName name).1 = .ok newPipeline →
      ownedFieldsAgree newPipeline pipeline = false →
      pipeline.Meta.Annotations ≠ none →
      mergeOwnedFields newPipeline pipeline = some written →
      (∃ r, (c.kubesphereClient.Update (c.kubesphereClient.Get w.kube nsName name).2
        nsName written).1 = .ok r) →
      (c.kubesphereClient.Get
        (c.kubesphereClient.Update (c.kubesphereClient.Get w.kube nsName name).2
          nsName written).2 nsName name).1 = .ok written →
      (updatePipeline c name nsName pipeline w).1 = .returned none ∧
      callsMade w (updatePipeline c name nsName pipeline w).2
        = [Call.PipelinesGet nsName name, Call.PipelinesUpdate nsName written] ∧
      (updatePipeline c name nsName pipeline
        (updatePipeline c name nsName pipeline w).2).1 = .returned none ∧
      callsMade (updatePipeline c name nsName pipeline w).2
        (updatePipeline c name nsName pipeline (updatePipeline c name nsName pipeline w).2).2
        = [Call.PipelinesGet nsName name]) := by
  refine ⟨?_, ?_⟩
  · intro newPipeline hget h1 h2 h3
    have ha : ownedFieldsAgree newPipeline pipeline = true := by
      simp [ownedFieldsAgree, h1, h2, h3]
    rw [updatePipeline_agreed c name nsName pipeline newPipeline w hget ha]
    exact ⟨rfl, callsMade_of_append _ _ _ rfl⟩
  · intro newPipeline written hget ha hp hm hupd hread
    rw [updatePipeline_written c name nsName pipeline newPipeline written w hget ha hm hupd]
    refine ⟨rfl, callsMade_of_append _ _ _ rfl, ?_⟩
    rw [updatePipeline_agreed c name nsName pipeline written _ hread
      (mergeOwnedFields_agrees newPipeline pipeline written hp hm)]
    exact ⟨rfl, callsMade_of_append _ _ _ rfl⟩

/-- Witness of C15 as amended: the API server holds the fresh Pipeline and the
desired Pipeline carries the finalizer and the sync-status successful. -/
theorem updatePipeline_skips_when_agreed_witness :
    (updatePipeline (exampleController none) "foo" "ns" desiredSynced
      (exampleWorld none (some freshPipeline))).1 = .returned none ∧
    callsMade (exampleWorld none (some freshPipeline))
      (updatePipeline (exampleController none) "foo" "ns" desiredSynced
        (exampleWorld none (some freshPipeline))).2
      = [Call.PipelinesGet "ns" "foo", Call.PipelinesUpdate "ns" firstReconcileWritten] ∧
    (updatePipeline (exampleController none) "foo" "ns" desiredSynced
      (updatePipeline (exampleController none) "foo" "ns" desiredSynced
        (exampleWorld none (some freshPipeline))).2).1 = .returned none ∧
    callsMade
      (updatePipeline (exampleController none) "foo" "ns" desiredSynced
        (exampleWorld none (some freshPipeline))).2
      (updatePipeline (exampleController none) "foo" "ns" desiredSynced
        (updatePipeline (exampleController none) "foo" "ns" desiredSynced
          (exampleWorld none (some freshPipeline))).2).2
      = [Call.PipelinesGet "ns" "foo"] :=
  (updatePipeline_skips_when_agreed (exampleController none) "foo" "ns" desiredSynced
    (exampleWorld none (some freshPipeline))).2 freshPipeline firstReconcileWritten
    rfl rfl (by simp [desiredSynced, examplePipeline]) rfl ⟨firstReconcileWritten, rfl⟩ rfl

/-- C17: for a string key taken from the work queue, when `syncHandler`
returns an error `processNextWorkItem` re-adds the key with `AddRateLimited`
and does not call `Forget`; when `syncHandler` returns nil it calls `Forget`
and does not re-add the key; in both cases it returns true, whatever the state
of the queue (its failure counts included). The calls on the queue are given
in full. -/
theorem processNextWorkItem_requeues_on_error {Q : Type}
    (c : Controller Spec Status J K) (workqueue : RateLimitingInterface Q)
    (w : World Spec Status J K) (q : QueueState Q) (key : String)
    (hget : (workqueue.Get q.queue).1 = (QueueItem.key key, false)) :
    (∀ e, (syncHandler c key w).1 = .returned (some e) →
      (processNextWorkItem c workqueue w q).1 = .returned true ∧
      (processNextWorkItem c workqueue w q).2.1 = (syncHandler c key w).2 ∧
      queueCallsMade q (processNextWorkItem c workqueue w q).2.2
        = [QueueCall.Get, QueueCall.AddRateLimited (.key key), QueueCall.Done (.key key)] ∧
      (processNextWorkItem c workqueue w q).2.2.queue
        = workqueue.Done (workqueue.AddRateLimited (workqueue.Get q.queue).2 (.key key))
            (.key key)) ∧
    ((syncHandler c key w).1 = .returned none →
      (processNextWorkItem c workqueue w q).1 = .returned true ∧
      (processNextWorkItem c workqueue w q).2.1 = (syncHandler c key w).2 ∧
      queueCallsMade q (processNextWorkItem c workqueue w q).2.2
        = [QueueCall.Get, QueueCall.Forget (.key key), QueueCall.Done (.key key)] ∧
      (processNextWorkItem c workqueue w q).2.2.queue
        = workqueue.Done (workqueue.Forget (workqueue.Get q.queue).2 (.key key))
            (.key key)) := by
  have h1 : (workqueue.Get q.queue).1.1 = QueueItem.key key := by rw [hget]
  have h2 : (workqueue.Get q.queue).1.2 = false := by rw [hget]
  refine ⟨?_, ?_⟩
  · intro e he
    rcases hs : syncHandler c key w with ⟨o, w1⟩
    rw [hs] at he
    simp only at he
    subst he
    simp [processNextWorkItem, h1, h2, hs, queueCallsMade]
  · intro he
    rcases hs : syncHandler c key w with ⟨o, w1⟩
    rw [hs] at he
    simp only at he
    subst he
    simp [processNextWorkItem, h1, h2, hs, queueCallsMade]

/-- Witness of C17: the key `ns/foo` is pending; Jenkins refuses to create the
job, and, in another step, the synced Pipeline needs nothing. -/
theorem processNextWorkItem_requeues_on_error_witness :
    ((processNextWorkItem
        { exampleController (some freshPipeline) with
          devopsClient := failingCreateAdapter (.ErrorResponse 500 "server error") }
        listQueue (exampleWorld none (some freshPipeline))
        (pendingQueue [.key "ns/foo"])).1 = .returned true ∧
      queueCallsMade (pendingQueue [.key "ns/foo"])
        (processNextWorkItem
          { exampleController (some freshPipeline) with
            devopsClient := failingCreateAdapter (.ErrorResponse 500 "server error") }
          listQueue (exampleWorld none (some freshPipeline))
          (pendingQueue [.key "ns/foo"])).2.2
        = [QueueCall.Get, QueueCall.AddRateLimited (.key "ns/foo"),
           QueueCall.Done (.key "ns/foo")]) ∧
    ((processNextWorkItem (exampleController (some syncedPipeline)) listQueue
        (exampleWorld none (some syncedPipeline)) (pendingQueue [.key "ns/foo"])).1
        = .returned true ∧
      queueCallsMade (pendingQueue [.key "ns/foo"])
        (processNextWorkItem (exampleController (some syncedPipeline)) listQueue
          (exampleWorld none (some syncedPipeline)) (pendingQueue [.key "ns/foo"])).2.2
        = [QueueCall.Get, QueueCall.Forget (.key "ns/foo"),
           QueueCall.Done (.key "ns/foo")]) := by
  have h1 := (processNextWorkItem_requeues_on_error
    { exampleController (some freshPipeline) with
      devopsClient := failingCreateAdapter (.ErrorResponse 500 "server error") }
    listQueue (exampleWorld none (some freshPipeline)) (pendingQueue [.key "ns/foo"])
    "ns/foo" rfl).1 (.ErrorResponse 500 "server error") rfl
  have h2 := (processNextWorkItem_requeues_on_error (exampleController (some syncedPipeline))
    listQueue (exampleWorld none (some syncedPipeline)) (pendingQueue [.key "ns/foo"])
    "ns/foo" rfl).2 rfl
  exact ⟨⟨h1.1, h1.2.2.1⟩, ⟨h2.1, h2.2.2.1⟩⟩

/-- C18: for every item `processNextWorkItem` obtains from the queue's `Get`
(the queue not being shut down), the calls it makes on the queue contain
`Done` on that item exactly once and `Done` on no other item, on every path:
the item is not a string, `syncHandler` returns nil, returns an error, or
panics. -/
theorem processNextWorkItem_done_once {Q : Type}
    (c : Controller Spec Status J K) (workqueue : RateLimitingInterface Q)
    (w : World Spec Status J K) (q : QueueState Q) (item : QueueItem)
    (hget : (workqueue.Get q.queue).1 = (item, false)) :
    (queueCallsMade q (processNextWorkItem c workqueue w q).2.2).count (QueueCall.Done item)
      = 1 ∧
    (∀ other, QueueCall.Done other ∈ queueCallsMade q (processNextWorkItem c workqueue w q).2.2 →
      other = item) ∧
    (queueCallsMade q (processNextWorkItem c workqueue w q).2.2).getLast?
      = some (QueueCall.Done item) := by
  have h1 : (workqueue.Get q.queue).1.1 = item := by rw [hget]
  have h2 : (workqueue.Get q.queue).1.2 = false := by rw [hget]
  cases item with
  | other d =>
    simp [processNextWorkItem, h1, h2, queueCallsMade, List.count_cons]
  | key key =>
    rcases hs : syncHandler c key w with ⟨o, w1⟩
    cases o with
    | panicked =>
      simp [processNextWorkItem, h1, h2, hs, queueCallsMade, List.count_cons]
    | returned e =>
      cases e <;>
        simp [processNextWorkItem, h1, h2, hs, queueCallsMade, List.count_cons]

/-- Witness of C18: an item that is not a string is pending. -/
theorem processNextWorkItem_done_once_witness :
    (queueCallsMade (pendingQueue [.other "a number"])
      (processNextWorkItem (exampleController (some syncedPipeline)) listQueue
        (exampleWorld none (some syncedPipeline))
        (pendingQueue [.other "a number"])).2.2).count (QueueCall.Done (.other "a number"))
      = 1 :=
  (processNextWorkItem_done_once (exampleController (some syncedPipeline)) listQueue
    (exampleWorld none (some syncedPipeline)) (pendingQueue [.other "a number"])
    (.other "a number") rfl).1

/-- C19: an update notification whose old and new Pipeline have deep-equal
metadata and the same spec leaves the work queue as it was, and so does every
update notification whose old and new resource version are equal: no key is
added. -/
theorem updateFunc_ignores_unchanged {Q : Type} (workqueue : RateLimitingInterface Q)
    (oldPipeline newPipeline : Pipeline Spec Status) (q : QueueState Q) :
    (ObjectMeta.DeepEqual oldPipeline.Meta newPipeline.Meta = true →
      oldPipeline.Spec = newPipeline.Spec →
      UpdateFunc workqueue oldPipeline newPipeline q = q) ∧
    (oldPipeline.Meta.ResourceVersion = newPipeline.Meta.ResourceVersion →
      UpdateFunc workqueue oldPipeline newPipeline q = q) := by
  have hrv : oldPipeline.Meta.ResourceVersion = newPipeline.Meta.ResourceVersion →
      UpdateFunc workqueue oldPipeline newPipeline q = q := by
    intro h
    simp [UpdateFunc, h]
  refine ⟨?_, hrv⟩
  intro hmeta _
  apply hrv
  simp only [ObjectMeta.DeepEqual, Bool.and_eq_true, beq_iff_eq] at hmeta
  exact hmeta.1.1.1.1.2

/-- Witness of C19: a resync notification, whose old and new Pipeline are the
same object. -/
theorem updateFunc_ignores_unchanged_witness :
    UpdateFunc listQueue syncedPipeline syncedPipeline (pendingQueue [])
      = pendingQueue [] :=
  (updateFunc_ignores_unchanged listQueue syncedPipeline syncedPipeline
    (pendingQueue [])).1 rfl rfl

/-- C23: for a Pipeline with no deletion timestamp whose reconciliation reaches
the adapter (it is not short-circuited), when `CreateProjectPipeline` is
called and fails, or `UpdateProjectPipeline` is called and fails, `syncHandler`
returns that error, the calls of the run are the lookup and the failed call
only, and the state of the API server is untouched: no Get and no Update of the
persistence step is issued, so neither the finalizer, nor the spec hash, nor a
successful sync-status is persisted. -/
theorem syncHandler_adapter_failure_persists_nothing (c : Controller Spec Status J K)
    (key nsName name : String) (w : World Spec Status J K) (pipeline : Pipeline Spec Status)
    (hkey : SplitMetaNamespaceKey key = .ok (nsName, name))
    (hlist : c.devOpsProjectLister nsName name = .ok pipeline)
    (hzero : TimeIsZero pipeline.Meta.DeletionTimestamp = true)
    (hsc : shortCircuited c pipeline = false) :
    (∀ err e,
      (c.devopsClient.GetProjectPipelineConfig w.jenkins nsName pipeline.Meta.Name).1
        = .error err →
      (c.devopsClient.CreateProjectPipeline (afterGetConfig c nsName pipeline w).jenkins
        nsName (adapterCopy c pipeline)).1 = .error e →
      (syncHandler c key w).1 = .returned (some e) ∧
      callsMade w (syncHandler c key w).2
        = [Call.GetProjectPipelineConfig nsName pipeline.Meta.Name,
           Call.CreateProjectPipeline nsName (adapterCopy c pipeline)] ∧
      (callsMade w (syncHandler c key w).2).filter Call.isKube = [] ∧
      (syncHandler c key w).2.kube = w.kube) ∧
    (∀ jenkinsPipeline e,
      (c.devopsClient.GetProjectPipelineConfig w.jenkins nsName pipeline.Meta.Name).1
        = .ok jenkinsPipeline →
      jenkinsPipeline.Spec ≠ pipeline.Spec →
      (c.devopsClient.UpdateProjectPipeline (afterGetConfig c nsName pipeline w).jenkins
        nsName (adapterCopy c pipeline)).1 = .error e →
      (syncHandler c key w).1 = .returned (some e) ∧
      callsMade w (syncHandler c key w).2
        = [Call.GetProjectPipelineConfig nsName pipeline.Meta.Name,
           Call.UpdateProjectPipeline nsName (adapterCopy c pipeline)] ∧
      (callsMade w (syncHandler c key w).2).filter Call.isKube = [] ∧
      (syncHandler c key w).2.kube = w.kube) := by
  refine ⟨?_, ?_⟩
  · intro err e hg hcr
    have hrun : syncHandler c key w = (.returned (some e), afterCreateJob c nsName pipeline w) := by
      rw [syncHandler_active c key nsName name w pipeline hkey hlist hzero,
        syncActive_eq c name nsName w pipeline hsc, hg]
      simp only [hcr]
    rw [hrun]
    refine ⟨rfl, ?_, ?_, rfl⟩
    · simp [callsMade, afterCreateJob, afterGetConfig]
    · simp [callsMade, afterCreateJob, afterGetConfig, Call.isKube]
  · intro job e hg hs hu
    have hrun : syncHandler c key w = (.returned (some e), afterUpdateJob c nsName pipeline w) := by
      rw [syncHandler_active c key nsName name w pipeline hkey hlist hzero,
        syncActive_eq c name nsName w pipeline hsc, hg]
      simp only [hs, ne_eq, not_false_eq_true, if_true, hu]
    rw [hrun]
    refine ⟨rfl, ?_, ?_, rfl⟩
    · simp [callsMade, afterUpdateJob, afterGetConfig]
    · simp [callsMade, afterUpdateJob, afterGetConfig, Call.isKube]

/-- Witness of C23: Jenkins refuses to create the job of the fresh Pipeline,
and, in the update scenario, refuses the update of the job; the API server
holds what it held. -/
theorem syncHandler_adapter_failure_persists_nothing_witness :
    (createRefusedRun.1 = .returned (some (.ErrorResponse 500 "server error")) ∧
      createRefusedRun.2.kube = some freshPipeline) ∧
    (updateRefusedRun.1 = .returned (some (.ErrorResponse 500 "server error")) ∧
      updateRefusedRun.2.kube = some modifiedPipeline) :=
  have h1 := (syncHandler_adapter_failure_persists_nothing
      { exampleController (some freshPipeline) with
        devopsClient := failingCreateAdapter (.ErrorResponse 500 "server error") }
      "ns/foo" "ns" "foo" (exampleWorld none (some freshPipeline)) freshPipeline
      rfl rfl rfl rfl).1
      (.ServiceError 404 "job not found") (.ErrorResponse 500 "server error") rfl rfl
  have h2 := (syncHandler_adapter_failure_persists_nothing
      { exampleController (some modifiedPipeline) with
        devopsClient := failingUpdateAdapter (.ErrorResponse 500 "server error") }
      "ns/foo" "ns" "foo" (exampleWorld (some staleJob) (some modifiedPipeline)) modifiedPipeline
      rfl rfl rfl rfl).2
      staleJob (.ErrorResponse 500 "server error") rfl (by decide) rfl
  ⟨⟨h1.1, h1.2.2.2⟩, ⟨h2.1, h2.2.2.2⟩⟩

/-- C24 fails on the code: when the re-fetched Pipeline has a nil annotation
map, the desired Pipeline has an annotation map, and the owned fields do not
already agree, `updatePipeline` ends in a runtime panic (the assignment of
line 341 into a nil map) after its Get, without issuing an Update. -/
theorem updatePipeline_nil_annotations_panics (c : Controller Spec Status J K)
    (name nsName : String) (pipeline newPipeline : Pipeline Spec Status)
    (w : World Spec Status J K)
    (hget : (c.kubesphereClient.Get w.kube nsName name).1 = .ok newPipeline)
    (hnil : newPipeline.Meta.Annotations = none)
    (hsome : pipeline.Meta.Annotations ≠ none)
    (hdiff : ownedFieldsAgree newPipeline pipeline = false) :
    (updatePipeline c name nsName pipeline w).1 = .panicked ∧
    callsMade w (updatePipeline c name nsName pipeline w).2
      = [Call.PipelinesGet nsName name] := by
  have hm : mergeOwnedFields newPipeline pipeline = none := by
    rcases ha : pipeline.Meta.Annotations with _ | m
    · exact absurd ha hsome
    · simp [mergeOwnedFields, ha, hnil]
  have hatt : updatePipelineAttempt c name nsName pipeline w
      = (.panicked, { w with kube := (c.kubesphereClient.Get w.kube nsName name).2,
                             calls := w.calls ++ [Call.PipelinesGet nsName name] }) := by
    simp [updatePipelineAttempt, hget, hdiff, hm]
  have hrun : updatePipeline c name nsName pipeline w
      = (.panicked, { w with kube := (c.kubesphereClient.Get w.kube nsName name).2,
                             calls := w.calls ++ [Call.PipelinesGet nsName name] }) := by
    have hun : updatePipeline c name nsName pipeline w
        = RetryOnConflict (updatePipelineAttempt c name nsName pipeline) (4 + 1) none w := rfl
    rw [hun, RetryOnConflict_succ_of_panic _ _ _ _ (by rw [hatt]), hatt]
  rw [hrun]
  exact ⟨rfl, by simp [callsMade]⟩

/-- Witness of C24 failing: the API server holds the Pipeline `ns/foo` without
annotations; `updatePipeline` with the synced copy panics, and so does the
whole reconciliation of that Pipeline, after the Jenkins job was created. -/
theorem updatePipeline_nil_annotations_panics_witness :
    (updatePipeline (exampleController (some unannotatedPipeline)) "foo" "ns" desiredSynced
        (exampleWorld none (some unannotatedPipeline))).1 = .panicked ∧
    unannotatedRun.1 = .panicked ∧
    unannotatedRun.2.calls.filter Call.isWrite = [] :=
  ⟨(updatePipeline_nil_annotations_panics (exampleController (some unannotatedPipeline))
      "foo" "ns" desiredSynced unannotatedPipeline
      (exampleWorld none (some unannotatedPipeline)) rfl rfl (by decide) rfl).1, rfl, rfl⟩

/-- C27: the update handler adds the key of the new Pipeline to the work queue
(one `Add`, nothing else) if and only if the old and the new resource version
differ and the spec differs or the new Pipeline does not carry the
request-to-sync-runs annotation; otherwise it leaves the queue as it was. So an
update with a changed resource version and without the annotation is enqueued
whatever else changed, and one that carries the annotation is enqueued only
when the spec changed. -/
theorem updateFunc_enqueues_iff {Q : Type} (workqueue : RateLimitingInterface Q)
    (oldPipeline newPipeline : Pipeline Spec Status) (q : QueueState Q) :
    ((oldPipeline.Meta.ResourceVersion ≠ newPipeline.Meta.ResourceVersion ∧
        (oldPipeline.Spec ≠ newPipeline.Spec ∨
          mapGet? newPipeline.Meta.Annotations PipelineRequestToSyncRunsAnnoKey = none)) →
      UpdateFunc workqueue oldPipeline newPipeline q
        = { queue := workqueue.Add q.queue (.key (MetaNamespaceKeyFunc newPipeline.Meta)),
            calls := q.calls ++ [QueueCall.Add (.key (MetaNamespaceKeyFunc newPipeline.Meta))] }) ∧
    (¬ (oldPipeline.Meta.ResourceVersion ≠ newPipeline.Meta.ResourceVersion ∧
        (oldPipeline.Spec ≠ newPipeline.Spec ∨
          mapGet? newPipeline.Meta.Annotations PipelineRequestToSyncRunsAnnoKey = none)) →
      UpdateFunc workqueue oldPipeline newPipeline q = q) ∧
    (queueCallsMade q (UpdateFunc workqueue oldPipeline newPipeline q)
        = [QueueCall.Add (.key (MetaNamespaceKeyFunc newPipeline.Meta))] ↔
      (oldPipeline.Meta.ResourceVersion ≠ newPipeline.Meta.ResourceVersion ∧
        (oldPipeline.Spec ≠ newPipeline.Spec ∨
          mapGet? newPipeline.Meta.Annotations PipelineRequestToSyncRunsAnnoKey = none))) := by
  have hyes : (oldPipeline.Meta.ResourceVersion ≠ newPipeline.Meta.ResourceVersion ∧
        (oldPipeline.Spec ≠ newPipeline.Spec ∨
          mapGet? newPipeline.Meta.Annotations PipelineRequestToSyncRunsAnnoKey = none)) →
      UpdateFunc workqueue oldPipeline newPipeline q
        = { queue := workqueue.Add q.queue (.key (MetaNamespaceKeyFunc newPipeline.Meta)),
            calls := q.calls ++
              [QueueCall.Add (.key (MetaNamespaceKeyFunc newPipeline.Meta))] } := by
    rintro ⟨hrv, hcase⟩
    have hmeta : ObjectMeta.DeepEqual oldPipeline.Meta newPipeline.Meta = false := by
      simp [ObjectMeta.DeepEqual, hrv]
    rcases hcase with hspec | hanno
    · simp [UpdateFunc, hrv, hspec, enqueuePipeline]
    · simp [UpdateFunc, hrv, hmeta, hanno, enqueuePipeline]
  have hno : ¬ (oldPipeline.Meta.ResourceVersion ≠ newPipeline.Meta.ResourceVersion ∧
        (oldPipeline.Spec ≠ newPipeline.Spec ∨
          mapGet? newPipeline.Meta.Annotations PipelineRequestToSyncRunsAnnoKey = none)) →
      UpdateFunc workqueue oldPipeline newPipeline q = q := by
    intro hnot
    by_cases hrv : oldPipeline.Meta.ResourceVersion = newPipeline.Meta.ResourceVersion
    · simp [UpdateFunc, hrv]
    · have h2 : ¬ (oldPipeline.Spec ≠ newPipeline.Spec ∨
          mapGet? newPipeline.Meta.Annotations PipelineRequestToSyncRunsAnnoKey = none) :=
        fun h => hnot ⟨hrv, h⟩
      push_neg at h2
      obtain ⟨hspec, hanno⟩ := h2
      have hsome : (mapGet? newPipeline.Meta.Annotations
          PipelineRequestToSyncRunsAnnoKey).isSome = true := by
        cases hv : mapGet? newPipeline.Meta.Annotations PipelineRequestToSyncRunsAnnoKey with
        | none => exact absurd hv hanno
        | some _ => rfl
      simp [UpdateFunc, hrv, hspec, hsome]
  refine ⟨hyes, hno, ?_⟩
  constructor
  · intro hcalls
    by_contra hnot
    rw [hno hnot] at hcalls
    simp [queueCallsMade] at hcalls
  · intro hcond
    rw [hyes hcond]
    simp [queueCallsMade]

/-- Witness of C27: a status-only update of the synced Pipeline (only the
resource version changed) is enqueued; the same update carrying the
request-to-sync-runs annotation is not. -/
theorem updateFunc_enqueues_iff_witness :
    UpdateFunc listQueue syncedPipeline statusOnlyUpdate (pendingQueue [])
      = { queue := [.key "ns/foo"], calls := [QueueCall.Add (.key "ns/foo")] } ∧
    UpdateFunc listQueue syncedPipeline requestSyncUpdate (pendingQueue [])
      = pendingQueue [] :=
  ⟨(updateFunc_enqueues_iff listQueue syncedPipeline statusOnlyUpdate (pendingQueue [])).1
      ⟨by decide, Or.inr rfl⟩,
   (updateFunc_enqueues_iff listQueue syncedPipeline requestSyncUpdate (pendingQueue [])).2.1
      (by decide)⟩

/-- C28: for a key that `SplitMetaNamespaceKey` cannot split, `syncHandler`
returns nil and leaves the world as it was: no lister, adapter or persistence
call. When such a key is the item `processNextWorkItem` takes from the queue,
its calls on the queue are `Get`, `Forget` and `Done` on that key: the key is
not added again. -/
theorem syncHandler_unsplittable_key_dropped {Q : Type}
    (c : Controller Spec Status J K) (workqueue : RateLimitingInterface Q)
    (w : World Spec Status J K) (q : QueueState Q) (key : String) (e : GoError)
    (hkey : SplitMetaNamespaceKey key = .error e) :
    syncHandler c key w = (.returned none, w) ∧
    ((workqueue.Get q.queue).1 = (QueueItem.key key, false) →
      processNextWorkItem c workqueue w q
        = (.returned true, w,
            { queue := workqueue.Done
                (workqueue.Forget (workqueue.Get q.queue).2 (.key key)) (.key key),
              calls := q.calls ++
                [QueueCall.Get, QueueCall.Forget (.key key), QueueCall.Done (.key key)] })) := by
  have hs : syncHandler c key w = (.returned none, w) := by
    simp [syncHandler, hkey]
  refine ⟨hs, ?_⟩
  intro hget
  have h1 : (workqueue.Get q.queue).1.1 = QueueItem.key key := by rw [hget]
  have h2 : (workqueue.Get q.queue).1.2 = false := by rw [hget]
  simp [processNextWorkItem, h1, h2, hs]

/-- Witness of C28: the key `a/b/c` has three parts. -/
theorem syncHandler_unsplittable_key_dropped_witness :
    syncHandler (exampleController (some freshPipeline)) "a/b/c"
        (exampleWorld none (some freshPipeline))
      = (.returned none, exampleWorld none (some freshPipeline)) ∧
    processNextWorkItem (exampleController (some freshPipeline)) listQueue
        (exampleWorld none (some freshPipeline)) (pendingQueue [.key "a/b/c"])
      = (.returned true, exampleWorld none (some freshPipeline),
          { queue := [],
            calls := [QueueCall.Get, QueueCall.Forget (.key "a/b/c"),
              QueueCall.Done (.key "a/b/c")] }) :=
  ⟨(syncHandler_unsplittable_key_dropped (exampleController (some freshPipeline)) listQueue
      (exampleWorld none (some freshPipeline)) (pendingQueue [.key "a/b/c"]) "a/b/c"
      (.errorString "unexpected key format: a/b/c") rfl).1,
   (syncHandler_unsplittable_key_dropped (exampleController (some freshPipeline)) listQueue
      (exampleWorld none (some freshPipeline)) (pendingQueue [.key "a/b/c"]) "a/b/c"
      (.errorString "unexpected key format: a/b/c") rfl).2 rfl⟩

end Claims

end PipelineController

/-! # The claims on the token operator -/

namespace TokenOperator

open PipelineController (GoError)

/-- C20: `tokenOperator.Verify` returns the issuer's error, without a call on
the cache, whenever the issuer rejects the token. Otherwise, when the OAuth
options are absent, or the access token lifetime is 0, or the token type is
static, it returns the authenticated user without a call on the cache.
Otherwise its only call on the cache is `Exists` on the key
`kubesphere:user:<user name>:token:<token>`, and it returns the user if and
only if the cache answers that the key exists; it returns an error when the
key is missing, and the error of the lookup when the lookup fails. -/
theorem verify_consults_cache_when_needed {S : Type} (t : tokenOperator S)
    (tokenStr : String) (s : CacheState S) :
    (∀ err, t.issuer.Verify tokenStr = .error err → Verify t tokenStr s = (.error err, s)) ∧
    (∀ user tokenType, t.issuer.Verify tokenStr = .ok (user, tokenType) →
      (t.options.OAuthOptions = none ∨
        (∃ o, t.options.OAuthOptions = some o ∧ o.AccessTokenMaxAge = 0) ∨
        tokenType = StaticToken) →
      Verify t tokenStr s = (.ok user, s)) ∧
    (∀ user tokenType o, t.issuer.Verify tokenStr = .ok (user, tokenType) →
      t.options.OAuthOptions = some o → o.AccessTokenMaxAge ≠ 0 → tokenType ≠ StaticToken →
      (Verify t tokenStr s).2.calls
        = s.calls ++ [CacheCall.Exists
            ("kubesphere:user:" ++ user.Name ++ ":token:" ++ tokenStr)] ∧
      ((Verify t tokenStr s).1 = .ok user ↔
        (t.cache.Exists s.cache
          ("kubesphere:user:" ++ user.Name ++ ":token:" ++ tokenStr)).1 = .ok true) ∧
      ((t.cache.Exists s.cache
          ("kubesphere:user:" ++ user.Name ++ ":token:" ++ tokenStr)).1 = .ok false →
        ∃ e, (Verify t tokenStr s).1 = .error e) ∧
      (∀ e, (t.cache.Exists s.cache
          ("kubesphere:user:" ++ user.Name ++ ":token:" ++ tokenStr)).1 = .error e →
        (Verify t tokenStr s).1 = .error e)) := by
  refine ⟨?_, ?_, ?_⟩
  · intro err h
    simp [Verify, h]
  · intro user tokenType h hcase
    rcases ho : t.options.OAuthOptions with _ | o
    · simp [Verify, h, ho]
    · rcases hcase with h1 | ⟨o1, h1, h2⟩ | h1
      · rw [ho] at h1
        cases h1
      · rw [ho] at h1
        cases h1
        simp [Verify, h, ho, h2]
      · simp [Verify, h, ho, h1]
  · intro user tokenType o h ho hage hty
    have hun : (o.AccessTokenMaxAge == 0 || tokenType == StaticToken) = false := by
      simp [hage, hty]
    rcases hex : (t.cache.Exists s.cache
        ("kubesphere:user:" ++ user.Name ++ ":token:" ++ tokenStr)).1 with e | exist
    · simp [Verify, h, ho, hun, tokenCacheValidate, tokenCacheKey, hex]
    · cases exist <;>
        simp [Verify, h, ho, hun, tokenCacheValidate, tokenCacheKey, hex]

/-- Witness of C20: with a lifetime of two hours, the access token of `alice`
is accepted when the cache holds its key and rejected when it does not; her
static token is accepted without a call on the cache. -/
theorem verify_consults_cache_when_needed_witness :
    ((Verify (exampleOperator cachingOptions) "access_token:alice"
        (cacheWith [("kubesphere:user:alice:token:access_token:alice",
          "access_token:alice")])).1
        = .ok { Name := "alice", UID := "1", Groups := [] }) ∧
    (∃ e, (Verify (exampleOperator cachingOptions) "access_token:alice" (cacheWith [])).1
        = .error e) ∧
    (Verify (exampleOperator cachingOptions) "static_token:alice" (cacheWith [])
        = (.ok { Name := "alice", UID := "1", Groups := [] }, cacheWith [])) :=
  ⟨((verify_consults_cache_when_needed (exampleOperator cachingOptions) "access_token:alice"
      (cacheWith [("kubesphere:user:alice:token:access_token:alice",
        "access_token:alice")])).2.2
      { Name := "alice", UID := "1", Groups := [] } AccessToken
      { AccessTokenMaxAge := 7200000000000, AccessTokenInactivityTimeout := 0 }
      rfl rfl (by decide) (by decide)).2.1.2 rfl,
   ((verify_consults_cache_when_needed (exampleOperator cachingOptions) "access_token:alice"
      (cacheWith [])).2.2
      { Name := "alice", UID := "1", Groups := [] } AccessToken
      { AccessTokenMaxAge := 7200000000000, AccessTokenInactivityTimeout := 0 }
      rfl rfl (by decide) (by decide)).2.2.1 rfl,
   (verify_consults_cache_when_needed (exampleOperator cachingOptions) "static_token:alice"
      (cacheWith [])).2.1
      { Name := "alice", UID := "1", Groups := [] } StaticToken rfl (Or.inr (Or.inr rfl))⟩

/-! ## Lemmas on the float64 seconds of a duration -/

theorem bitLengthAux_zero (fuel : Nat) : bitLengthAux fuel 0 = 0 := by
  cases fuel <;> simp [bitLengthAux]

theorem lt_two_pow_bitLengthAux (fuel n : Nat) (h : n ≤ fuel) :
    n < 2 ^ bitLengthAux fuel n := by
  induction fuel generalizing n with
  | zero =>
    have : n = 0 := by omega
    subst this
    simp [bitLengthAux]
  | succ fuel ih =>
    by_cases hn : n = 0
    · subst hn
      simp [bitLengthAux]
    · have h2 : n / 2 ≤ fuel := by omega
      have := ih (n / 2) h2
      simp only [bitLengthAux, hn, if_false, pow_succ]
      omega

theorem two_pow_bitLengthAux_le (fuel n : Nat) (h : n ≤ fuel) (hn : n ≠ 0) :
    2 ^ (bitLengthAux fuel n - 1) ≤ n := by
  induction fuel generalizing n with
  | zero => omega
  | succ fuel ih =>
    simp only [bitLengthAux, hn, if_false, Nat.add_sub_cancel]
    by_cases h0 : n / 2 = 0
    · rw [h0, bitLengthAux_zero]
      simp
      omega
    · have h2 : n / 2 ≤ fuel := by omega
      have := ih (n / 2) h2 h0
      have hpos : 0 < bitLengthAux fuel (n / 2) := by
        by_contra hc
        have hz : bitLengthAux fuel (n / 2) = 0 := by omega
        have := lt_two_pow_bitLengthAux fuel (n / 2) h2
        rw [hz] at this
        omega
      have hs : bitLengthAux fuel (n / 2) = (bitLengthAux fuel (n / 2) - 1) + 1 := by omega
      rw [hs, pow_succ]
      omega

theorem floorLog2_le (p q : Nat) (hp : 0 < p)
    (h : p < q * 2 ^ 53) : floorLog2 p q ≤ 52 := by
  have h1 : 2 ^ (bitLength p - 1) ≤ p := two_pow_bitLengthAux_le p p (le_refl _) (by omega)
  have h2 : q < 2 ^ bitLength q := lt_two_pow_bitLengthAux q q (le_refl _)
  unfold floorLog2
  simp only
  by_cases hl : (bitLength p : Int) - (bitLength q : Int) ≤ 52
  · split <;> omega
  · have hl2 : (bitLength p : Int) - (bitLength q : Int) = 53 := by
      by_contra hne
      have hge : bitLength q + 54 ≤ bitLength p := by omega
      have : 2 ^ (bitLength q + 53) ≤ 2 ^ (bitLength p - 1) :=
        Nat.pow_le_pow_right (by norm_num) (by omega)
      rw [pow_add] at this
      have h3 : q * 2 ^ 53 < 2 ^ bitLength q * 2 ^ 53 :=
        Nat.mul_lt_mul_of_pos_right h2 (by positivity)
      omega
    rw [hl2]
    have hc : ¬ (q * 2 ^ (53 : Int).toNat ≤ p * 2 ^ (-(53 : Int)).toNat) := by
      have e1 : (53 : Int).toNat = 53 := rfl
      have e2 : (-(53 : Int)).toNat = 0 := rfl
      rw [e1, e2]
      omega
    rw [if_neg hc]
    norm_num


theorem roundToFloat64_integral (p : Int) (q : Nat) (hq : 0 < q)
    (hdvd : q ∣ p.natAbs) (hlt : p.natAbs < q * 2 ^ 53) :
    (roundToFloat64 p q).exp ≤ 0 ∧
    (roundToFloat64 p q).mant = Int.tdiv p q * 2 ^ (-(roundToFloat64 p q).exp).toNat := by
  by_cases hp : p = 0
  · subst hp
    simp [roundToFloat64]
  · have hpos : 0 < p.natAbs := Int.natAbs_pos.2 hp
    have hS : floorLog2 p.natAbs q ≤ 52 := floorLog2_le p.natAbs q hpos hlt
    obtain ⟨k, hk⟩ : ∃ k : Nat, 52 - floorLog2 p.natAbs q = (k : Int) :=
      ⟨(52 - floorLog2 p.natAbs q).toNat, (Int.toNat_of_nonneg (by omega)).symm⟩
    obtain ⟨c, hc⟩ := hdvd
    have hdiv : p.natAbs * 2 ^ k / q = c * 2 ^ k := by
      rw [hc, Nat.mul_assoc, Nat.mul_div_cancel_left _ hq]
    have hmod : p.natAbs * 2 ^ k % q = 0 := by
      rw [hc, Nat.mul_assoc, Nat.mul_mod_right]
    have hqi : (q : Int) ≠ 0 := by exact_mod_cast hq.ne'
    have htdiv : Int.tdiv p q = p.sign * (c : Int) := by
      have hpe : p = (q : Int) * (p.sign * (c : Int)) := by
        conv_lhs => rw [← Int.sign_mul_natAbs p, hc]
        push_cast
        ring
      conv_lhs => rw [hpe]
      exact Int.mul_tdiv_cancel_left _ hqi
    have hneg : (-(k : Int)).toNat = 0 := by omega
    have hcond : ¬ (q < 2 * 0 ∨ (2 * 0 = q ∧ c * 2 ^ k % 2 = 1)) := by omega
    simp only [roundToFloat64, hp, if_false, hk, Int.toNat_ofNat, hneg, pow_zero, Nat.mul_one,
      hdiv, hmod, hcond, neg_neg, htdiv]
    refine ⟨by omega, ?_⟩
    push_cast
    ring

theorem toInt_roundToFloat64_integral (p : Int) (q : Nat) (hq : 0 < q)
    (hdvd : q ∣ p.natAbs) (hlt : p.natAbs < q * 2 ^ 53) :
    (roundToFloat64 p q).num = Int.tdiv p q * (roundToFloat64 p q).den ∧
    (roundToFloat64 p q).toInt = Int.tdiv p q := by
  obtain ⟨he, hm⟩ := roundToFloat64_integral p q hq hdvd hlt
  have h0 : (roundToFloat64 p q).exp.toNat = 0 := by omega
  have hnum : (roundToFloat64 p q).num = Int.tdiv p q * (roundToFloat64 p q).den := by
    simp only [Float64.num, Float64.den, h0, pow_zero, mul_one]
    rw [hm]
    push_cast
    rfl
  refine ⟨hnum, ?_⟩
  unfold Float64.toInt
  rw [hnum]
  apply Int.mul_tdiv_cancel
  simp [Float64.den]

/-- The seconds of a duration that is a whole number `n` of seconds are `n`
exactly, and the conversion to `int` gives `n`. -/
theorem toInt_Seconds_whole (n : Int) (hn : n.natAbs < 2 ^ 53) :
    (Seconds (n * 1000000000)).toInt = n := by
  have hdiv : Int.tdiv (n * 1000000000) 1000000000 = n :=
    Int.mul_tdiv_cancel n (by norm_num)
  have hmod : Int.tmod (n * 1000000000) 1000000000 = 0 := Int.mul_tmod_left n 1000000000
  have hzero : Float64.div (Float64.ofInt 0) (Float64.ofInt 1000000000)
      = { mant := 0, exp := 0 } := by
    simp [Float64.div, Float64.ofInt, roundToFloat64, Float64.num]
  obtain ⟨hnum, _⟩ := toInt_roundToFloat64_integral n 1 (by norm_num) (one_dvd _) (by omega)
  simp only [Int.tdiv_one, Nat.cast_one] at hnum
  unfold Seconds
  rw [hdiv, hmod, hzero]
  have hadd : Float64.add (Float64.ofInt n) { mant := 0, exp := 0 }
      = roundToFloat64 (Float64.ofInt n).num (Float64.ofInt n).den := by
    simp [Float64.add, Float64.num, Float64.den]
  rw [hadd]
  have hden : 0 < (Float64.ofInt n).den := by simp [Float64.den]
  have hnum2 : (Float64.ofInt n).num = n * ((Float64.ofInt n).den : Int) := by
    simpa [Float64.ofInt] using hnum
  have hdvd : (Float64.ofInt n).den ∣ (Float64.ofInt n).num.natAbs := by
    rw [hnum2, Int.natAbs_mul, Int.natAbs_ofNat]
    exact Dvd.intro_left _ rfl
  have hlt : (Float64.ofInt n).num.natAbs < (Float64.ofInt n).den * 2 ^ 53 := by
    rw [hnum2, Int.natAbs_mul, Int.natAbs_ofNat, Nat.mul_comm]
    exact Nat.mul_lt_mul_of_pos_left hn hden
  rw [(toInt_roundToFloat64_integral _ _ hden hdvd hlt).2, hnum2]
  exact Int.mul_tdiv_cancel n (by exact_mod_cast hden.ne')


theorem floorLog2_lt (p q k : Nat) (hp : 0 < p) (h : p < q * 2 ^ k) :
    floorLog2 p q < (k : Int) := by
  have h1 : 2 ^ (bitLength p - 1) ≤ p := two_pow_bitLengthAux_le p p (le_refl _) (by omega)
  have h2 : q < 2 ^ bitLength q := lt_two_pow_bitLengthAux q q (le_refl _)
  unfold floorLog2
  simp only
  by_cases hl : (bitLength p : Int) - (bitLength q : Int) < k
  · split <;> omega
  · have hl2 : (bitLength p : Int) - (bitLength q : Int) = k := by
      by_contra hne
      have hge : bitLength q + k + 1 ≤ bitLength p := by omega
      have h3 : 2 ^ (bitLength q + k) ≤ 2 ^ (bitLength p - 1) :=
        Nat.pow_le_pow_right (by norm_num) (by omega)
      rw [pow_add] at h3
      have h4 : q * 2 ^ k < 2 ^ bitLength q * 2 ^ k :=
        Nat.mul_lt_mul_of_pos_right h2 (by positivity)
      omega
    rw [hl2]
    have hc : ¬ (q * 2 ^ (k : Int).toNat ≤ p * 2 ^ (-(k : Int)).toNat) := by
      have e1 : (k : Int).toNat = k := Int.toNat_ofNat k
      have e2 : (-(k : Int)).toNat = 0 := by omega
      rw [e1, e2]
      omega
    rw [if_neg hc]
    omega

/-- The rounding of a positive fraction below `2 ^ k`, `k` at most 53: the
mantissa `m` and the shift `S` of the result satisfy `S + k ≥ 53`, the
mantissa is at least the scaled fraction rounded down, and exceeds the scaled
fraction by at most a half. -/
theorem roundToFloat64_bounds (p q k : Nat) (hp : 0 < p) (hq : 0 < q)
    (h : p < q * 2 ^ k) (hk : k ≤ 53) :
    ∃ S m : Nat, 53 ≤ S + k ∧ roundToFloat64 (p : Int) q = { mant := m, exp := -(S : Int) } ∧
      p * 2 ^ S / q ≤ m ∧ 2 * m * q ≤ 2 * (p * 2 ^ S) + q := by
  have hE := floorLog2_lt p q k hp h
  obtain ⟨S, hS⟩ : ∃ S : Nat, 52 - floorLog2 p q = (S : Int) :=
    ⟨(52 - floorLog2 p q).toNat, (Int.toNat_of_nonneg (by omega)).symm⟩
  have hp0 : (p : Int) ≠ 0 := by exact_mod_cast hp.ne'
  have hneg : (-(S : Int)).toNat = 0 := by omega
  have hsign : (p : Int).sign = 1 := Int.sign_eq_one_of_pos (by exact_mod_cast hp)
  have hdm := Nat.div_add_mod (p * 2 ^ S) q
  have hml : p * 2 ^ S / q * q ≤ p * 2 ^ S := Nat.div_mul_le_self _ _
  by_cases hc : q < 2 * (p * 2 ^ S % q) ∨
      (2 * (p * 2 ^ S % q) = q ∧ p * 2 ^ S / q % 2 = 1)
  · refine ⟨S, p * 2 ^ S / q + 1, by omega, ?_, by omega, ?_⟩
    · simp only [roundToFloat64, hp0, if_false, Int.natAbs_ofNat, hS, Int.toNat_ofNat, hneg,
        pow_zero, Nat.mul_one, hc, if_true, hsign, one_mul]
    · have hr : q ≤ 2 * (p * 2 ^ S % q) := by
        rcases hc with h1 | ⟨h1, _⟩ <;> omega
      have : 2 * (p * 2 ^ S / q + 1) * q = 2 * (q * (p * 2 ^ S / q)) + 2 * q := by ring
      rw [this]
      omega
  · refine ⟨S, p * 2 ^ S / q, by omega, ?_, le_refl _, ?_⟩
    · simp only [roundToFloat64, hp0, if_false, Int.natAbs_ofNat, hS, Int.toNat_ofNat, hneg,
        pow_zero, Nat.mul_one, hc, if_false, hsign, one_mul]
    · have : 2 * (p * 2 ^ S / q) * q = 2 * (p * 2 ^ S / q * q) := by ring
      rw [this]
      omega


/-- The conversion of an integer below `2 ^ 53` in magnitude is exact. -/
theorem ofInt_exact (n : Int) (hn : n.natAbs < 2 ^ 53) :
    (Float64.ofInt n).num = n * ((Float64.ofInt n).den : Int) ∧ 0 < (Float64.ofInt n).den := by
  have h := (toInt_roundToFloat64_integral n 1 (by norm_num) (one_dvd _) (by omega)).1
  simp only [Int.tdiv_one, Nat.cast_one] at h
  exact ⟨h, by simp [Float64.den]⟩

theorem num_den_of_mk (m S : Nat) :
    (Float64.mk (m : Int) (-(S : Int))).num = (m : Int) ∧
    (Float64.mk (m : Int) (-(S : Int))).den = 2 ^ S := by
  have h1 : (-(S : Int)).toNat = 0 := by omega
  simp [Float64.num, Float64.den, h1]

/-- The float64 quotient of a number of nanoseconds below one second by `1e9`
stays below one by more than `2 ^ (-30)`. -/
theorem fraction_gap (ns : Nat) (hns : ns < 1000000000) :
    ∃ Cn Cd : Nat,
      (Float64.div (Float64.ofInt ns) (Float64.ofInt 1000000000)).num = (Cn : Int) ∧
      (Float64.div (Float64.ofInt ns) (Float64.ofInt 1000000000)).den = Cd ∧
      0 < Cd ∧ 2 ^ 30 * Cn + Cd < 2 ^ 30 * Cd := by
  obtain ⟨hB, hBd⟩ := ofInt_exact (ns : Int) (by simp; omega)
  obtain ⟨hT, hTd⟩ := ofInt_exact 1000000000 (by norm_num)
  obtain ⟨Bd, hBdef⟩ : ∃ Bd, (Float64.ofInt (ns : Int)).den = Bd := ⟨_, rfl⟩
  obtain ⟨Td, hTdef⟩ : ∃ Td, (Float64.ofInt 1000000000).den = Td := ⟨_, rfl⟩
  rw [hBdef] at hB hBd
  rw [hTdef] at hT hTd
  have hsign : (Float64.ofInt 1000000000).num.sign = 1 := by
    rw [hT]
    exact Int.sign_eq_one_of_pos (by positivity)
  have habs : (Float64.ofInt 1000000000).num.natAbs = 1000000000 * Td := by
    rw [hT]
    simp [Int.natAbs_mul]
  have hdiv : Float64.div (Float64.ofInt ns) (Float64.ofInt 1000000000)
      = roundToFloat64 ((ns * Bd * Td : Nat) : Int) (Bd * (1000000000 * Td)) := by
    unfold Float64.div
    rw [hsign, habs, hB, hBdef, hTdef]
    push_cast
    rw [mul_one]
  rw [hdiv]
  by_cases h0 : ns = 0
  · subst h0
    refine ⟨0, 1, ?_, ?_, by norm_num, by norm_num⟩
    · simp [roundToFloat64, Float64.num]
    · simp [roundToFloat64, Float64.den]
  · have hg : 0 < Bd * Td := Nat.mul_pos hBd hTd
    have hp : 0 < ns * Bd * Td := by
      rw [Nat.mul_assoc]
      exact Nat.mul_pos (by omega) hg
    have hq : 0 < Bd * (1000000000 * Td) := by positivity
    have hlt : ns * Bd * Td < Bd * (1000000000 * Td) * 2 ^ 0 := by
      have e1 : ns * Bd * Td = ns * (Bd * Td) := by ring
      have e2 : Bd * (1000000000 * Td) * 2 ^ 0 = 1000000000 * (Bd * Td) := by ring
      rw [e1, e2]
      exact Nat.mul_lt_mul_of_pos_right hns hg
    obtain ⟨S, m, hS, hround, _, hup⟩ :=
      roundToFloat64_bounds (ns * Bd * Td) (Bd * (1000000000 * Td)) 0 hp hq hlt (by norm_num)
    rw [hround]
    obtain ⟨hnum, hden⟩ := num_den_of_mk m S
    refine ⟨m, 2 ^ S, hnum, hden, by positivity, ?_⟩
    have hcancel : 2 * m * 1000000000 ≤ 2 * (ns * 2 ^ S) + 1000000000 := by
      have e1 : 2 * m * (Bd * (1000000000 * Td)) = (Bd * Td) * (2 * m * 1000000000) := by ring
      have e2 : 2 * (ns * Bd * Td * 2 ^ S) + Bd * (1000000000 * Td)
          = (Bd * Td) * (2 * (ns * 2 ^ S) + 1000000000) := by ring
      rw [e1, e2] at hup
      exact Nat.le_of_mul_le_mul_left hup hg
    have hbig : 2 ^ 53 ≤ 2 ^ S := Nat.pow_le_pow_right (by norm_num) (by omega)
    have hns2 : ns * 2 ^ S ≤ 999999999 * 2 ^ S := Nat.mul_le_mul_right _ (by omega)
    generalize 2 ^ S = Cd at hcancel hbig hns2 ⊢
    generalize ns * Cd = x at hcancel hns2
    omega


/-- The seconds of a duration of `sec` seconds and `ns` nanoseconds, with
`sec` below `2 ^ 24` and `ns` below one second, convert to the integer
`sec`. -/
theorem toInt_Seconds_of_parts (sec ns : Nat) (hsec : sec < 2 ^ 24)
    (hns : ns < 1000000000) :
    (Seconds ((sec * 1000000000 + ns : Nat) : Int)).toInt = (sec : Int) := by
  have hdiv : Int.tdiv ((sec * 1000000000 + ns : Nat) : Int) 1000000000 = (sec : Int) := by
    have e := Int.ofNat_tdiv (sec * 1000000000 + ns) 1000000000
    have : (sec * 1000000000 + ns) / 1000000000 = sec := by omega
    rw [this] at e
    exact_mod_cast e.symm
  have hmod : Int.tmod ((sec * 1000000000 + ns : Nat) : Int) 1000000000 = (ns : Int) := by
    have e := Int.ofNat_tmod (sec * 1000000000 + ns) 1000000000
    have : (sec * 1000000000 + ns) % 1000000000 = ns := by omega
    rw [this] at e
    exact_mod_cast e.symm
  obtain ⟨hA, hAd⟩ := ofInt_exact (sec : Int) (by simp; omega)
  obtain ⟨Cn, Cd, hCn, hCd, hCpos, hgap⟩ := fraction_gap ns hns
  obtain ⟨Ad, hAdef⟩ : ∃ Ad, (Float64.ofInt (sec : Int)).den = Ad := ⟨_, rfl⟩
  rw [hAdef] at hA hAd
  have hadd : Seconds ((sec * 1000000000 + ns : Nat) : Int)
      = roundToFloat64 ((sec * Ad * Cd + Cn * Ad : Nat) : Int) (Ad * Cd) := by
    unfold Seconds
    rw [hdiv, hmod]
    unfold Float64.add
    rw [hA, hCn, hCd, hAdef]
    push_cast
    rfl
  rw [hadd]
  have hCnlt : Cn < Cd := by omega
  by_cases hP : sec * Ad * Cd + Cn * Ad = 0
  · have hs0 : sec = 0 := by
      have h1 : sec * Ad * Cd = 0 := by omega
      rcases Nat.mul_eq_zero.1 h1 with h2 | h2
      · rcases Nat.mul_eq_zero.1 h2 with h3 | h3
        · exact h3
        · omega
      · omega
    rw [hP, hs0]
    simp [roundToFloat64, Float64.toInt, Float64.num]
  · have hQ : 0 < Ad * Cd := Nat.mul_pos hAd hCpos
    have hlt : sec * Ad * Cd + Cn * Ad < Ad * Cd * 2 ^ 24 := by
      have e1 : sec * Ad * Cd + Cn * Ad = Ad * (sec * Cd + Cn) := by ring
      have e2 : Ad * Cd * 2 ^ 24 = Ad * (2 ^ 24 * Cd) := by ring
      rw [e1, e2]
      apply Nat.mul_lt_mul_of_pos_left _ hAd
      have : sec * Cd ≤ (2 ^ 24 - 1) * Cd := Nat.mul_le_mul_right _ (by omega)
      have e3 : 2 ^ 24 * Cd = (2 ^ 24 - 1) * Cd + Cd := by
        have : (2 : Nat) ^ 24 = (2 ^ 24 - 1) + 1 := by norm_num
        conv_lhs => rw [this, Nat.add_mul, Nat.one_mul]
      omega
    obtain ⟨S, m, hS, hround, hlow, hup⟩ :=
      roundToFloat64_bounds (sec * Ad * Cd + Cn * Ad) (Ad * Cd) 24 (by omega) hQ hlt
        (by norm_num)
    rw [hround]
    obtain ⟨hnum, hden⟩ := num_den_of_mk m S
    have hW : 0 < 2 ^ S := by positivity
    have hW29 : 2 ^ 29 ≤ 2 ^ S := Nat.pow_le_pow_right (by norm_num) (by omega)
    have hlo : sec * 2 ^ S ≤ m := by
      refine le_trans ?_ hlow
      rw [Nat.le_div_iff_mul_le hQ]
      have e1 : sec * 2 ^ S * (Ad * Cd) + Cn * Ad * 2 ^ S
          = (sec * Ad * Cd + Cn * Ad) * 2 ^ S := by ring
      omega
    have hhi : m < (sec + 1) * 2 ^ S := by
      by_contra hcon
      have hge : (sec + 1) * 2 ^ S ≤ m := by omega
      obtain ⟨t, ht⟩ : ∃ t, Cd = Cn + t := ⟨Cd - Cn, by omega⟩
      subst ht
      have h1 : 2 * ((sec + 1) * 2 ^ S) * (Ad * (Cn + t)) ≤ 2 * m * (Ad * (Cn + t)) :=
        Nat.mul_le_mul_right _ (Nat.mul_le_mul_left _ hge)
      have h2 := le_trans h1 hup
      have e1 : 2 * ((sec + 1) * 2 ^ S) * (Ad * (Cn + t))
          = Ad * (2 * sec * 2 ^ S * (Cn + t) + 2 * 2 ^ S * Cn + 2 * (2 ^ S * t)) := by ring
      have e2 : 2 * ((sec * Ad * (Cn + t) + Cn * Ad) * 2 ^ S) + Ad * (Cn + t)
          = Ad * (2 * sec * 2 ^ S * (Cn + t) + 2 * 2 ^ S * Cn + (Cn + t)) := by ring
      rw [e1, e2] at h2
      have h3 := Nat.le_of_mul_le_mul_left h2 hAd
      have h4 : 2 ^ 29 * t ≤ 2 ^ S * t := Nat.mul_le_mul_right _ hW29
      generalize 2 ^ S * t = y at h3 h4
      omega
    have hq : m / 2 ^ S = sec := Nat.div_eq_of_lt_le hlo hhi
    unfold Float64.toInt
    rw [hnum, hden, ← Int.ofNat_tdiv, hq]

/-- The seconds of a duration that is not negative and below `2 ^ 24` seconds
convert to the whole seconds of the duration. -/
theorem toInt_Seconds_of_lt (d : Int) (h0 : 0 ≤ d) (hlt : d < 16777216000000000) :
    (Seconds d).toInt = Int.tdiv d 1000000000 := by
  obtain ⟨n, rfl⟩ := Int.eq_ofNat_of_zero_le h0
  have hn : n < 16777216000000000 := by exact_mod_cast hlt
  have hsplit : n = n / 1000000000 * 1000000000 + n % 1000000000 := by omega
  have h := toInt_Seconds_of_parts (n / 1000000000) (n % 1000000000) (by omega) (by omega)
  rw [← hsplit] at h
  rw [h]
  exact Int.ofNat_tdiv n 1000000000

/-! ## Lemmas on the token operator -/

theorem wrapInt64_of_inRange (x : Int) (h1 : -9223372036854775808 ≤ x)
    (h2 : x < 9223372036854775808) : wrapInt64 x = x := by
  unfold wrapInt64
  omega

theorem tokenCacheKey_injective (username a b : String)
    (h : tokenCacheKey username a = tokenCacheKey username b) : a = b := by
  have hd := congrArg String.data h
  simp only [tokenCacheKey, String.data_append, List.append_assoc] at hd
  have := List.append_cancel_left hd
  exact String.ext (List.append_cancel_left (List.append_cancel_left this))

theorem listCache_contract : CacheContract listCache listCacheHolds listCacheMatch where
  keys_lists := by
    intro c pattern keys h k
    simp only [listCache, Except.ok.injEq] at h
    subst h
    simp [listCacheHolds, listCacheMatch, List.mem_filter]
  keys_frame := by
    intro c pattern k
    rfl
  del_removes := by
    intro c keys _ k
    simp only [listCache, listCacheHolds, List.mem_map, List.mem_filter, Prod.exists,
      exists_and_right, exists_eq_right, Bool.not_eq_true', List.contains_eq_any_beq,
      List.any_eq_false, beq_iff_eq]
    constructor
    · rintro ⟨hmem, hnot⟩
      exact ⟨hmem, fun hk => hnot k hk rfl⟩
    · rintro ⟨hmem, hnot⟩
      exact ⟨hmem, fun x hx hxk => hnot (hxk ▸ hx)⟩
  set_adds := by
    intro c key value duration _ k
    simp only [listCache, listCacheHolds, List.map_cons, List.mem_cons, List.mem_map,
      List.mem_filter, Prod.exists, exists_and_right, exists_eq_right, bne_iff_ne, ne_eq]
    constructor
    · rintro (h | ⟨hmem, _⟩)
      · exact Or.inl h
      · exact Or.inr hmem
    · rintro (h | hmem)
      · exact Or.inl h
      · by_cases hk : k = key
        · exact Or.inl hk
        · exact Or.inr ⟨hmem, hk⟩
  exists_reads := by
    intro c key found h
    simp only [listCache, Except.ok.injEq] at h
    subst h
    simp [listCacheHolds]
  exists_frame := by
    intro c key k
    rfl

theorem listCacheMatch_userTokenPattern (username token : String) :
    listCacheMatch (userTokenPattern username) (tokenCacheKey username token) := by
  have hp : (userTokenPattern username).data.reverse
      = '*' :: ("kubesphere:user:" ++ username ++ ":token:").data.reverse := by
    simp [userTokenPattern, String.data_append]
  simp only [listCacheMatch, matchesPattern, hp, List.length_reverse, List.reverse_reverse,
    tokenCacheKey, String.data_append, decide_eq_true_eq]
  exact List.take_left' rfl


/-- The run of `IssueTo` once both issuer calls have succeeded (lines 94 to
119). -/
theorem issueTo_of_issued {S : Type} (t : tokenOperator S) (user : UserInfo)
    (s : CacheState S) (o : OAuthOptions) (accessToken refreshToken : String)
    (ho : t.options.OAuthOptions = some o)
    (ha : t.issuer.IssueTo user AccessToken o.AccessTokenMaxAge = .ok accessToken)
    (hr : t.issuer.IssueTo user RefreshToken
      (wrapInt64 (o.AccessTokenMaxAge + o.AccessTokenInactivityTimeout)) = .ok refreshToken) :
    IssueTo t user s =
      match (if !t.options.MultipleLogin then RevokeAllUserTokens t user.Name s
             else (none, s)) with
      | (some err, s1) => (.returned (.error err), s1)
      | (none, s1) =>
        if o.AccessTokenMaxAge > 0 then
          match cacheToken t user.Name accessToken o.AccessTokenMaxAge s1 with
          | (some err, s2) => (.returned (.error err), s2)
          | (none, s2) =>
            match cacheToken t user.Name refreshToken
                (wrapInt64 (o.AccessTokenMaxAge + o.AccessTokenInactivityTimeout)) s2 with
            | (some err, s3) => (.returned (.error err), s3)
            | (none, s3) =>
              (.returned (.ok { AccessToken := accessToken, TokenType := "Bearer",
                                RefreshToken := refreshToken,
                                ExpiresIn := (Seconds o.AccessTokenMaxAge).toInt }), s3)
        else
          (.returned (.ok { AccessToken := accessToken, TokenType := "Bearer",
                            RefreshToken := refreshToken,
                            ExpiresIn := (Seconds o.AccessTokenMaxAge).toInt }), s1) := by
  simp only [IssueTo, ho, ha, hr]

/-- A successful `IssueTo` returns the token built from the two issued
strings. -/
theorem issueTo_ok_token {S : Type} (t : tokenOperator S) (user : UserInfo)
    (s : CacheState S) (o : OAuthOptions) (token : Token)
    (ho : t.options.OAuthOptions = some o)
    (h : (IssueTo t user s).1 = .returned (.ok token)) :
    t.issuer.IssueTo user AccessToken o.AccessTokenMaxAge = .ok token.AccessToken ∧
    t.issuer.IssueTo user RefreshToken
      (wrapInt64 (o.AccessTokenMaxAge + o.AccessTokenInactivityTimeout))
        = .ok token.RefreshToken ∧
    token.TokenType = "Bearer" ∧
    token.ExpiresIn = (Seconds o.AccessTokenMaxAge).toInt := by
  rcases ha : t.issuer.IssueTo user AccessToken o.AccessTokenMaxAge with e | accessToken
  · simp [IssueTo, ho, ha] at h
  · rcases hr : t.issuer.IssueTo user RefreshToken
        (wrapInt64 (o.AccessTokenMaxAge + o.AccessTokenInactivityTimeout)) with e | refreshToken
    · simp [IssueTo, ho, ha, hr] at h
    · rw [issueTo_of_issued t user s o accessToken refreshToken ho ha hr] at h
      have key : ∀ tk : Token, IssueOutcome.returned (Except.ok tk)
          = IssueOutcome.returned (Except.ok token) → tk = token := by
        intro tk htk
        injection htk with h1
        injection h1
      split at h
      · simp at h
      · split at h
        · split at h
          · simp at h
          · split at h
            · simp at h
            · have := key _ h
              subst this
              exact ⟨rfl, rfl, rfl, rfl⟩
        · have := key _ h
          subst this
          exact ⟨rfl, rfl, rfl, rfl⟩


section Contract

variable {S : Type} {holds : S → String → Prop} {isMatch : String → String → Prop}

/-- Under the cache contract, a revocation that returns nil leaves exactly the
keys held before that do not match the pattern of the user. -/
theorem revoke_holds (t : tokenOperator S) (hc : CacheContract t.cache holds isMatch)
    (username : String) (s : CacheState S)
    (hrev : (RevokeAllUserTokens t username s).1 = none) (k : String) :
    holds (RevokeAllUserTokens t username s).2.cache k ↔
      holds s.cache k ∧ ¬ isMatch (userTokenPattern username) k := by
  rcases hk : (t.cache.Keys s.cache (userTokenPattern username)).1 with e | keys
  · simp [RevokeAllUserTokens, hk] at hrev
  · have hlist := hc.keys_lists s.cache (userTokenPattern username) keys hk
    have hframe := hc.keys_frame s.cache (userTokenPattern username)
    by_cases hlen : keys.length > 0
    · have hdel : (t.cache.Del (t.cache.Keys s.cache (userTokenPattern username)).2 keys).1
          = none := by
        simpa [RevokeAllUserTokens, hk, hlen] using hrev
      have hrem := hc.del_removes _ keys hdel k
      simp only [RevokeAllUserTokens, hk, hlen, if_true]
      rw [hrem, hframe k, hlist k]
      tauto
    · have hnil : keys = [] := by
        cases keys with
        | nil => rfl
        | cons a l => simp at hlen
      subst hnil
      simp only [RevokeAllUserTokens, hk, List.length_nil, gt_iff_lt, lt_self_iff_false,
        if_false]
      rw [hframe k]
      have := hlist k
      simp only [List.not_mem_nil, false_iff, not_and] at this
      tauto

/-- The calls of a revocation: `Keys` on the pattern of the user, followed by
one `Del` of the listed keys when the list is not empty. -/
theorem revoke_calls (t : tokenOperator S) (username : String) (s : CacheState S) :
    cacheCallsMade s (RevokeAllUserTokens t username s).2
        = [CacheCall.Keys (userTokenPattern username)] ∨
    ∃ keys, (t.cache.Keys s.cache (userTokenPattern username)).1 = .ok keys ∧ keys ≠ [] ∧
      cacheCallsMade s (RevokeAllUserTokens t username s).2
        = [CacheCall.Keys (userTokenPattern username), CacheCall.Del keys] := by
  rcases hk : (t.cache.Keys s.cache (userTokenPattern username)).1 with e | keys
  · left
    simp [RevokeAllUserTokens, hk, cacheCallsMade]
  · by_cases hlen : keys.length > 0
    · right
      refine ⟨keys, rfl, ?_, ?_⟩
      · intro h
        subst h
        simp at hlen
      · simp [RevokeAllUserTokens, hk, hlen, cacheCallsMade]
    · left
      simp [RevokeAllUserTokens, hk, hlen, cacheCallsMade]

/-- Under the cache contract, a successful `cacheToken` adds the key of the
token and keeps every other key. -/
theorem cacheToken_holds (t : tokenOperator S) (hc : CacheContract t.cache holds isMatch)
    (username token : String) (duration : Duration) (s : CacheState S)
    (h : (cacheToken t username token duration s).1 = none) (k : String) :
    holds (cacheToken t username token duration s).2.cache k ↔
      k = tokenCacheKey username token ∨ holds s.cache k :=
  hc.set_adds s.cache (tokenCacheKey username token) token duration h k

theorem cacheToken_calls (t : tokenOperator S) (username token : String)
    (duration : Duration) (s : CacheState S) :
    (cacheToken t username token duration s).2.calls
      = s.calls ++ [CacheCall.Set (tokenCacheKey username token) token duration] :=
  rfl

theorem revoke_calls_prefix (t : tokenOperator S) (username : String) (s : CacheState S) :
    ∃ l, (RevokeAllUserTokens t username s).2.calls = s.calls ++ l := by
  rcases hk : (t.cache.Keys s.cache (userTokenPattern username)).1 with e | keys
  · exact ⟨[CacheCall.Keys (userTokenPattern username)], by simp [RevokeAllUserTokens, hk]⟩
  · by_cases hlen : keys.length > 0
    · exact ⟨[CacheCall.Keys (userTokenPattern username), CacheCall.Del keys],
        by simp [RevokeAllUserTokens, hk, hlen]⟩
    · exact ⟨[CacheCall.Keys (userTokenPattern username)],
        by simp [RevokeAllUserTokens, hk, hlen]⟩

/-- Under the cache contract, the keys held after a successful `IssueTo`: the
keys of the two new tokens when the lifetime is positive, and the keys held
before, except, under single login, those that match the pattern of the
user. -/
theorem issueTo_holds (t : tokenOperator S) (hc : CacheContract t.cache holds isMatch)
    (user : UserInfo) (s : CacheState S) (o : OAuthOptions) (token : Token)
    (ho : t.options.OAuthOptions = some o)
    (h : (IssueTo t user s).1 = .returned (.ok token)) (k : String) :
    holds (IssueTo t user s).2.cache k ↔
      (0 < o.AccessTokenMaxAge ∧
        (k = tokenCacheKey user.Name token.AccessToken ∨
          k = tokenCacheKey user.Name token.RefreshToken)) ∨
      (holds s.cache k ∧
        (t.options.MultipleLogin = false → ¬ isMatch (userTokenPattern user.Name) k)) := by
  obtain ⟨ha, hr, _, _⟩ := issueTo_ok_token t user s o token ho h
  rw [issueTo_of_issued t user s o _ _ ho ha hr] at h ⊢
  have hrevoked : ∀ r : Option GoError × CacheState S,
      r = (if !t.options.MultipleLogin then RevokeAllUserTokens t user.Name s else (none, s)) →
      r.1 = none →
      (holds r.2.cache k ↔ holds s.cache k ∧
        (t.options.MultipleLogin = false → ¬ isMatch (userTokenPattern user.Name) k)) := by
    intro r hr1 hr2
    cases hm : t.options.MultipleLogin
    · simp only [hm, Bool.not_false, if_true] at hr1
      subst hr1
      rw [revoke_holds t hc user.Name s hr2 k]
      simp
    · simp only [hm, Bool.not_true, Bool.false_eq_true, if_false] at hr1
      subst hr1
      simp
  generalize hrv : (if !t.options.MultipleLogin then RevokeAllUserTokens t user.Name s
    else (none, s)) = revoked at h ⊢
  rcases revoked with ⟨e1, s1⟩
  cases e1 with
  | some err => simp at h
  | none =>
    have h1 := hrevoked (none, s1) hrv.symm rfl
    simp only at h1 h ⊢
    by_cases hage : o.AccessTokenMaxAge > 0
    · simp only [hage, if_true] at h ⊢
      rcases hca : cacheToken t user.Name token.AccessToken o.AccessTokenMaxAge s1 with ⟨e2, s2⟩
      rw [hca] at h
      cases e2 with
      | some err => simp at h
      | none =>
        simp only at h ⊢
        rcases hcr : cacheToken t user.Name token.RefreshToken
            (wrapInt64 (o.AccessTokenMaxAge + o.AccessTokenInactivityTimeout)) s2 with ⟨e3, s3⟩
        rw [hcr] at h
        cases e3 with
        | some err => simp at h
        | none =>
          simp only
          have h2 := cacheToken_holds t hc user.Name token.AccessToken o.AccessTokenMaxAge s1
            (by rw [hca]) k
          have h3 := cacheToken_holds t hc user.Name token.RefreshToken
            (wrapInt64 (o.AccessTokenMaxAge + o.AccessTokenInactivityTimeout)) s2
            (by rw [hcr]) k
          rw [hca] at h2
          rw [hcr] at h3
          simp only at h2 h3
          rw [h3, h2, h1]
          have : (0 : Int) < o.AccessTokenMaxAge := hage
          tauto
    · simp only [hage, if_false]
      rw [h1]
      have : ¬ (0 : Int) < o.AccessTokenMaxAge := hage
      tauto

/-- Under the cache contract, `Verify` on a token the issuer accepts as a
token that is not static, the lifetime not being zero: it returns the user when
the key of the token is held and the lookup does not fail, and an error when
the key is not held. -/
theorem verify_of_holds (t : tokenOperator S) (hc : CacheContract t.cache holds isMatch)
    (tokenStr : String) (s : CacheState S) (o : OAuthOptions)
    (authenticated : UserInfo) (tokenType : TokenType)
    (ho : t.options.OAuthOptions = some o)
    (hv : t.issuer.Verify tokenStr = .ok (authenticated, tokenType)) :
    (holds s.cache (tokenCacheKey authenticated.Name tokenStr) →
      (∀ e, (t.cache.Exists s.cache (tokenCacheKey authenticated.Name tokenStr)).1
        ≠ .error e) →
      (Verify t tokenStr s).1 = .ok authenticated) ∧
    (¬ holds s.cache (tokenCacheKey authenticated.Name tokenStr) →
      o.AccessTokenMaxAge ≠ 0 → tokenType ≠ StaticToken →
      ∃ e, (Verify t tokenStr s).1 = .error e) := by
  refine ⟨?_, ?_⟩
  · intro hheld hne
    by_cases hun : (o.AccessTokenMaxAge == 0 || tokenType == StaticToken) = true
    · simp [Verify, hv, ho, hun]
    · rcases hex : (t.cache.Exists s.cache (tokenCacheKey authenticated.Name tokenStr)).1
        with e | found
      · exact absurd hex (hne e)
      · have hfound : found = true :=
          (hc.exists_reads s.cache _ found hex).2 hheld
        subst hfound
        simp [Verify, hv, ho, hun, tokenCacheValidate, hex]
  · intro hnot hage hty
    have hun : (o.AccessTokenMaxAge == 0 || tokenType == StaticToken) = false := by
      simp [hage, hty]
    rcases hex : (t.cache.Exists s.cache (tokenCacheKey authenticated.Name tokenStr)).1
      with e | found
    · exact ⟨e, by simp [Verify, hv, ho, hun, tokenCacheValidate, hex]⟩
    · have hfound : found = false := by
        cases found with
        | false => rfl
        | true => exact absurd ((hc.exists_reads s.cache _ true hex).1 rfl) hnot
      subst hfound
      exact ⟨tokenNotFoundError, by simp [Verify, hv, ho, hun, tokenCacheValidate, hex]⟩

end Contract

/-- Under multiple login the calls of `IssueTo` on the cache are `Set` calls
only. -/
theorem issueTo_calls_multipleLogin {S : Type} (t : tokenOperator S) (user : UserInfo)
    (s : CacheState S) (hm : t.options.MultipleLogin = true) :
    ∃ l, (IssueTo t user s).2.calls = s.calls ++ l ∧
      ∀ call ∈ l, ∃ key value duration, call = CacheCall.Set key value duration := by
  rcases ho : t.options.OAuthOptions with _ | o
  · exact ⟨[], by simp [IssueTo, ho], by simp⟩
  · rcases ha : t.issuer.IssueTo user AccessToken o.AccessTokenMaxAge with e | accessToken
    · exact ⟨[], by simp [IssueTo, ho, ha], by simp⟩
    · rcases hr : t.issuer.IssueTo user RefreshToken
          (wrapInt64 (o.AccessTokenMaxAge + o.AccessTokenInactivityTimeout)) with e | refreshToken
      · exact ⟨[], by simp [IssueTo, ho, ha, hr], by simp⟩
      · rw [issueTo_of_issued t user s o accessToken refreshToken ho ha hr]
        simp only [hm, Bool.not_true, Bool.false_eq_true, if_false]
        by_cases hage : o.AccessTokenMaxAge > 0
        · simp only [hage, if_true]
          rcases hca : cacheToken t user.Name accessToken o.AccessTokenMaxAge s with ⟨e2, s2⟩
          have hc2 : s2.calls = s.calls ++
              [CacheCall.Set (tokenCacheKey user.Name accessToken) accessToken
                o.AccessTokenMaxAge] := by
            have := cacheToken_calls t user.Name accessToken o.AccessTokenMaxAge s
            rw [hca] at this
            exact this
          cases e2 with
          | some err => exact ⟨_, hc2, by simp⟩
          | none =>
            simp only
            rcases hcr : cacheToken t user.Name refreshToken
                (wrapInt64 (o.AccessTokenMaxAge + o.AccessTokenInactivityTimeout)) s2
              with ⟨e3, s3⟩
            have hc3 : s3.calls = s2.calls ++
                [CacheCall.Set (tokenCacheKey user.Name refreshToken) refreshToken
                  (wrapInt64 (o.AccessTokenMaxAge + o.AccessTokenInactivityTimeout))] := by
              have := cacheToken_calls t user.Name refreshToken
                (wrapInt64 (o.AccessTokenMaxAge + o.AccessTokenInactivityTimeout)) s2
              rw [hcr] at this
              exact this
            have hall : s3.calls = s.calls ++
                [CacheCall.Set (tokenCacheKey user.Name accessToken) accessToken
                  o.AccessTokenMaxAge,
                 CacheCall.Set (tokenCacheKey user.Name refreshToken) refreshToken
                  (wrapInt64 (o.AccessTokenMaxAge + o.AccessTokenInactivityTimeout))] := by
              rw [hc3, hc2, List.append_assoc]
              rfl
            cases e3 with
            | some err => exact ⟨_, hall, by simp⟩
            | none => exact ⟨_, hall, by simp⟩
        · simp only [hage, if_false]
          exact ⟨[], by simp, by simp⟩

set_option maxRecDepth 100000

/-- Counterexample to C21: with an access token lifetime of
16777216.999999999 seconds, `IssueTo` succeeds and returns `ExpiresIn` equal
to 16777217, one more than the lifetime in whole seconds: the float64 sum of
`Seconds` rounds up to the next integer. -/
theorem expiresIn_rounds_up :
    (IssueTo (loginOperator longLivedOptions) alice (cacheWith [])).1
      = .returned (.ok { AccessToken := "access_token:alice", TokenType := "Bearer",
                         RefreshToken := "refresh_token:alice", ExpiresIn := 16777217 }) ∧
    Int.tdiv 16777216999999999 1000000000 = 16777216 :=
  ⟨rfl, by decide⟩

/-- C21 as amended: with the OAuth options present, when an issuer call fails
`IssueTo` returns that error, no token, and leaves the cache and its call log
as they were. When `IssueTo` succeeds, its token has type `Bearer`, its access
token is the one the issuer issued for the lifetime `AccessTokenMaxAge`, its
refresh token the one issued for the `int64` sum of `AccessTokenMaxAge` and
`AccessTokenInactivityTimeout`, and `ExpiresIn` is the float64 value
`AccessTokenMaxAge.Seconds()` cut to an integer; and `IssueTo` does succeed,
with that token, when both issuer calls succeed and the cache does not fail.
`ExpiresIn` is `AccessTokenMaxAge` in whole seconds whenever the lifetime is a
whole number of seconds, and whenever it is not negative and below `2 ^ 24`
seconds (16777216 s, about 194 days); the `int64` sum is the sum when that is
in range. -/
theorem issueTo_returns_bearer_token {S : Type} (t : tokenOperator S) (user : UserInfo)
    (s : CacheState S) (o : OAuthOptions) (ho : t.options.OAuthOptions = some o) :
    (∀ err, t.issuer.IssueTo user AccessToken o.AccessTokenMaxAge = .error err →
      IssueTo t user s = (.returned (.error err), s)) ∧
    (∀ accessToken err,
      t.issuer.IssueTo user AccessToken o.AccessTokenMaxAge = .ok accessToken →
      t.issuer.IssueTo user RefreshToken
        (wrapInt64 (o.AccessTokenMaxAge + o.AccessTokenInactivityTimeout)) = .error err →
      IssueTo t user s = (.returned (.error err), s)) ∧
    (∀ token, (IssueTo t user s).1 = .returned (.ok token) →
      token.TokenType = "Bearer" ∧
      t.issuer.IssueTo user AccessToken o.AccessTokenMaxAge = .ok token.AccessToken ∧
      t.issuer.IssueTo user RefreshToken
        (wrapInt64 (o.AccessTokenMaxAge + o.AccessTokenInactivityTimeout))
          = .ok token.RefreshToken ∧
      token.ExpiresIn = (Seconds o.AccessTokenMaxAge).toInt) ∧
    (∀ accessToken refreshToken,
      t.issuer.IssueTo user AccessToken o.AccessTokenMaxAge = .ok accessToken →
      t.issuer.IssueTo user RefreshToken
        (wrapInt64 (o.AccessTokenMaxAge + o.AccessTokenInactivityTimeout)) = .ok refreshToken →
      (∀ c pattern, ∃ keys, (t.cache.Keys c pattern).1 = .ok keys) →
      (∀ c keys, (t.cache.Del c keys).1 = none) →
      (∀ c key value duration, (t.cache.Set c key value duration).1 = none) →
      (IssueTo t user s).1
        = .returned (.ok { AccessToken := accessToken, TokenType := "Bearer",
                           RefreshToken := refreshToken,
                           ExpiresIn := (Seconds o.AccessTokenMaxAge).toInt })) ∧
    (∀ n : Int, n.natAbs < 2 ^ 53 → o.AccessTokenMaxAge = n * 1000000000 →
      (Seconds o.AccessTokenMaxAge).toInt = n) ∧
    (0 ≤ o.AccessTokenMaxAge → o.AccessTokenMaxAge < 16777216000000000 →
      (Seconds o.AccessTokenMaxAge).toInt = Int.tdiv o.AccessTokenMaxAge 1000000000) ∧
    (-9223372036854775808 ≤ o.AccessTokenMaxAge + o.AccessTokenInactivityTimeout →
      o.AccessTokenMaxAge + o.AccessTokenInactivityTimeout < 9223372036854775808 →
      wrapInt64 (o.AccessTokenMaxAge + o.AccessTokenInactivityTimeout)
        = o.AccessTokenMaxAge + o.AccessTokenInactivityTimeout) := by
  refine ⟨?_, ?_, ?_, ?_, ?_, ?_, ?_⟩
  · intro err ha
    simp [IssueTo, ho, ha]
  · intro accessToken err ha hr
    simp [IssueTo, ho, ha, hr]
  · intro token h
    obtain ⟨h1, h2, h3, h4⟩ := issueTo_ok_token t user s o token ho h
    exact ⟨h3, h1, h2, h4⟩
  · intro accessToken refreshToken ha hr hkeys hdel hset
    rw [issueTo_of_issued t user s o accessToken refreshToken ho ha hr]
    have hrev : ∀ s0 : CacheState S, (RevokeAllUserTokens t user.Name s0).1 = none := by
      intro s0
      obtain ⟨keys, hk⟩ := hkeys s0.cache (userTokenPattern user.Name)
      by_cases hlen : keys.length > 0
      · simp [RevokeAllUserTokens, hk, hlen, hdel]
      · simp [RevokeAllUserTokens, hk, hlen]
    have hcache : ∀ (tok : String) (d : Duration) (s0 : CacheState S),
        (cacheToken t user.Name tok d s0).1 = none := by
      intro tok d s0
      exact hset _ _ _ _
    have hrevoked : ∃ s1, (if !t.options.MultipleLogin then RevokeAllUserTokens t user.Name s
        else (none, s)) = (none, s1) := by
      cases t.options.MultipleLogin
      · exact ⟨(RevokeAllUserTokens t user.Name s).2, Prod.ext (hrev s) rfl⟩
      · exact ⟨s, rfl⟩
    obtain ⟨s1, hs1⟩ := hrevoked
    rw [hs1]
    by_cases hage : o.AccessTokenMaxAge > 0
    · have h2 : cacheToken t user.Name accessToken o.AccessTokenMaxAge s1
          = (none, (cacheToken t user.Name accessToken o.AccessTokenMaxAge s1).2) :=
        Prod.ext (hcache _ _ _) rfl
      have h3 : ∀ s2, cacheToken t user.Name refreshToken
          (wrapInt64 (o.AccessTokenMaxAge + o.AccessTokenInactivityTimeout)) s2
          = (none, (cacheToken t user.Name refreshToken
              (wrapInt64 (o.AccessTokenMaxAge + o.AccessTokenInactivityTimeout)) s2).2) :=
        fun s2 => Prod.ext (hcache _ _ _) rfl
      simp only [hage, if_true]
      rw [h2]
      simp only
      rw [h3]
    · simp only [hage, if_false]
  · intro n hn hd
    rw [hd]
    exact toInt_Seconds_whole n hn
  · intro h0 hlt
    exact toInt_Seconds_of_lt _ h0 hlt
  · intro h1 h2
    exact wrapInt64_of_inRange _ h1 h2

/-- Witness of C21 as amended: a login of `alice` with a lifetime of two hours
and an inactivity timeout of one hour gives a bearer token that expires in
7200 seconds; with an issuer that fails on refresh tokens, `IssueTo` returns
the error and the cache is untouched. -/
theorem issueTo_returns_bearer_token_witness :
    (IssueTo (loginOperator multipleLoginOptions) alice (cacheWith [])).1
      = .returned (.ok { AccessToken := "access_token:alice", TokenType := "Bearer",
                         RefreshToken := "refresh_token:alice", ExpiresIn := 7200 }) ∧
    IssueTo { loginOperator multipleLoginOptions with issuer := accessOnlyIssuer } alice
        (cacheWith [])
      = (.returned (.error (.errorString "signing failed")), cacheWith []) :=
  ⟨(issueTo_returns_bearer_token (loginOperator multipleLoginOptions) alice (cacheWith [])
      { AccessTokenMaxAge := 7200000000000, AccessTokenInactivityTimeout := 3600000000000 }
      rfl).2.2.2.1 "access_token:alice" "refresh_token:alice" rfl rfl
      (fun _ _ => ⟨_, rfl⟩) (fun _ _ => rfl) (fun _ _ _ _ => rfl),
   (issueTo_returns_bearer_token
      { loginOperator multipleLoginOptions with issuer := accessOnlyIssuer } alice
      (cacheWith [])
      { AccessTokenMaxAge := 7200000000000, AccessTokenInactivityTimeout := 3600000000000 }
      rfl).2.1 "access_token:alice" (.errorString "signing failed") rfl rfl⟩

/-- C22: under the contract of the cache, after `RevokeAllUserTokens` for a
user returned nil the cache holds no key that matches the pattern
`kubesphere:user:<user>:token:*`; hence, the access token lifetime not being
zero, `Verify` returns an error for every token of that user that is not
static and whose key the pattern covers. `Del` is not called when no held key
matches, and the calls of a revocation are `Keys` on the pattern, followed by
one `Del` of the listed keys only when the list is not empty. -/
theorem revokeAllUserTokens_revokes {S : Type} {holds : S → String → Prop}
    {isMatch : String → String → Prop} (t : tokenOperator S)
    (hc : CacheContract t.cache holds isMatch) (username : String) (s : CacheState S) :
    ((RevokeAllUserTokens t username s).1 = none →
      (∀ k, isMatch (userTokenPattern username) k →
        ¬ holds (RevokeAllUserTokens t username s).2.cache k) ∧
      (∀ tokenStr user tokenType o,
        t.issuer.Verify tokenStr = .ok (user, tokenType) → user.Name = username →
        tokenType ≠ StaticToken →
        t.options.OAuthOptions = some o → o.AccessTokenMaxAge ≠ 0 →
        isMatch (userTokenPattern username) (tokenCacheKey username tokenStr) →
        ∃ e, (Verify t tokenStr (RevokeAllUserTokens t username s).2).1 = .error e)) ∧
    ((∀ k, holds s.cache k → ¬ isMatch (userTokenPattern username) k) →
      ∀ keys, CacheCall.Del keys ∉ cacheCallsMade s (RevokeAllUserTokens t username s).2) ∧
    (cacheCallsMade s (RevokeAllUserTokens t username s).2
        = [CacheCall.Keys (userTokenPattern username)] ∨
      ∃ keys, (t.cache.Keys s.cache (userTokenPattern username)).1 = .ok keys ∧ keys ≠ [] ∧
        cacheCallsMade s (RevokeAllUserTokens t username s).2
          = [CacheCall.Keys (userTokenPattern username), CacheCall.Del keys]) := by
  refine ⟨?_, ?_, revoke_calls t username s⟩
  · intro hrev
    have hnone : ∀ k, isMatch (userTokenPattern username) k →
        ¬ holds (RevokeAllUserTokens t username s).2.cache k := by
      intro k hm hh
      exact ((revoke_holds t hc username s hrev k).1 hh).2 hm
    refine ⟨hnone, ?_⟩
    intro tokenStr user tokenType o hv hname hty ho hage hm
    subst hname
    exact (verify_of_holds t hc tokenStr _ o user tokenType ho hv).2
      (hnone _ hm) hage hty
  · intro hno keys hmem
    rcases revoke_calls t username s with h | ⟨ks, hk, hne, h⟩
    · rw [h] at hmem
      simp at hmem
    · apply hne
      cases ks with
      | nil => rfl
      | cons a l =>
        have ha := (hc.keys_lists s.cache (userTokenPattern username) (a :: l) hk a).1
          (List.mem_cons_self a l)
        exact absurd ha.2 (hno a ha.1)

/-- Witness of C22: the list cache holds two tokens of `alice` and one of
`bob`; after the revocation for `alice` only the key of `bob` is left, the key
of the access token of `alice` is not held, and `Verify` rejects that token. -/
theorem revokeAllUserTokens_revokes_witness :
    (RevokeAllUserTokens (loginOperator cachingOptions) "alice" sharedCache).2.cache
      = [("kubesphere:user:bob:token:access_token:bob", "access_token:bob")] ∧
    ¬ listCacheHolds
      (RevokeAllUserTokens (loginOperator cachingOptions) "alice" sharedCache).2.cache
      "kubesphere:user:alice:token:access_token:alice" ∧
    ∃ e, (Verify (loginOperator cachingOptions) "access_token:alice"
      (RevokeAllUserTokens (loginOperator cachingOptions) "alice" sharedCache).2).1
        = .error e :=
  have h := (revokeAllUserTokens_revokes (loginOperator cachingOptions) listCache_contract
    "alice" sharedCache).1 rfl
  ⟨rfl, h.1 _ (listCacheMatch_userTokenPattern "alice" "access_token:alice"),
   h.2 "access_token:alice" alice AccessToken
    { AccessTokenMaxAge := 7200000000000, AccessTokenInactivityTimeout := 0 }
    rfl rfl (by decide) rfl (by decide)
    (listCacheMatch_userTokenPattern "alice" "access_token:alice")⟩

/-- C25: under the contract of the cache, with the OAuth options present and
an access token lifetime that is not negative, after a successful `IssueTo`
for a user the keys of the returned access token and refresh token are held
when the lifetime is positive, and `Verify` on either token returns the user
the issuer authenticates whenever the issuer accepts the token for a user of
that name and the lookup in the cache does not fail. -/
theorem issueTo_verify_roundTrip {S : Type} {holds : S → String → Prop}
    {isMatch : String → String → Prop} (t : tokenOperator S)
    (hc : CacheContract t.cache holds isMatch) (user : UserInfo) (s : CacheState S)
    (o : OAuthOptions) (token : Token)
    (ho : t.options.OAuthOptions = some o) (hage : 0 ≤ o.AccessTokenMaxAge)
    (hissue : (IssueTo t user s).1 = .returned (.ok token)) :
    (0 < o.AccessTokenMaxAge →
      holds (IssueTo t user s).2.cache (tokenCacheKey user.Name token.AccessToken) ∧
      holds (IssueTo t user s).2.cache (tokenCacheKey user.Name token.RefreshToken)) ∧
    (∀ tokenStr authenticated tokenType,
      tokenStr = token.AccessToken ∨ tokenStr = token.RefreshToken →
      t.issuer.Verify tokenStr = .ok (authenticated, tokenType) →
      authenticated.Name = user.Name →
      (∀ e, (t.cache.Exists (IssueTo t user s).2.cache
        (tokenCacheKey user.Name tokenStr)).1 ≠ .error e) →
      (Verify t tokenStr (IssueTo t user s).2).1 = .ok authenticated) := by
  have hheld : 0 < o.AccessTokenMaxAge →
      holds (IssueTo t user s).2.cache (tokenCacheKey user.Name token.AccessToken) ∧
      holds (IssueTo t user s).2.cache (tokenCacheKey user.Name token.RefreshToken) := by
    intro hpos
    exact ⟨(issueTo_holds t hc user s o token ho hissue _).2 (Or.inl ⟨hpos, Or.inl rfl⟩),
      (issueTo_holds t hc user s o token ho hissue _).2 (Or.inl ⟨hpos, Or.inr rfl⟩)⟩
  refine ⟨hheld, ?_⟩
  intro tokenStr authenticated tokenType htok hv hname hlookup
  by_cases hzero : o.AccessTokenMaxAge = 0
  · simp [Verify, hv, ho, hzero]
  · have hpos : 0 < o.AccessTokenMaxAge := lt_of_le_of_ne hage (Ne.symm hzero)
    have hk : holds (IssueTo t user s).2.cache (tokenCacheKey authenticated.Name tokenStr) := by
      rw [hname]
      rcases htok with h | h
      · rw [h]
        exact (hheld hpos).1
      · rw [h]
        exact (hheld hpos).2
    exact (verify_of_holds t hc tokenStr _ o authenticated tokenType ho hv).1 hk
      (by rw [hname]; exact hlookup)

/-- Witness of C25: after the first login of `alice`, with a lifetime of two
hours, `Verify` returns `alice` for the access token and for the refresh
token. -/
theorem issueTo_verify_roundTrip_witness :
    (Verify (loginOperator cachingOptions) "access_token:alice" firstLogin.2).1 = .ok alice ∧
    (Verify (loginOperator cachingOptions) "refresh_token:alice" firstLogin.2).1 = .ok alice :=
  have h := (issueTo_verify_roundTrip (loginOperator cachingOptions) listCache_contract alice
    (cacheWith [])
    { AccessTokenMaxAge := 7200000000000, AccessTokenInactivityTimeout := 0 }
    { AccessToken := "access_token:alice", TokenType := "Bearer",
      RefreshToken := "refresh_token:alice", ExpiresIn := 7200 }
    rfl (by decide) rfl).2
  ⟨h "access_token:alice" alice AccessToken (Or.inl rfl) rfl rfl
      (fun e he => by cases he),
   h "refresh_token:alice" alice RefreshToken (Or.inr rfl) rfl rfl
      (fun e he => by cases he)⟩

/-- Counterexample to C26: under single login, with an issuer that is a
function of its arguments, the second login of `alice` issues the access token
of her first login again. That token was cached for `alice` before the second
call, and `Verify` still returns `alice` for it after the call. -/
theorem reissued_token_stays_valid :
    firstLogin.1
      = .returned (.ok { AccessToken := "access_token:alice", TokenType := "Bearer",
                         RefreshToken := "refresh_token:alice", ExpiresIn := 7200 }) ∧
    listCacheHolds firstLogin.2.cache (tokenCacheKey "alice" "access_token:alice") ∧
    secondLogin.1
      = .returned (.ok { AccessToken := "access_token:alice", TokenType := "Bearer",
                         RefreshToken := "refresh_token:alice", ExpiresIn := 7200 }) ∧
    (Verify (loginOperator cachingOptions) "access_token:alice" secondLogin.2).1
      = .ok alice :=
  ⟨rfl, by unfold listCacheHolds; decide, rfl, rfl⟩

/-- C26 as amended: under the contract of the cache, after a successful
`IssueTo` for a user with single login and a positive access token lifetime,
the held keys that match `kubesphere:user:<user>:token:*` are exactly the keys
of the newly issued access and refresh tokens; so `Verify` returns an error
for every token of that user, other than the two just issued, that is not
static and whose key the pattern covers. With multiple login the calls of
`IssueTo` on the cache are `Set` calls only, none is a `Del`, and after a
successful `IssueTo` every key held before is still held. -/
theorem issueTo_single_login {S : Type} {holds : S → String → Prop}
    {isMatch : String → String → Prop} (t : tokenOperator S)
    (hc : CacheContract t.cache holds isMatch) (user : UserInfo) (s : CacheState S)
    (o : OAuthOptions) (ho : t.options.OAuthOptions = some o) :
    (∀ token, (IssueTo t user s).1 = .returned (.ok token) →
      t.options.MultipleLogin = false → 0 < o.AccessTokenMaxAge →
      (∀ k, isMatch (userTokenPattern user.Name) k →
        (holds (IssueTo t user s).2.cache k ↔
          k = tokenCacheKey user.Name token.AccessToken ∨
          k = tokenCacheKey user.Name token.RefreshToken)) ∧
      (∀ tokenStr authenticated tokenType,
        tokenStr ≠ token.AccessToken → tokenStr ≠ token.RefreshToken →
        t.issuer.Verify tokenStr = .ok (authenticated, tokenType) →
        authenticated.Name = user.Name → tokenType ≠ StaticToken →
        isMatch (userTokenPattern user.Name) (tokenCacheKey user.Name tokenStr) →
        ∃ e, (Verify t tokenStr (IssueTo t user s).2).1 = .error e)) ∧
    (t.options.MultipleLogin = true →
      (∀ keys, CacheCall.Del keys ∉ cacheCallsMade s (IssueTo t user s).2) ∧
      (∀ call ∈ cacheCallsMade s (IssueTo t user s).2,
        ∃ key value duration, call = CacheCall.Set key value duration) ∧
      (∀ token, (IssueTo t user s).1 = .returned (.ok token) →
        ∀ k, holds s.cache k → holds (IssueTo t user s).2.cache k)) := by
  refine ⟨?_, ?_⟩
  · intro token hissue hm hpos
    have hkeys : ∀ k, isMatch (userTokenPattern user.Name) k →
        (holds (IssueTo t user s).2.cache k ↔
          k = tokenCacheKey user.Name token.AccessToken ∨
          k = tokenCacheKey user.Name token.RefreshToken) := by
      intro k hmatch
      rw [issueTo_holds t hc user s o token ho hissue k]
      constructor
      · rintro (⟨_, h⟩ | ⟨_, h⟩)
        · exact h
        · exact absurd hmatch (h hm)
      · intro h
        exact Or.inl ⟨hpos, h⟩
    refine ⟨hkeys, ?_⟩
    intro tokenStr authenticated tokenType hne1 hne2 hv hname hty hmatch
    have hnot : ¬ holds (IssueTo t user s).2.cache
        (tokenCacheKey authenticated.Name tokenStr) := by
      rw [hname]
      intro hh
      rcases (hkeys _ hmatch).1 hh with h | h
      · exact hne1 (tokenCacheKey_injective _ _ _ h)
      · exact hne2 (tokenCacheKey_injective _ _ _ h)
    exact (verify_of_holds t hc tokenStr _ o authenticated tokenType ho hv).2 hnot
      (ne_of_gt hpos) hty
  · intro hm
    obtain ⟨l, hl, hsets⟩ := issueTo_calls_multipleLogin t user s hm
    have hmade : cacheCallsMade s (IssueTo t user s).2 = l := by
      simp [cacheCallsMade, hl]
    refine ⟨?_, ?_, ?_⟩
    · intro keys hmem
      rw [hmade] at hmem
      obtain ⟨_, _, _, h⟩ := hsets _ hmem
      cases h
    · intro call hmem
      rw [hmade] at hmem
      exact hsets call hmem
    · intro token hissue k hk
      rw [issueTo_holds t hc user s o token ho hissue k]
      exact Or.inr ⟨hk, fun h => by rw [hm] at h; cases h⟩

/-- Witness of C26 as amended: the cache holds the key of an access token of
`alice` from an earlier login and a key of `bob`. After a login of `alice`
under single login, `Verify` rejects the earlier token, and the key of `bob`
is untouched. -/
theorem issueTo_single_login_witness :
    (∃ e, (Verify (loginOperator cachingOptions) "access_token:alice:earlier"
      (IssueTo (loginOperator cachingOptions) alice staleCache).2).1 = .error e) ∧
    (IssueTo (loginOperator cachingOptions) alice staleCache).2.cache
      = [("kubesphere:user:alice:token:refresh_token:alice", "refresh_token:alice"),
         ("kubesphere:user:alice:token:access_token:alice", "access_token:alice"),
         ("kubesphere:user:bob:token:access_token:bob", "access_token:bob")] :=
  ⟨((issueTo_single_login (loginOperator cachingOptions) listCache_contract alice staleCache
      { AccessTokenMaxAge := 7200000000000, AccessTokenInactivityTimeout := 0 } rfl).1
      { AccessToken := "access_token:alice", TokenType := "Bearer",
        RefreshToken := "refresh_token:alice", ExpiresIn := 7200 }
      rfl rfl (by decide)).2
      "access_token:alice:earlier" alice AccessToken (by decide) (by decide) rfl rfl
      (by decide) (listCacheMatch_userTokenPattern "alice" "access_token:alice:earlier"),
   rfl⟩

end TokenOperator

/-! # The claim on the Sonar results of a pipeline -/

namespace PipelineSonar

open PipelineController (GoError StatusNotFound)

theorem appendSonarTaskIds_eq (taskIds : List String) (actions : List Action) :
    appendSonarTaskIds taskIds actions
      = taskIds ++ (actions.filter
          (fun action => action.ClassName = SonarAnalysisActionClass)).map
            Action.SonarTaskId := by
  induction actions generalizing taskIds with
  | nil => simp [appendSonarTaskIds]
  | cons a l ih =>
    have hstep : appendSonarTaskIds taskIds (a :: l)
        = appendSonarTaskIds
            (if a.ClassName = SonarAnalysisActionClass then taskIds ++ [a.SonarTaskId]
             else taskIds) l := rfl
    rw [hstep, ih]
    by_cases h : a.ClassName = SonarAnalysisActionClass
    · simp [h]
    · simp [h]

theorem appendSonarTaskIds_nil (build : Build) :
    appendSonarTaskIds [] build.Actions = sonarTaskIdsOf build := by
  rw [appendSonarTaskIds_eq]
  rfl

theorem querySonar_calls {R D : Type} (g : pipelineSonarGetter R D) (errors : ErrorReader)
    (taskIds : List String) (s : SonarState D) :
    (querySonar g errors taskIds s).2.calls
      = s.calls ++ [SonarCall.GetSonarResultsByTaskIds taskIds] := by
  rcases h : (g.GetSonarResultsByTaskIds s.services taskIds).1 with err | sonarStatus <;>
    simp [querySonar, h]

theorem querySonar_ok {R D : Type} (g : pipelineSonarGetter R D) (errors : ErrorReader)
    (taskIds : List String) (s : SonarState D) (sonarStatus : Option (List R))
    (h : (g.GetSonarResultsByTaskIds s.services taskIds).1 = .ok sonarStatus) :
    (querySonar g errors taskIds s).1 = .returned (.ok sonarStatus) := by
  simp [querySonar, h]

theorem querySonar_error {R D : Type} (g : pipelineSonarGetter R D) (errors : ErrorReader)
    (taskIds : List String) (s : SonarState D) (err : GoError)
    (h : (g.GetSonarResultsByTaskIds s.services taskIds).1 = .error err) :
    (querySonar g errors taskIds s).1
      = .returned (.error (.ServiceError StatusBadRequest (errors.Error err))) := by
  simp [querySonar, h]

/-- The behaviour of `GetPipelineSonar` on every path but the one that panics:
when the lookup of the last build returns a build, the task ids
`GetPipelineSonar` collects from it are the task ids of its Sonar analysis
actions, in the order of the actions. When there is at least one, the calls
are the lookup and one Sonar query with exactly these ids (no lookup of the
last completed build), and the results of the query are returned. When there
is none, the last completed build is looked up: an error of that lookup with
service code 404 gives the nil result and the nil error without a Sonar query;
an error with another service code gives an error with that code and the text
of the error, again without a Sonar query; and a build gives one Sonar query
with the task ids of that build, whose results are returned. In both places
an error of the Sonar query gives an error with code 400. (A lookup of the
last completed build that returns neither an error nor a build ends in a
panic.) -/
theorem getPipelineSonar_taskIds_source {R D : Type} (g : pipelineSonarGetter R D)
    (errors : ErrorReader) (projectId pipelineId : String) (s : SonarState D)
    (build : Build)
    (hlast : (g.GetProjectPipelineBuildByType s.services projectId pipelineId LastBuild).1
      = .ok (some build)) :
    appendSonarTaskIds [] build.Actions = sonarTaskIdsOf build ∧
    (sonarTaskIdsOf build ≠ [] →
      sonarCallsMade s (GetPipelineSonar g errors projectId pipelineId s).2
        = [SonarCall.GetProjectPipelineBuildByType projectId pipelineId LastBuild,
           SonarCall.GetSonarResultsByTaskIds (sonarTaskIdsOf build)] ∧
      (∀ sonarStatus,
        (g.GetSonarResultsByTaskIds (afterLastBuild g projectId pipelineId s)
          (sonarTaskIdsOf build)).1 = .ok sonarStatus →
        (GetPipelineSonar g errors projectId pipelineId s).1 = .returned (.ok sonarStatus)) ∧
      (∀ err,
        (g.GetSonarResultsByTaskIds (afterLastBuild g projectId pipelineId s)
          (sonarTaskIdsOf build)).1 = .error err →
        (GetPipelineSonar g errors projectId pipelineId s).1
          = .returned (.error (.ServiceError 400 (errors.Error err))))) ∧
    (sonarTaskIdsOf build = [] →
      (∀ err,
        (g.GetProjectPipelineBuildByType (afterLastBuild g projectId pipelineId s)
          projectId pipelineId LastCompletedBuild).1 = .error err →
        (errors.GetServiceErrorCode err = 404 →
          (GetPipelineSonar g errors projectId pipelineId s).1 = .returned (.ok none)) ∧
        (errors.GetServiceErrorCode err ≠ 404 →
          (GetPipelineSonar g errors projectId pipelineId s).1
            = .returned (.error
                (.ServiceError (errors.GetServiceErrorCode err) (errors.Error err)))) ∧
        sonarCallsMade s (GetPipelineSonar g errors projectId pipelineId s).2
          = [SonarCall.GetProjectPipelineBuildByType projectId pipelineId LastBuild,
             SonarCall.GetProjectPipelineBuildByType projectId pipelineId
               LastCompletedBuild]) ∧
      (∀ completed,
        (g.GetProjectPipelineBuildByType (afterLastBuild g projectId pipelineId s)
          projectId pipelineId LastCompletedBuild).1 = .ok (some completed) →
        sonarCallsMade s (GetPipelineSonar g errors projectId pipelineId s).2
          = [SonarCall.GetProjectPipelineBuildByType projectId pipelineId LastBuild,
             SonarCall.GetProjectPipelineBuildByType projectId pipelineId LastCompletedBuild,
             SonarCall.GetSonarResultsByTaskIds (sonarTaskIdsOf completed)] ∧
        (∀ sonarStatus,
          (g.GetSonarResultsByTaskIds (afterLastCompleted g projectId pipelineId s)
            (sonarTaskIdsOf completed)).1 = .ok sonarStatus →
          (GetPipelineSonar g errors projectId pipelineId s).1
            = .returned (.ok sonarStatus)) ∧
        (∀ err,
          (g.GetSonarResultsByTaskIds (afterLastCompleted g projectId pipelineId s)
            (sonarTaskIdsOf completed)).1 = .error err →
          (GetPipelineSonar g errors projectId pipelineId s).1
            = .returned (.error (.ServiceError 400 (errors.Error err))))) ∧
      ((g.GetProjectPipelineBuildByType (afterLastBuild g projectId pipelineId s)
          projectId pipelineId LastCompletedBuild).1 = .ok none →
        (GetPipelineSonar g errors projectId pipelineId s).1 = .panicked)) := by
  have hids := appendSonarTaskIds_nil build
  refine ⟨hids, ?_, ?_⟩
  · intro hne
    have hlen : (sonarTaskIdsOf build).length ≠ 0 := by
      intro h
      exact hne (List.length_eq_zero.1 h)
    have hrun : GetPipelineSonar g errors projectId pipelineId s
        = querySonar g errors (sonarTaskIdsOf build)
            { services := afterLastBuild g projectId pipelineId s,
              calls := s.calls ++
                [SonarCall.GetProjectPipelineBuildByType projectId pipelineId LastBuild] } := by
      simp only [GetPipelineSonar, hlast, hids, hlen, ne_eq, not_false_eq_true, if_true,
        afterLastBuild]
    rw [hrun]
    refine ⟨?_, ?_, ?_⟩
    · simp [sonarCallsMade, querySonar_calls]
    · intro sonarStatus h
      exact querySonar_ok g errors _ _ sonarStatus h
    · intro err h
      exact querySonar_error g errors _ _ err h
  · intro hnil
    refine ⟨?_, ?_, ?_⟩
    · intro err h2
      have hrun : GetPipelineSonar g errors projectId pipelineId s
          = (if errors.GetServiceErrorCode err ≠ StatusNotFound then
              (.returned (.error
                (.ServiceError (errors.GetServiceErrorCode err) (errors.Error err))),
               { services := afterLastCompleted g projectId pipelineId s,
                 calls := s.calls ++
                   [SonarCall.GetProjectPipelineBuildByType projectId pipelineId LastBuild] ++
                   [SonarCall.GetProjectPipelineBuildByType projectId pipelineId
                     LastCompletedBuild] })
            else
              (.returned (.ok none),
               { services := afterLastCompleted g projectId pipelineId s,
                 calls := s.calls ++
                   [SonarCall.GetProjectPipelineBuildByType projectId pipelineId LastBuild] ++
                   [SonarCall.GetProjectPipelineBuildByType projectId pipelineId
                     LastCompletedBuild] })) := by
        unfold afterLastBuild at h2
        simp only [GetPipelineSonar, hlast, hids, hnil, List.length_nil, ne_eq,
          not_true_eq_false, if_false, h2, afterLastCompleted, afterLastBuild]
      rw [hrun]
      refine ⟨?_, ?_, ?_⟩
      · intro hc
        simp [hc, StatusNotFound]
      · intro hc
        simp [hc, StatusNotFound]
      · split <;> simp [sonarCallsMade]
    · intro completed h2
      have hrun : GetPipelineSonar g errors projectId pipelineId s
          = querySonar g errors (sonarTaskIdsOf completed)
              { services := afterLastCompleted g projectId pipelineId s,
                calls := s.calls ++
                  [SonarCall.GetProjectPipelineBuildByType projectId pipelineId LastBuild] ++
                  [SonarCall.GetProjectPipelineBuildByType projectId pipelineId
                    LastCompletedBuild] } := by
        unfold afterLastBuild at h2
        simp only [GetPipelineSonar, hlast, hids, hnil, List.length_nil, ne_eq,
          not_true_eq_false, if_false, h2, afterLastCompleted, afterLastBuild,
          appendSonarTaskIds_nil]
      rw [hrun]
      refine ⟨?_, ?_, ?_⟩
      · simp [sonarCallsMade, querySonar_calls]
      · intro sonarStatus h
        exact querySonar_ok g errors _ _ sonarStatus h
      · intro err h
        exact querySonar_error g errors _ _ err h
    · intro h2
      unfold afterLastBuild at h2
      simp only [GetPipelineSonar, hlast, hids, hnil, List.length_nil, ne_eq,
        not_true_eq_false, if_false, h2]

/-- An example of the paths that do not panic: the last build has two Sonar
analysis actions, and their results are returned after one Sonar query; a last build without one and no
last completed build gives the nil result without a Sonar query; and a last
build without one gives the results of the last completed build. -/
theorem getPipelineSonar_taskIds_source_witness :
    ((GetPipelineSonar exampleGetter exampleErrors "project" "pipeline"
        (sonarStart analysedBuild none)).1
        = .returned (.ok (some ["result of t1", "result of t2"])) ∧
      sonarCallsMade (sonarStart analysedBuild none)
        (GetPipelineSonar exampleGetter exampleErrors "project" "pipeline"
          (sonarStart analysedBuild none)).2
        = [SonarCall.GetProjectPipelineBuildByType "project" "pipeline" LastBuild,
           SonarCall.GetSonarResultsByTaskIds ["t1", "t2"]]) ∧
    (GetPipelineSonar exampleGetter exampleErrors "project" "pipeline"
        (sonarStart plainBuild none)).1 = .returned (.ok none) ∧
    (GetPipelineSonar exampleGetter exampleErrors "project" "pipeline"
        (sonarStart plainBuild (some analysedBuild))).1
        = .returned (.ok (some ["result of t1", "result of t2"])) :=
  have h1 := (getPipelineSonar_taskIds_source exampleGetter exampleErrors "project" "pipeline"
    (sonarStart analysedBuild none) analysedBuild rfl).2.1 (by decide)
  have h2 := (getPipelineSonar_taskIds_source exampleGetter exampleErrors "project" "pipeline"
    (sonarStart plainBuild none) plainBuild rfl).2.2 (by decide)
  have h3 := (getPipelineSonar_taskIds_source exampleGetter exampleErrors "project" "pipeline"
    (sonarStart plainBuild (some analysedBuild)) plainBuild rfl).2.2 (by decide)
  ⟨⟨h1.2.1 _ rfl, h1.1⟩,
   (h2.1 (.ServiceError 404 "build not found") rfl).1 rfl,
   (h3.2.1 analysedBuild rfl).2.1 _ rfl⟩

/-- C29 fails on the code where the lookup of the last completed build returns
neither an error nor a build: when the last build has no Sonar analysis
action and that lookup returns a nil build with a nil error,
`GetPipelineSonar` panics (the nil build is dereferenced at line 80) after the
two lookups and without a Sonar query; no Sonar results and no error are
returned. -/
theorem getPipelineSonar_nil_completed_build_panics {R D : Type}
    (g : pipelineSonarGetter R D) (errors : ErrorReader) (projectId pipelineId : String)
    (s : SonarState D) (build : Build)
    (hlast : (g.GetProjectPipelineBuildByType s.services projectId pipelineId LastBuild).1
      = .ok (some build))
    (hplain : sonarTaskIdsOf build = [])
    (hnil : (g.GetProjectPipelineBuildByType (afterLastBuild g projectId pipelineId s)
      projectId pipelineId LastCompletedBuild).1 = .ok none) :
    (GetPipelineSonar g errors projectId pipelineId s).1 = .panicked ∧
    (∀ result, (GetPipelineSonar g errors projectId pipelineId s).1 ≠ .returned result) ∧
    sonarCallsMade s (GetPipelineSonar g errors projectId pipelineId s).2
      = [SonarCall.GetProjectPipelineBuildByType projectId pipelineId LastBuild,
         SonarCall.GetProjectPipelineBuildByType projectId pipelineId LastCompletedBuild] := by
  have hids := appendSonarTaskIds_nil build
  unfold afterLastBuild at hnil
  have hrun : GetPipelineSonar g errors projectId pipelineId s
      = (.panicked,
         { services := afterLastCompleted g projectId pipelineId s,
           calls := s.calls ++
             [SonarCall.GetProjectPipelineBuildByType projectId pipelineId LastBuild] ++
             [SonarCall.GetProjectPipelineBuildByType projectId pipelineId
               LastCompletedBuild] }) := by
    simp only [GetPipelineSonar, hlast, hids, hplain, List.length_nil, ne_eq,
      not_true_eq_false, if_false, hnil, afterLastCompleted, afterLastBuild]
  rw [hrun]
  refine ⟨rfl, ?_, ?_⟩
  · intro result h
    cases h
  · simp [sonarCallsMade]

/-- Witness of the failure of C29: the last build has no Sonar analysis action
and the build service answers the lookup of the last completed build with a
nil build and a nil error. The run panics after the two lookups. -/
theorem getPipelineSonar_nil_completed_build_panics_witness :
    (nilBuildGetter.GetProjectPipelineBuildByType (sonarStart plainBuild none).services
        "project" "pipeline" LastCompletedBuild).1 = .ok none ∧
    (GetPipelineSonar nilBuildGetter exampleErrors "project" "pipeline"
        (sonarStart plainBuild none)).1 = .panicked ∧
    sonarCallsMade (sonarStart plainBuild none)
        (GetPipelineSonar nilBuildGetter exampleErrors "project" "pipeline"
          (sonarStart plainBuild none)).2
      = [SonarCall.GetProjectPipelineBuildByType "project" "pipeline" LastBuild,
         SonarCall.GetProjectPipelineBuildByType "project" "pipeline" LastCompletedBuild] :=
  have h := getPipelineSonar_nil_completed_build_panics nilBuildGetter exampleErrors
    "project" "pipeline" (sonarStart plainBuild none) plainBuild rfl (by decide) rfl
  ⟨rfl, h.1, h.2.2⟩

end PipelineSonar
